import Mathlib

/-!
# ControllerInstallation reconciler (gardenlet)

A shallow embedding of
`pkg/gardenlet/controller/controllerinstallation/controllerinstallation_control.go`.

The reconciler talks to two API servers (the garden cluster and the seed cluster), to a
chart renderer and to the clock.  Every such call is an input of the model: a `World`
fixes the outcome each call site observes, and a pass returns how it exits together with
the ordered list of the calls it issued (`Call`) and the installation object as the pass
left it.  A Go `defer` is modelled by running the body first and appending the deferred
call afterwards, with the final values of the variables the closure captured.
-/

namespace ControllerInstallationControl

/-! ## Errors and results -/

/-- The classes of API errors the reconciler tells apart (`apierrors.IsNotFound`,
`apierrors.IsConflict`); everything else is `other`. -/
inductive ErrKind where
  | notFound
  | conflict
  | other
deriving DecidableEq, Repr

/-- A Go `error` value: its class and its text as printed by `%+v`. -/
structure Err where
  kind : ErrKind
  text : String
deriving DecidableEq, Repr

/-- The check `apierrors.IsNotFound(err)` on a non-nil error. -/
def IsNotFound (e : Err) : Bool := e.kind = ErrKind.notFound

/-- The check `apierrors.IsConflict(err)` on a non-nil error. -/
def IsConflict (e : Err) : Bool := e.kind = ErrKind.conflict

/-- The helper `client.IgnoreNotFound(err)`: nil for nil and for not-found errors. -/
def IgnoreNotFound : Option Err → Option Err
  | none => none
  | some e => if IsNotFound e then none else some e

/-- The wrapping `fmt.Errorf(head + ": %w", err)`: the text is extended, the class of the
wrapped error stays visible. -/
def Errorf (head : String) (e : Err) : Err :=
  { kind := e.kind, text := head ++ ": " ++ e.text }

/-- One second of `time.Duration`, in nanoseconds. -/
def Second : Nat := 1000000000

/-- The value `reconcile.Result`. -/
structure Result where
  Requeue : Bool := false
  RequeueAfter : Nat := 0
deriving DecidableEq, Repr

/-- How a Go function call ends: it returns `(reconcile.Result, error)` or it panics; a
panic is recorded with the text of the run-time error and with the expression whose
evaluation raises it. -/
inductive Exit where
  | returned (result : Result) (err : Option Err)
  | panicked (what : String) (expression : String)
deriving DecidableEq, Repr

/-- The text of the run-time error of a nil pointer dereference. -/
def nilDereference : String := "invalid memory address or nil pointer dereference"

/-! ## Conditions -/

/-- The type `gardencorev1beta1.ConditionStatus`. -/
inductive ConditionStatus where
  | ConditionTrue
  | ConditionFalse
  | ConditionUnknown
deriving DecidableEq, Repr

/-- The type `gardencorev1beta1.ConditionType`, a string. -/
abbrev ConditionType := String

/-- The constant `gardencorev1beta1.ControllerInstallationValid`. -/
def ControllerInstallationValid : ConditionType := "Valid"

/-- The constant `gardencorev1beta1.ControllerInstallationInstalled`. -/
def ControllerInstallationInstalled : ConditionType := "Installed"

/-- Modelled from the spec: the type `gardencorev1beta1.Condition` is declared outside the
given sources.  The spec's condition schema is
{type, status, reason, message, lastTransitionTime}. -/
structure Condition where
  type : ConditionType
  status : ConditionStatus
  lastTransitionTime : Nat
  reason : String
  message : String
deriving DecidableEq, Repr

/-- Modelled from the spec: the helper `gardencorev1beta1helper.InitCondition` is outside
the given sources.  "Unknown is the default before first evaluation": a fresh condition of
the given type with status Unknown, stamped with the current time. -/
def InitCondition (now : Nat) (conditionType : ConditionType) : Condition :=
  { type := conditionType
    status := ConditionStatus.ConditionUnknown
    lastTransitionTime := now
    reason := "ConditionInitialized"
    message := "The condition has been initialized but its semantic check has not been performed yet." }

/-- Modelled from the spec: the helper `gardencorev1beta1helper.GetCondition` is outside
the given sources.  The spec's "manual lookup" in the flat list: the first condition of
the given type, if any. -/
def GetCondition : List Condition → ConditionType → Option Condition
  | [], _ => none
  | c :: rest, conditionType =>
      if c.type = conditionType then some c else GetCondition rest conditionType

/-- Modelled from the spec: the helper `gardencorev1beta1helper.GetOrInitCondition` is
outside the given sources.  "Load or default-initialize the Valid and Installed conditions
from current status." -/
def GetOrInitCondition (now : Nat) (conditions : List Condition)
    (conditionType : ConditionType) : Condition :=
  match GetCondition conditions conditionType with
  | some c => c
  | none => InitCondition now conditionType

/-- Modelled from the spec: the helper `gardencorev1beta1helper.UpdatedCondition` is
outside the given sources.  It keeps the type and sets status, reason and message; the
last-transition timestamp moves to the current time exactly when the status changes. -/
def UpdatedCondition (now : Nat) (condition : Condition) (status : ConditionStatus)
    (reason message : String) : Condition :=
  { type := condition.type
    status := status
    lastTransitionTime :=
      if condition.status = status then condition.lastTransitionTime else now
    reason := reason
    message := message }

/-- The loop that fills the `typeToIndex` map of the merge, left to right from index `i`:
a later entry of the same type overwrites an earlier one. -/
def typeToIndexFrom : List Condition → ConditionType → Nat → Option Nat → Option Nat
  | [], _, _, found => found
  | c :: rest, conditionType, i, found =>
      typeToIndexFrom rest conditionType (i + 1) (if c.type = conditionType then some i else found)

/-- The read `typeToIndex[conditionType]`: the index of the last condition of the given
type in the old list, if any. -/
def typeToIndex (conditions : List Condition) (conditionType : ConditionType) : Option Nat :=
  typeToIndexFrom conditions conditionType 0 none

/-- Modelled from the spec: the helper `gardencorev1beta1helper.MergeConditions` is
outside the given sources.  "Conditions are merged by type key, last-writer-wins per type"
over "a flat list with manual lookup/merge": the result starts as a copy of the old list;
each new condition replaces, in place, the old entry of its type, and is appended when the
old list has no entry of its type. -/
def MergeConditions (oldConditions : List Condition) (newConditions : List Condition) :
    List Condition :=
  newConditions.foldl
    (fun out condition =>
      match typeToIndex oldConditions condition.type with
      | some index => out.set index condition
      | none => out ++ [condition])
    oldConditions

/-! ## Value maps handed to the chart renderer -/

mutual
/-- A Go `interface{}` value inside a `map[string]interface{}`: either a nested
`map[string]interface{}` (`obj`) or any other dynamic value (`leaf`, given by its printed
form: strings, booleans, typed slices, typed maps such as `map[string]string`, structs). -/
inductive Value where
  | leaf (repr : String)
  | obj (fields : Fields)
deriving DecidableEq
/-- The entries of a `map[string]interface{}`; a key is looked up front to back. -/
inductive Fields where
  | nil
  | cons (key : String) (value : Value) (rest : Fields)
deriving DecidableEq
end

namespace Fields

/-- The map read `m[k]`. -/
def lookup (k : String) : Fields → Option Value
  | nil => none
  | cons key v rest => if key = k then some v else lookup k rest

/-- Concatenation of entry lists. -/
def append : Fields → Fields → Fields
  | nil, b => b
  | cons k v r, b => cons k v (append r b)

/-- The entries of the first map whose key the second map does not hold. -/
def without : Fields → Fields → Fields
  | nil, _ => nil
  | cons k v r, b => if (b.lookup k).isSome then without r b else cons k v (without r b)

end Fields

mutual
/-- The value `MergeMaps` stores under a key of `b`: `b`'s value, merged recursively with
`a`'s value when both are nested maps. -/
def mergeValue : Option Value → Value → Value
  | some (Value.obj ea), Value.obj eb =>
      Value.obj ((mergeEntries ea eb).append (ea.without eb))
  | _, v => v
/-- The first loop of `MergeMaps`, over the entries of `b`. -/
def mergeEntries (a : Fields) : Fields → Fields
  | Fields.nil => Fields.nil
  | Fields.cons k v rest => Fields.cons k (mergeValue (a.lookup k) v) (mergeEntries a rest)
end

/-- Modelled from the spec: the helper `utils.MergeMaps` is outside the given sources.
"Merge the reserved injected value map into the user-supplied value overlay; injected
values take precedence over any identically-keyed user values": every key of `b` is
stored with `b`'s value (nested maps are merged key by key, the same way), then every key
of `a` that `b` does not hold is added. -/
def MergeMaps (a b : Fields) : Fields :=
  (mergeEntries a b).append (a.without b)

/-- The value found by following a key path down nested maps; the empty path is the value
itself. -/
def Value.atPath : Value → List String → Option Value
  | v, [] => some v
  | Value.leaf _, _ :: _ => none
  | Value.obj m, k :: p =>
      match m.lookup k with
      | some v => v.atPath p
      | none => none

/-! ## The objects read from the garden cluster -/

/-- The finalizer of the controller (`finalizerName`, declared in the package's
`controller.go`, outside the given sources; taken as the upstream constant). -/
def finalizerName : String := "core.gardener.cloud/controllerinstallation"

/-- The constant `installationTypeHelm`. -/
def installationTypeHelm : String := "helm"

/-- The constant `v1beta1constants.GardenNamespace`. -/
def GardenNamespace : String := "garden"

/-- The constant `gardencorev1beta1.SeedTaintProtected`. -/
def SeedTaintProtected : String := "seed.gardener.cloud/protected"

/-- The fields of `gardencorev1beta1.ControllerInstallation` the reconciler reads or
writes. -/
structure ControllerInstallation where
  name : String
  finalizers : List String
  deletionTimestamp : Option Nat
  registrationRef : String
  seedRef : String
  deploymentRef : Option String
  conditions : List Condition
deriving DecidableEq, Repr

/-- The type `gardencorev1beta1.ControllerRegistration`, by name. -/
structure ControllerRegistration where
  name : String
deriving DecidableEq, Repr

/-- The type `gardencorev1beta1.ControllerDeployment`: the discriminator and the raw
provider configuration. -/
structure ControllerDeployment where
  type : String
  providerConfigRaw : String
deriving DecidableEq, Repr

/-- The type `gardencorev1beta1.Ingress`, by its domain. -/
structure Ingress where
  domain : String
deriving DecidableEq, Repr

/-- The type `gardencorev1beta1.SeedSettingScheduling`. -/
structure SeedSettingScheduling where
  visible : Bool
deriving DecidableEq, Repr

/-- The type `gardencorev1beta1.SeedSettings`: the scheduling settings, a pointer. -/
structure SeedSettings where
  scheduling : Option SeedSettingScheduling
deriving DecidableEq, Repr

/-- The fields of `gardencorev1beta1.Seed` that enter the injected values; values of
struct, slice and typed-map types are carried in printed form.  The fields read through a
pointer (`Spec.Volume`, `Status.ClusterIdentity`, `Spec.DNS.IngressDomain`, `Spec.Ingress`,
`Spec.Settings`) are optional: `none` is the nil pointer. -/
structure Seed where
  name : String
  annotationsRepr : String
  labelsRepr : String
  providerType : String
  providerRegion : String
  volumeProviders : Option (List String)
  clusterIdentity : Option String
  dnsIngressDomain : Option String
  ingress : Option Ingress
  taintKeys : List String
  settings : Option SeedSettings
  networksRepr : String
  blockCIDRsRepr : String
  specRepr : String
deriving DecidableEq, Repr

/-- The decoded provider configuration `HelmDeployment`: the chart archive and the value
overlay. -/
structure HelmDeployment where
  Chart : String
  Values : Fields
deriving DecidableEq

/-- The type `gardencorev1beta1.Gardener`, by its version. -/
structure Gardener where
  version : String
deriving DecidableEq, Repr

/-- The type `corev1.Namespace`, by its UID. -/
structure Namespace where
  uid : String
deriving DecidableEq, Repr

/-- The fields of the `reconciler` struct that enter the injected values; `identity` and
`gardenNamespace` are pointers, `none` is the nil pointer. -/
structure Reconciler where
  identity : Option Gardener
  gardenNamespace : Option Namespace
  gardenClusterIdentity : String
deriving DecidableEq, Repr

/-! ## External calls -/

/-- One call issued by a pass, with the arguments that matter.  The status patch issued by
`patchConditions` is recorded with the conditions handed to `patchConditions` and with the
merged condition list it writes. -/
inductive Call where
  | getControllerInstallation
  | getControllerDeployment (name : String)
  | addFinalizers (finalizer : String)
  | removeFinalizers (finalizer : String)
  | getControllerRegistration (name : String)
  | getSeed (name : String)
  | upsertNamespace (name : String) (registrationName : String)
  | renderArchive (chart releaseName ns : String) (values : Fields)
  | createManagedResource (ns name : String) (secretData : String)
  | deleteManagedResource (ns name : String)
  | deleteSecret (ns name : String)
  | deleteNamespace (name : String)
  | patchStatus (handed written : List Condition)
deriving DecidableEq

/-- The outcome every call site observes in one invocation, and the clock.  Nothing ties
one outcome to another: the two reads of the deployment record (in `isResponsible` and in
`reconcile`) may differ.  The outcome of the status patch is only logged by the callers. -/
structure World where
  now : Nat
  getControllerInstallation : Except Err ControllerInstallation
  getControllerDeploymentResponsible : Except Err ControllerDeployment
  addFinalizers : Option Err
  getControllerRegistration : Except Err ControllerRegistration
  getSeed : Except Err Seed
  getControllerDeployment : Except Err ControllerDeployment
  unmarshal : String → Except Err HelmDeployment
  upsertNamespace : Option Err
  renderArchive : String → String → String → Fields → Except Err String
  createManagedResource : Option Err
  deleteManagedResource : Option Err
  deleteSecret : Option Err
  deleteNamespace : Option Err
  removeFinalizers : Option Err
  patchStatus : Option Err

/-- What a pass (`reconcile` or `delete`) leaves behind. -/
structure Outcome where
  exit : Exit
  trace : List Call
  installation : ControllerInstallation
deriving DecidableEq

/-- The body of a pass up to its return, before the deferred status patch runs: the exit,
the calls so far, the object, and the final values of the two captured condition
variables. -/
structure Body where
  exit : Exit
  trace : List Call
  installation : ControllerInstallation
  conditionValid : Condition
  conditionInstalled : Condition
deriving DecidableEq

/-! ## Helpers of the reconciler -/

/-- The check `controllerutil.ContainsFinalizer`. -/
def ContainsFinalizer (ci : ControllerInstallation) (finalizer : String) : Bool :=
  decide (finalizer ∈ ci.finalizers)

/-- Modelled from the spec: the helper `controllerutils.AddFinalizers` is outside the given
sources.  "Ensure the finalizer is present; add it if missing": when the write succeeds the
object carries the finalizer, when it fails the object is as before. -/
def AddFinalizers (w : World) (ci : ControllerInstallation) (finalizer : String) :
    ControllerInstallation × Option Err :=
  match w.addFinalizers with
  | none =>
      (if finalizer ∈ ci.finalizers then ci
        else { ci with finalizers := ci.finalizers ++ [finalizer] }, none)
  | some err => (ci, some err)

/-- Modelled from the spec: the helper `controllerutils.RemoveFinalizers` is outside the
given sources.  "Remove the finalizer if present": when the write succeeds the object no
longer carries the finalizer, when it fails the object is as before. -/
def RemoveFinalizers (w : World) (ci : ControllerInstallation) (finalizer : String) :
    ControllerInstallation × Option Err :=
  match w.removeFinalizers with
  | none => ({ ci with finalizers := ci.finalizers.filter (fun f => f ≠ finalizer) }, none)
  | some err => (ci, some err)

/-- Modelled from the spec: the helper `gutil.NamespaceNameForControllerInstallation` is
outside the given sources.  "Compute the target namespace name deterministically from the
Installation's identity." -/
def NamespaceNameForControllerInstallation (ci : ControllerInstallation) : String :=
  "extension-" ++ ci.name

/-- The function `getNamespaceForControllerInstallation`: the namespace object, by name. -/
def getNamespaceForControllerInstallation (ci : ControllerInstallation) : String :=
  NamespaceNameForControllerInstallation ci

/-- The verb `%q` of `fmt.Sprintf` on a name. -/
def quoted (s : String) : String := "\"" ++ s ++ "\""

/-- Modelled from the spec: the helper `gardencorev1beta1helper.TaintsHave` is outside the
given sources.  The "taint-derived protected boolean": whether a taint with the key is
listed. -/
def TaintsHave (taintKeys : List String) (key : String) : Bool :=
  decide (key ∈ taintKeys)

/-- The printed form of a boolean. -/
def boolRepr (b : Bool) : String := if b then "true" else "false"

/-- The map literal `gardenerValues` of `reconcile` (lines 227-252): the injected values
under the reserved top-level key "gardener".  Its elements are evaluated in the order they
are written; `r.identity`, `r.gardenNamespace`, `seed.Spec.Settings` and
`seed.Spec.Settings.Scheduling` are pointers, and reading a field through one that is nil
panics: the result is then the expression that raises the panic. -/
def gardenerValues (r : Reconciler) (seed : Seed) (seedClusterIdentity volumeProvider : String)
    (volumeProviders : Option (List String)) (ingressDomain : String) : Except String Fields :=
  match r.identity with
  | none => Except.error "r.identity.Version"
  | some identity =>
  match r.gardenNamespace with
  | none => Except.error "r.gardenNamespace.UID"
  | some gardenNamespace =>
  match seed.settings with
  | none => Except.error "seed.Spec.Settings.Scheduling"
  | some settings =>
  match settings.scheduling with
  | none => Except.error "seed.Spec.Settings.Scheduling.Visible"
  | some scheduling =>
  Except.ok (Fields.cons "gardener" (Value.obj
    (Fields.cons "version" (Value.leaf identity.version)
    (Fields.cons "garden" (Value.obj
      (Fields.cons "identity" (Value.leaf gardenNamespace.uid)
      (Fields.cons "clusterIdentity" (Value.leaf r.gardenClusterIdentity)
      Fields.nil)))
    (Fields.cons "seed" (Value.obj
      (Fields.cons "identity" (Value.leaf seed.name)
      (Fields.cons "clusterIdentity" (Value.leaf seedClusterIdentity)
      (Fields.cons "annotations" (Value.leaf seed.annotationsRepr)
      (Fields.cons "labels" (Value.leaf seed.labelsRepr)
      (Fields.cons "provider" (Value.leaf seed.providerType)
      (Fields.cons "region" (Value.leaf seed.providerRegion)
      (Fields.cons "volumeProvider" (Value.leaf volumeProvider)
      (Fields.cons "volumeProviders"
        (Value.leaf (match volumeProviders with
          | none => "<nil>"
          | some ps => String.intercalate "," ps))
      (Fields.cons "ingressDomain" (Value.leaf ingressDomain)
      (Fields.cons "protected" (Value.leaf (boolRepr (TaintsHave seed.taintKeys SeedTaintProtected)))
      (Fields.cons "visible" (Value.leaf (boolRepr scheduling.visible))
      (Fields.cons "taints" (Value.leaf (String.intercalate "," seed.taintKeys))
      (Fields.cons "networks" (Value.leaf seed.networksRepr)
      (Fields.cons "blockCIDRs" (Value.leaf seed.blockCIDRsRepr)
      (Fields.cons "spec" (Value.leaf seed.specRepr)
      Fields.nil))))))))))))))))
    Fields.nil))))
  Fields.nil)

/-- The function `patchConditions`: the object's condition list becomes the merge of the
list it holds with the given conditions, and the status patch is issued. -/
def patchConditions (w : World) (ci : ControllerInstallation) (conditions : List Condition) :
    ControllerInstallation × List Call × Option Err :=
  let merged := MergeConditions ci.conditions conditions
  ({ ci with conditions := merged }, [Call.patchStatus conditions merged], w.patchStatus)

/-- The deferred closure of `reconcile` and of `delete`: after the body, `patchConditions`
runs with the final values of `conditionValid` and `conditionInstalled`; its error is only
logged, so the exit of the body stands.  A deferred call also runs when the body panics. -/
def deferPatchConditions (w : World) (b : Body) : Outcome :=
  let p := patchConditions w b.installation [b.conditionValid, b.conditionInstalled]
  { exit := b.exit, trace := b.trace ++ p.2.1, installation := p.1 }

/-- The method `isResponsible`: the answer, the error, and the calls issued. -/
def isResponsible (w : World) (ci : ControllerInstallation) : Bool × Option Err × List Call :=
  match ci.deploymentRef with
  | some deploymentName =>
      match w.getControllerDeploymentResponsible with
      | Except.error err => (false, some err, [Call.getControllerDeployment deploymentName])
      | Except.ok controllerDeployment =>
          (decide (controllerDeployment.type = installationTypeHelm), none,
            [Call.getControllerDeployment deploymentName])
  | none => (false, none, [])

/-! ## The install pass -/

/-- The body of `reconcile` after the conditions are loaded (lines 159-272), up to its
return or to the panic of a nil pointer dereference (lines 188, 223 and 227-252); `trace`
holds the calls issued before. -/
def reconcileBody (r : Reconciler) (w : World) (ci : ControllerInstallation)
    (trace : List Call) (conditionValid conditionInstalled : Condition) : Body :=
  let trace := trace ++ [Call.getControllerRegistration ci.registrationRef]
  match w.getControllerRegistration with
  | Except.error err =>
      { exit := Exit.returned {} (some err), trace := trace, installation := ci
        conditionValid :=
          if IsNotFound err then
            UpdatedCondition w.now conditionValid ConditionStatus.ConditionFalse
              "RegistrationNotFound"
              ("Referenced ControllerRegistration does not exist: " ++ err.text)
          else
            UpdatedCondition w.now conditionValid ConditionStatus.ConditionUnknown
              "RegistrationReadError"
              ("Referenced ControllerRegistration cannot be read: " ++ err.text)
        conditionInstalled := conditionInstalled }
  | Except.ok controllerRegistration =>
  let trace := trace ++ [Call.getSeed ci.seedRef]
  match w.getSeed with
  | Except.error err =>
      { exit := Exit.returned {} (some err), trace := trace, installation := ci
        conditionValid :=
          if IsNotFound err then
            UpdatedCondition w.now conditionValid ConditionStatus.ConditionFalse
              "SeedNotFound" ("Referenced Seed does not exist: " ++ err.text)
          else
            UpdatedCondition w.now conditionValid ConditionStatus.ConditionUnknown
              "SeedReadError" ("Referenced Seed cannot be read: " ++ err.text)
        conditionInstalled := conditionInstalled }
  | Except.ok seed =>
  -- var providerConfig *runtime.RawExtension
  let trace := trace ++
    (match ci.deploymentRef with
      | some deploymentRef => [Call.getControllerDeployment deploymentRef]
      | none => [])
  match (match ci.deploymentRef with
      | some _ =>
          (match w.getControllerDeployment with
            | Except.error err => Except.error err
            | Except.ok controllerDeployment => Except.ok (some controllerDeployment.providerConfigRaw))
      | none => Except.ok none : Except Err (Option String)) with
  | Except.error err =>
      { exit := Exit.returned {} (some err), trace := trace, installation := ci
        conditionValid := conditionValid, conditionInstalled := conditionInstalled }
  | Except.ok none =>
      -- providerConfig.Raw on a nil pointer
      { exit := Exit.panicked nilDereference "providerConfig.Raw"
        trace := trace, installation := ci
        conditionValid := conditionValid, conditionInstalled := conditionInstalled }
  | Except.ok (some providerConfigRaw) =>
  match w.unmarshal providerConfigRaw with
  | Except.error err =>
      { exit := Exit.returned {} (some err), trace := trace, installation := ci
        conditionValid :=
          UpdatedCondition w.now conditionValid ConditionStatus.ConditionFalse
            "ChartInformationInvalid" ("Chart Information cannot be unmarshalled: " ++ err.text)
        conditionInstalled := conditionInstalled }
  | Except.ok helmDeployment =>
  let namespaceName := getNamespaceForControllerInstallation ci
  let trace := trace ++ [Call.upsertNamespace namespaceName controllerRegistration.name]
  match w.upsertNamespace with
  | some err =>
      { exit := Exit.returned {} (some err), trace := trace, installation := ci
        conditionValid := conditionValid, conditionInstalled := conditionInstalled }
  | none =>
  let volumeProviders : Option (List String) := seed.volumeProviders
  let volumeProvider : String :=
    match seed.volumeProviders with
    | some (p :: _) => p
    | _ => ""
  match seed.clusterIdentity with
  | none =>
      { exit := Exit.returned {}
          (some { kind := ErrKind.other
                  text := "cluster-identity of seed '" ++ seed.name ++ "' not set" })
        trace := trace, installation := ci
        conditionValid := conditionValid, conditionInstalled := conditionInstalled }
  | some seedClusterIdentity =>
  -- ingressDomain := seed.Spec.DNS.IngressDomain, and &seed.Spec.Ingress.Domain when it is
  -- nil, which dereferences the pointer seed.Spec.Ingress
  match (seed.dnsIngressDomain <|> seed.ingress.map Ingress.domain : Option String) with
  | none =>
      { exit := Exit.panicked nilDereference "seed.Spec.Ingress.Domain"
        trace := trace, installation := ci
        conditionValid := conditionValid, conditionInstalled := conditionInstalled }
  | some ingressDomain =>
  match gardenerValues r seed seedClusterIdentity volumeProvider volumeProviders
      ingressDomain with
  | Except.error expression =>
      { exit := Exit.panicked nilDereference expression
        trace := trace, installation := ci
        conditionValid := conditionValid, conditionInstalled := conditionInstalled }
  | Except.ok injected =>
  let values := MergeMaps helmDeployment.Values injected
  let trace := trace ++
    [Call.renderArchive helmDeployment.Chart controllerRegistration.name namespaceName values]
  match w.renderArchive helmDeployment.Chart controllerRegistration.name namespaceName values with
  | Except.error err =>
      { exit := Exit.returned {} (some err), trace := trace, installation := ci
        conditionValid :=
          UpdatedCondition w.now conditionValid ConditionStatus.ConditionFalse
            "ChartCannotBeRendered" ("Chart rendering process failed: " ++ err.text)
        conditionInstalled := conditionInstalled }
  | Except.ok release =>
  let conditionValid :=
    UpdatedCondition w.now conditionValid ConditionStatus.ConditionTrue
      "RegistrationValid" "Chart could be rendered successfully."
  let trace := trace ++ [Call.createManagedResource GardenNamespace ci.name release]
  match w.createManagedResource with
  | some err =>
      { exit := Exit.returned {} (some err), trace := trace, installation := ci
        conditionValid := conditionValid
        conditionInstalled :=
          UpdatedCondition w.now conditionInstalled ConditionStatus.ConditionFalse
            "InstallationFailed"
            ("Creation of ManagedResource " ++ quoted ci.name ++ " failed: " ++ err.text) }
  | none =>
      { exit := Exit.returned {} none, trace := trace, installation := ci
        conditionValid := conditionValid
        conditionInstalled :=
          if conditionInstalled.status = ConditionStatus.ConditionUnknown then
            -- initially set condition to Pending
            UpdatedCondition w.now conditionInstalled ConditionStatus.ConditionFalse
              "InstallationPending"
              ("Installation of ManagedResource " ++ quoted ci.name ++ " is still pending.")
          else conditionInstalled }

/-- The method `reconcile` (the install pass). -/
def reconcile (r : Reconciler) (w : World) (ci : ControllerInstallation) : Outcome :=
  if ContainsFinalizer ci finalizerName then
    deferPatchConditions w
      (reconcileBody r w ci []
        (GetOrInitCondition w.now ci.conditions ControllerInstallationValid)
        (GetOrInitCondition w.now ci.conditions ControllerInstallationInstalled))
  else
    match AddFinalizers w ci finalizerName with
    | (ci, some err) =>
        { exit := Exit.returned {} (some (Errorf "failed to add finalizer" err))
          trace := [Call.addFinalizers finalizerName], installation := ci }
    | (ci, none) =>
        deferPatchConditions w
          (reconcileBody r w ci [Call.addFinalizers finalizerName]
            (GetOrInitCondition w.now ci.conditions ControllerInstallationValid)
            (GetOrInitCondition w.now ci.conditions ControllerInstallationInstalled))

/-! ## The deletion pass -/

/-- The body of `delete` after the conditions are picked (lines 295-353), up to its
return. -/
def deleteBody (w : World) (ci : ControllerInstallation)
    (conditionValid conditionInstalled : Condition) : Body :=
  let trace := [Call.getSeed ci.seedRef]
  match w.getSeed with
  | Except.error err =>
      { exit := Exit.returned {} (some err), trace := trace, installation := ci
        conditionValid :=
          if IsNotFound err then
            UpdatedCondition w.now conditionValid ConditionStatus.ConditionFalse
              "SeedNotFound" ("Referenced Seed does not exist: " ++ err.text)
          else
            UpdatedCondition w.now conditionValid ConditionStatus.ConditionUnknown
              "SeedReadError" ("Referenced Seed cannot be read: " ++ err.text)
        conditionInstalled := conditionInstalled }
  | Except.ok _ =>
  let trace := trace ++ [Call.deleteManagedResource GardenNamespace ci.name]
  match w.deleteManagedResource with
  | none =>
      { exit := Exit.returned { RequeueAfter := 30 * Second } none
        trace := trace, installation := ci
        conditionValid := conditionValid
        conditionInstalled :=
          UpdatedCondition w.now conditionInstalled ConditionStatus.ConditionFalse
            "DeletionPending"
            ("Deletion of ManagedResource " ++ quoted ci.name ++ " is still pending.") }
  | some err =>
  if ¬ IsNotFound err then
      { exit := Exit.returned {} (some err), trace := trace, installation := ci
        conditionValid := conditionValid
        conditionInstalled :=
          UpdatedCondition w.now conditionInstalled ConditionStatus.ConditionFalse
            "DeletionFailed"
            ("Deletion of ManagedResource " ++ quoted ci.name ++ " failed: " ++ err.text) }
  else
  let trace := trace ++ [Call.deleteSecret GardenNamespace ci.name]
  let conditionInstalled :=
    match w.deleteSecret with
    | some err =>
        if IgnoreNotFound (some err) ≠ none then
          UpdatedCondition w.now conditionInstalled ConditionStatus.ConditionFalse
            "DeletionFailed"
            ("Deletion of ManagedResource secret " ++ quoted ci.name ++ " failed: " ++ err.text)
        else conditionInstalled
    | none => conditionInstalled
  let namespaceName := getNamespaceForControllerInstallation ci
  let trace := trace ++ [Call.deleteNamespace namespaceName]
  match w.deleteNamespace with
  | none =>
      { exit := Exit.returned { RequeueAfter := 30 * Second } none
        trace := trace, installation := ci
        conditionValid := conditionValid
        conditionInstalled :=
          UpdatedCondition w.now conditionInstalled ConditionStatus.ConditionFalse
            "DeletionPending"
            ("Deletion of Namespace " ++ quoted namespaceName ++ " is still pending.") }
  | some err =>
  if IsConflict err then
      { exit := Exit.returned { RequeueAfter := 30 * Second } none
        trace := trace, installation := ci
        conditionValid := conditionValid
        conditionInstalled :=
          UpdatedCondition w.now conditionInstalled ConditionStatus.ConditionFalse
            "DeletionPending"
            ("Deletion of Namespace " ++ quoted namespaceName ++ " is still pending.") }
  else if ¬ IsNotFound err then
      { exit := Exit.returned {} (some err), trace := trace, installation := ci
        conditionValid := conditionValid
        conditionInstalled :=
          UpdatedCondition w.now conditionInstalled ConditionStatus.ConditionFalse
            "DeletionFailed"
            ("Deletion of Namespace " ++ quoted namespaceName ++ " failed: " ++ err.text) }
  else
  let conditionInstalled :=
    UpdatedCondition w.now conditionInstalled ConditionStatus.ConditionFalse
      "DeletionSuccessful" "Deletion of old resources succeeded."
  if ContainsFinalizer ci finalizerName then
    match RemoveFinalizers w ci finalizerName with
    | (ci, some err) =>
        { exit := Exit.returned {} (some (Errorf "failed to remove finalizer" err))
          trace := trace ++ [Call.removeFinalizers finalizerName], installation := ci
          conditionValid := conditionValid, conditionInstalled := conditionInstalled }
    | (ci, none) =>
        { exit := Exit.returned {} none
          trace := trace ++ [Call.removeFinalizers finalizerName], installation := ci
          conditionValid := conditionValid, conditionInstalled := conditionInstalled }
  else
    { exit := Exit.returned {} none, trace := trace, installation := ci
      conditionValid := conditionValid, conditionInstalled := conditionInstalled }

/-- The method `delete` (the deletion pass): the two condition variables are the entries
at index 0 and index 1 of the merge of the status conditions with a fresh Valid and a
fresh Installed condition (lines 283-287). -/
def delete (w : World) (ci : ControllerInstallation) : Outcome :=
  let newConditions :=
    MergeConditions ci.conditions
      [InitCondition w.now ControllerInstallationValid,
       InitCondition w.now ControllerInstallationInstalled]
  match newConditions with
  | conditionValid :: conditionInstalled :: _ =>
      deferPatchConditions w (deleteBody w ci conditionValid conditionInstalled)
  | [_] =>
      { exit := Exit.panicked "index out of range" "newConditions[1]", trace := []
        installation := ci }
  | [] =>
      { exit := Exit.panicked "index out of range" "newConditions[0]", trace := []
        installation := ci }

/-! ## The entry point -/

/-- What an invocation of `Reconcile` leaves behind; the installation is absent when it
could not be read. -/
structure Run where
  exit : Exit
  trace : List Call
  installation : Option ControllerInstallation
deriving DecidableEq

/-- The method `Reconcile`. -/
def Reconcile (r : Reconciler) (w : World) : Run :=
  match w.getControllerInstallation with
  | Except.error err =>
      if IsNotFound err then
        { exit := Exit.returned {} none, trace := [Call.getControllerInstallation]
          installation := none }
      else
        { exit := Exit.returned {} (some (Errorf "error retrieving object from store" err))
          trace := [Call.getControllerInstallation], installation := none }
  | Except.ok controllerInstallation =>
      match isResponsible w controllerInstallation with
      | (responsible, err, calls) =>
          if !responsible || err ≠ none then
            { exit := Exit.returned {} err
              trace := Call.getControllerInstallation :: calls
              installation := some controllerInstallation }
          else if controllerInstallation.deletionTimestamp ≠ none then
            let o := delete w controllerInstallation
            { exit := o.exit, trace := Call.getControllerInstallation :: calls ++ o.trace
              installation := some o.installation }
          else
            let o := reconcile r w controllerInstallation
            { exit := o.exit, trace := Call.getControllerInstallation :: calls ++ o.trace
              installation := some o.installation }

/-! ## Observations on traces -/

/-- The call sites, without their arguments. -/
inductive CallKind where
  | getControllerInstallation
  | getControllerDeployment
  | addFinalizers
  | removeFinalizers
  | getControllerRegistration
  | getSeed
  | upsertNamespace
  | renderArchive
  | createManagedResource
  | deleteManagedResource
  | deleteSecret
  | deleteNamespace
  | patchStatus
deriving DecidableEq, Repr

/-- The call site of a call. -/
def Call.kind : Call → CallKind
  | Call.getControllerInstallation => CallKind.getControllerInstallation
  | Call.getControllerDeployment _ => CallKind.getControllerDeployment
  | Call.addFinalizers _ => CallKind.addFinalizers
  | Call.removeFinalizers _ => CallKind.removeFinalizers
  | Call.getControllerRegistration _ => CallKind.getControllerRegistration
  | Call.getSeed _ => CallKind.getSeed
  | Call.upsertNamespace _ _ => CallKind.upsertNamespace
  | Call.renderArchive _ _ _ _ => CallKind.renderArchive
  | Call.createManagedResource _ _ _ => CallKind.createManagedResource
  | Call.deleteManagedResource _ _ => CallKind.deleteManagedResource
  | Call.deleteSecret _ _ => CallKind.deleteSecret
  | Call.deleteNamespace _ => CallKind.deleteNamespace
  | Call.patchStatus _ _ => CallKind.patchStatus

/-- The call sites of a trace, in order. -/
def kinds (trace : List Call) : List CallKind := trace.map Call.kind

/-- Whether a call site is a delete call on the seed cluster. -/
def CallKind.isDelete : CallKind → Bool
  | CallKind.deleteManagedResource => true
  | CallKind.deleteSecret => true
  | CallKind.deleteNamespace => true
  | _ => false

/-- The conditions handed to the status patches of a trace, in order. -/
def handedToPatch : List Call → List (List Condition)
  | [] => []
  | Call.patchStatus handed _ :: rest => handed :: handedToPatch rest
  | _ :: rest => handedToPatch rest

/-- The condition lists written by the status patches of a trace, in order. -/
def writtenByPatch : List Call → List (List Condition)
  | [] => []
  | Call.patchStatus _ written :: rest => written :: writtenByPatch rest
  | _ :: rest => writtenByPatch rest

/-! ## Waiting deletions -/

/-- The outcomes on which a deletion has to wait: the seed read succeeds and either the
bundle delete is accepted, or it returns not-found and the namespace delete is accepted
or returns a conflict. -/
def DeletionIsPending (w : World) : Prop :=
  (∃ seed, w.getSeed = Except.ok seed) ∧
  (w.deleteManagedResource = none ∨
    ∃ e, w.deleteManagedResource = some e ∧ IsNotFound e = true ∧
      (w.deleteNamespace = none ∨
        ∃ en, w.deleteNamespace = some en ∧ IsConflict en = true))

/-! ## The values of a render call -/

/-- The injected values of an install pass (lines 204-252) for a seed whose cluster
identity and ingress domain are known: the volume provider is the first configured one (if
any). -/
def injectedValues (r : Reconciler) (seed : Seed) (seedClusterIdentity ingressDomain : String) :
    Except String Fields :=
  gardenerValues r seed seedClusterIdentity
    (match seed.volumeProviders with
      | some (p :: _) => p
      | _ => "")
    seed.volumeProviders ingressDomain

/-! ## What the status says about a condition -/

/-- What the status of an installation says about a condition: type, status, reason and
message, without the timestamp. -/
def Condition.summary (c : Condition) : ConditionType × ConditionStatus × String × String :=
  (c.type, c.status, c.reason, c.message)

/-! ## What a pass does to a condition variable -/

/-- What the body of a pass does to one of its two condition variables between loading
it and handing it to the status patch: nothing, one or more `UpdatedCondition` calls of
which the last sets the given status, reason and message, or the final step of the
install pass, which updates to the given status, reason and message only when the
status is Unknown. -/
inductive ConditionAction where
  | keep
  | update (status : ConditionStatus) (reason message : String)
  | updateIfUnknown (status : ConditionStatus) (reason message : String)

/-- The condition variable after the action, at the given time. -/
def ConditionAction.apply (now : Nat) : ConditionAction → Condition → Condition
  | ConditionAction.keep, c => c
  | ConditionAction.update s r m, c => UpdatedCondition now c s r m
  | ConditionAction.updateIfUnknown s r m, c =>
      if c.status = ConditionStatus.ConditionUnknown then UpdatedCondition now c s r m else c

/-! ## Sample inputs -/

/-- A reconciler identity. -/
def sampleReconciler : Reconciler :=
  { identity := some { version := "v1" }, gardenNamespace := some { uid := "uid-1" }
    gardenClusterIdentity := "garden-1" }

/-- A seed whose cluster identity is set. -/
def sampleSeed : Seed :=
  { name := "seed-a", annotationsRepr := "map[]", labelsRepr := "map[]"
    providerType := "gcp", providerRegion := "europe"
    volumeProviders := none, clusterIdentity := some "seed-a-id"
    dnsIngressDomain := none, ingress := some { domain := "ingress.example" }
    taintKeys := [], settings := some { scheduling := some { visible := true } }
    networksRepr := "networks", blockCIDRsRepr := "[]", specRepr := "spec" }

/-- An installation with the finalizer, a deployment reference and no conditions yet. -/
def sampleInstallation : ControllerInstallation :=
  { name := "inst", finalizers := [finalizerName], deletionTimestamp := none
    registrationRef := "reg", seedRef := "seed-a", deploymentRef := some "dep"
    conditions := [] }

/-- A world in which every call succeeds; deletes are accepted. -/
def sampleWorld : World :=
  { now := 7
    getControllerInstallation := Except.ok sampleInstallation
    getControllerDeploymentResponsible := Except.ok { type := "helm", providerConfigRaw := "raw" }
    addFinalizers := none
    getControllerRegistration := Except.ok { name := "reg" }
    getSeed := Except.ok sampleSeed
    getControllerDeployment := Except.ok { type := "helm", providerConfigRaw := "raw" }
    unmarshal := fun _ => Except.ok { Chart := "chart", Values := Fields.nil }
    upsertNamespace := none
    renderArchive := fun _ _ _ _ => Except.ok "release"
    createManagedResource := none
    deleteManagedResource := none
    deleteSecret := none
    deleteNamespace := none
    removeFinalizers := none
    patchStatus := none }

/-- The not-found error of an API server. -/
def errNotFound : Err := { kind := ErrKind.notFound, text := "not found" }

/-- Some other error of an API server. -/
def errOther : Err := { kind := ErrKind.other, text := "connection refused" }

/-- A conflict error of an API server. -/
def errConflict : Err := { kind := ErrKind.conflict, text := "conflict" }

/-- The sample installation, marked for deletion. -/
def deletedInstallation : ControllerInstallation :=
  { sampleInstallation with deletionTimestamp := some 3 }

/-- A world for the last deletion pass: bundle, secret and namespace are already gone. -/
def goneWorld : World :=
  { sampleWorld with
    getControllerInstallation := Except.ok deletedInstallation
    deleteManagedResource := some errNotFound
    deleteSecret := some errNotFound
    deleteNamespace := some errNotFound }

/-- The sample installation before its first pass: no finalizer yet. -/
def freshInstallation : ControllerInstallation :=
  { sampleInstallation with finalizers := [] }

/-- A world in which the write that adds the finalizer fails. -/
def addFinalizerFailsWorld : World :=
  { sampleWorld with
    getControllerInstallation := Except.ok freshInstallation
    addFinalizers := some errOther }

/-- The sample installation after a successful install: both conditions are True. -/
def settledInstallation : ControllerInstallation :=
  { sampleInstallation with
    conditions :=
      [{ type := ControllerInstallationValid, status := ConditionStatus.ConditionTrue
         lastTransitionTime := 2, reason := "RegistrationValid"
         message := "Chart could be rendered successfully." },
       { type := ControllerInstallationInstalled, status := ConditionStatus.ConditionTrue
         lastTransitionTime := 4, reason := "InstallationSuccessful"
         message := "Installation of new resources succeeded." }] }

/-- A world in which the install pass cannot read the deployment record. -/
def deploymentReadFailsWorld : World :=
  { sampleWorld with
    getControllerInstallation := Except.ok settledInstallation
    getControllerDeployment := Except.error errOther }

/-- An installation marked for deletion whose status lists Installed before Valid. -/
def swappedInstallation : ControllerInstallation :=
  { deletedInstallation with
    conditions :=
      [{ type := ControllerInstallationInstalled, status := ConditionStatus.ConditionTrue
         lastTransitionTime := 4, reason := "InstallationSuccessful"
         message := "Installation of new resources succeeded." },
       { type := ControllerInstallationValid, status := ConditionStatus.ConditionTrue
         lastTransitionTime := 2, reason := "RegistrationValid"
         message := "Chart could be rendered successfully." }] }

/-- An installation marked for deletion whose status holds only a condition of another
type, written by another party. -/
def foreignInstallation : ControllerInstallation :=
  { deletedInstallation with
    conditions :=
      [{ type := "Healthy", status := ConditionStatus.ConditionTrue
         lastTransitionTime := 5, reason := "ControllerHealthy"
         message := "All resources are healthy." }] }

/-- A world in which the seed no longer exists. -/
def seedGoneWorld : World :=
  { sampleWorld with getSeed := Except.error errNotFound }

/-- A user overlay that tries to override injected values and adds keys of its own. -/
def overridingValues : Fields :=
  Fields.cons "replicas" (Value.leaf "3")
  (Fields.cons "gardener" (Value.obj
    (Fields.cons "version" (Value.leaf "forged")
    (Fields.cons "extra" (Value.leaf "kept")
    (Fields.cons "seed" (Value.obj
      (Fields.cons "clusterIdentity" (Value.leaf "forged-seed") Fields.nil))
    Fields.nil))))
  Fields.nil)

/-- A world in which the decoded descriptor carries the overriding overlay. -/
def forgingWorld : World :=
  { sampleWorld with
    unmarshal := fun _ => Except.ok { Chart := "chart", Values := overridingValues } }

/-- The injected values of an install pass on the sample seed. -/
def sampleInjected : Fields :=
  match injectedValues sampleReconciler sampleSeed "seed-a-id" "ingress.example" with
  | Except.ok injected => injected
  | Except.error _ => Fields.nil

/-- An installation without a deployment-method reference. -/
def unreferencedInstallation : ControllerInstallation :=
  { settledInstallation with deploymentRef := none }

/-- A world that delivers the installation without a deployment-method reference. -/
def unreferencedWorld : World :=
  { sampleWorld with getControllerInstallation := Except.ok unreferencedInstallation }

/-- A world for a deletion pass in which the bundle is gone, the delete of the backing
secret fails with an error other than not-found, and the namespace is gone. -/
def secretFailsWorld : World :=
  { goneWorld with deleteSecret := some errOther }

/-- A world for a deletion pass in which the bundle is gone and the namespace is
terminating: its delete returns a conflict. -/
def terminatingWorld : World :=
  { goneWorld with deleteNamespace := some errConflict }

/-- A world in which the referenced registration does not exist. -/
def registrationGoneWorld : World :=
  { sampleWorld with getControllerRegistration := Except.error errNotFound }

/-- A world whose seed has a cluster identity but no settings: `Spec.Settings` is nil. -/
def unsetSettingsWorld : World :=
  { sampleWorld with getSeed := Except.ok { sampleSeed with settings := none } }

/-! ## Lemmas on the condition merge -/

theorem typeToIndexFrom_spec (l : List Condition) (t : ConditionType) (k : Nat)
    (found : Option Nat) (i : Nat) (h : typeToIndexFrom l t k found = some i) :
    found = some i ∨ (k ≤ i ∧ ∃ hi : i - k < l.length, (l.get ⟨i - k, hi⟩).type = t) := by
  induction l generalizing k found with
  | nil => left; simpa [typeToIndexFrom] using h
  | cons c rest ih =>
    simp only [typeToIndexFrom] at h
    rcases ih _ _ h with h1 | ⟨hk, hi, ht⟩
    · by_cases hc : c.type = t
      · simp only [hc, if_true, Option.some.injEq] at h1
        subst h1
        right
        exact ⟨le_refl _, by simp, by simpa using hc⟩
      · simp only [hc, if_false] at h1
        left; exact h1
    · right
      refine ⟨by omega, by simp at hi ⊢; omega, ?_⟩
      have e : i - k = (i - (k + 1)) + 1 := by omega
      simp only [List.get_eq_getElem] at ht ⊢
      simp only [e, List.getElem_cons_succ]
      exact ht

theorem typeToIndex_spec (l : List Condition) (t : ConditionType) (i : Nat)
    (h : typeToIndex l t = some i) : ∃ hi : i < l.length, (l.get ⟨i, hi⟩).type = t := by
  rcases typeToIndexFrom_spec l t 0 none i h with h1 | ⟨_, hi, ht⟩
  · cases h1
  · exact ⟨by simpa using hi, by simpa using ht⟩

theorem MergeConditions_pair (old : List Condition) (a b : Condition) :
    MergeConditions old [a, b] =
      (match typeToIndex old b.type with
        | some j => fun out : List Condition => out.set j b
        | none => fun out => out ++ [b])
      (match typeToIndex old a.type with
        | some i => old.set i a
        | none => old ++ [a]) := by
  simp only [MergeConditions, List.foldl]
  cases typeToIndex old b.type <;> rfl

theorem MergeConditions_pair_length (old : List Condition) (a b : Condition)
    (hab : a.type ≠ b.type) : 2 ≤ (MergeConditions old [a, b]).length := by
  rw [MergeConditions_pair]
  cases ha : typeToIndex old a.type with
  | none =>
    cases hb : typeToIndex old b.type with
    | none => simp
    | some j =>
      obtain ⟨hj, _⟩ := typeToIndex_spec _ _ _ hb
      simp; omega
  | some i =>
    obtain ⟨hi, hti⟩ := typeToIndex_spec _ _ _ ha
    cases hb : typeToIndex old b.type with
    | none => simp; omega
    | some j =>
      obtain ⟨hj, htj⟩ := typeToIndex_spec _ _ _ hb
      have hij : i ≠ j := by
        rintro rfl
        exact hab (hti.symm.trans htj)
      simp; omega

theorem MergeConditions_pair_mem (old : List Condition) (a b : Condition)
    (hab : a.type ≠ b.type) :
    a ∈ MergeConditions old [a, b] ∧ b ∈ MergeConditions old [a, b] := by
  rw [MergeConditions_pair]
  cases ha : typeToIndex old a.type with
  | none =>
    cases hb : typeToIndex old b.type with
    | none => simp
    | some j =>
      obtain ⟨hj, _⟩ := typeToIndex_spec _ _ _ hb
      refine ⟨?_, ?_⟩
      · simp only
        rw [List.mem_iff_getElem]
        refine ⟨old.length, by simp, ?_⟩
        rw [List.getElem_set_ne (by omega)]
        simp
      · simp only
        exact List.mem_iff_getElem.mpr ⟨j, by simp; omega, by simp⟩
  | some i =>
    obtain ⟨hi, hti⟩ := typeToIndex_spec _ _ _ ha
    cases hb : typeToIndex old b.type with
    | none =>
      simp only
      refine ⟨?_, by simp⟩
      exact List.mem_append_left _ (List.mem_iff_getElem.mpr ⟨i, by simpa using hi, by simp⟩)
    | some j =>
      obtain ⟨hj, htj⟩ := typeToIndex_spec _ _ _ hb
      have hij : i ≠ j := by
        rintro rfl
        exact hab (hti.symm.trans htj)
      simp only
      refine ⟨?_, ?_⟩
      · rw [List.mem_iff_getElem]
        refine ⟨i, by simpa using hi, ?_⟩
        rw [List.getElem_set_ne (by omega)]
        simp
      · exact List.mem_iff_getElem.mpr ⟨j, by simpa using hj, by simp⟩

theorem GetCondition_type (l : List Condition) (t : ConditionType) (c : Condition)
    (h : GetCondition l t = some c) : c.type = t := by
  induction l with
  | nil => simp [GetCondition] at h
  | cons d rest ih =>
    simp only [GetCondition] at h
    by_cases hd : d.type = t
    · simp only [hd, if_true, Option.some.injEq] at h
      rw [← h]; exact hd
    · simp only [hd, if_false] at h
      exact ih h

theorem GetOrInitCondition_type (now : Nat) (l : List Condition) (t : ConditionType) :
    (GetOrInitCondition now l t).type = t := by
  unfold GetOrInitCondition
  cases h : GetCondition l t with
  | none => rfl
  | some c => exact GetCondition_type l t c h

/-- The merge leaves every old entry of a third type where it was. -/
theorem MergeConditions_pair_frame (old : List Condition) (a b c : Condition) (k : Nat)
    (hk : old[k]? = some c) (ha : c.type ≠ a.type) (hb : c.type ≠ b.type) :
    (MergeConditions old [a, b])[k]? = some c := by
  obtain ⟨hlt, hc⟩ := List.getElem?_eq_some.mp hk
  have hidx : ∀ (x : Condition) (i : Nat), c.type ≠ x.type → typeToIndex old x.type = some i →
      i ≠ k := by
    intro x i hx hi
    obtain ⟨hi1, hi2⟩ := typeToIndex_spec _ _ _ hi
    rintro rfl
    apply hx
    rw [← hi2, ← hc]
    rfl
  rw [MergeConditions_pair]
  cases hia : typeToIndex old a.type with
  | none =>
    cases hib : typeToIndex old b.type with
    | none =>
      simp only
      rw [List.getElem?_append_left (by simp; omega), List.getElem?_append_left hlt, hk]
    | some j =>
      simp only
      rw [List.getElem?_set_ne (hidx b j hb hib), List.getElem?_append_left hlt, hk]
  | some i =>
    cases hib : typeToIndex old b.type with
    | none =>
      simp only
      rw [List.getElem?_append_left (by simp; omega), List.getElem?_set_ne (hidx a i ha hia), hk]
    | some j =>
      simp only
      rw [List.getElem?_set_ne (hidx b j hb hib), List.getElem?_set_ne (hidx a i ha hia), hk]

theorem typeToIndexFrom_none (l : List Condition) (t : ConditionType) (k : Nat)
    (found : Option Nat) (h : typeToIndexFrom l t k found = none) :
    found = none ∧ ∀ c ∈ l, c.type ≠ t := by
  induction l generalizing k found with
  | nil => exact ⟨by simpa [typeToIndexFrom] using h, by simp⟩
  | cons d rest ih =>
    simp only [typeToIndexFrom] at h
    obtain ⟨h1, h2⟩ := ih _ _ h
    by_cases hd : d.type = t
    · simp [hd] at h1
    · simp only [hd, if_false] at h1
      refine ⟨h1, ?_⟩
      intro c hc
      rcases List.mem_cons.mp hc with rfl | hc
      · exact hd
      · exact h2 c hc

theorem GetCondition_eq_none (l : List Condition) (t : ConditionType)
    (h : ∀ c ∈ l, c.type ≠ t) : GetCondition l t = none := by
  induction l with
  | nil => rfl
  | cons d rest ih =>
    simp only [GetCondition]
    rw [if_neg (h d (List.mem_cons_self _ _))]
    exact ih (fun c hc => h c (List.mem_cons_of_mem _ hc))

theorem GetCondition_of_typeToIndex_none (l : List Condition) (t : ConditionType)
    (h : typeToIndex l t = none) : GetCondition l t = none :=
  GetCondition_eq_none l t (typeToIndexFrom_none l t 0 none h).2

theorem GetCondition_append (l : List Condition) (c : Condition) (t : ConditionType) :
    GetCondition (l ++ [c]) t =
      match GetCondition l t with
      | some x => some x
      | none => if c.type = t then some c else none := by
  induction l with
  | nil => simp [GetCondition]
  | cons d rest ih =>
    simp only [List.cons_append, GetCondition]
    by_cases hd : d.type = t
    · simp [hd]
    · simp only [hd, if_false]
      exact ih

theorem GetCondition_isSome (l : List Condition) (t : ConditionType) (j : Nat) (c : Condition)
    (h : l[j]? = some c) (ht : c.type = t) : ∃ x, GetCondition l t = some x := by
  induction l generalizing j with
  | nil => simp at h
  | cons d rest ih =>
    simp only [GetCondition]
    by_cases hd : d.type = t
    · exact ⟨d, by simp [hd]⟩
    · simp only [hd, if_false]
      cases j with
      | zero =>
        simp only [List.getElem?_cons_zero, Option.some.injEq] at h
        subst h
        exact absurd ht hd
      | succ j =>
        simp only [List.getElem?_cons_succ] at h
        exact ih j h

/-- Replacing an entry by a condition of the same type: a lookup by type finds the new
condition or what it found before. -/
theorem GetCondition_set (l : List Condition) (t : ConditionType) (j : Nat) (c d : Condition)
    (h : l[j]? = some d) (hc : c.type = d.type) :
    GetCondition (l.set j c) t = some c ∨ GetCondition (l.set j c) t = GetCondition l t := by
  induction l generalizing j with
  | nil => simp at h
  | cons e rest ih =>
    cases j with
    | zero =>
      simp only [List.getElem?_cons_zero, Option.some.injEq] at h
      subst h
      simp only [List.set_cons_zero, GetCondition]
      by_cases he : c.type = t
      · left; simp [he]
      · right
        have he1 : ¬ e.type = t := by rw [← hc]; exact he
        simp [he, he1]
    | succ j =>
      simp only [List.getElem?_cons_succ] at h
      simp only [List.set_cons_succ, GetCondition]
      by_cases he : e.type = t
      · right; simp [he]
      · simp only [he, if_false]
        exact ih j h

/-- Replacing an entry by a condition of the same type does not change what a lookup by
another type finds. -/
theorem GetCondition_set_ne (l : List Condition) (t : ConditionType) (j : Nat)
    (c d : Condition) (h : l[j]? = some d) (hc : c.type = d.type) (ht : c.type ≠ t) :
    GetCondition (l.set j c) t = GetCondition l t := by
  induction l generalizing j with
  | nil => simp at h
  | cons e rest ih =>
    cases j with
    | zero =>
      simp only [List.getElem?_cons_zero, Option.some.injEq] at h
      subst h
      simp only [List.set_cons_zero, GetCondition]
      have he1 : ¬ e.type = t := by rw [← hc]; exact ht
      simp [ht, he1]
    | succ j =>
      simp only [List.getElem?_cons_succ] at h
      simp only [List.set_cons_succ, GetCondition]
      by_cases he : e.type = t
      · simp [he]
      · simp only [he, if_false]
        exact ih j h

theorem typeToIndexFrom_set (l : List Condition) (t : ConditionType) (k : Nat)
    (found : Option Nat) (j : Nat) (c d : Condition) (h : l[j]? = some d)
    (hc : c.type = d.type) :
    typeToIndexFrom (l.set j c) t k found = typeToIndexFrom l t k found := by
  induction l generalizing j k found with
  | nil => simp at h
  | cons e rest ih =>
    cases j with
    | zero =>
      simp only [List.getElem?_cons_zero, Option.some.injEq] at h
      subst h
      simp only [List.set_cons_zero, typeToIndexFrom, hc]
    | succ j =>
      simp only [List.getElem?_cons_succ] at h
      simp only [List.set_cons_succ, typeToIndexFrom]
      exact ih _ _ j h

/-- Replacing an entry by a condition of the same type leaves the type index as it is. -/
theorem typeToIndex_set (l : List Condition) (t : ConditionType) (j : Nat) (c d : Condition)
    (h : l[j]? = some d) (hc : c.type = d.type) :
    typeToIndex (l.set j c) t = typeToIndex l t :=
  typeToIndexFrom_set l t 0 none j c d h hc

theorem typeToIndexFrom_append (l : List Condition) (t : ConditionType) (k : Nat)
    (found : Option Nat) (c : Condition) :
    typeToIndexFrom (l ++ [c]) t k found =
      if c.type = t then some (k + l.length) else typeToIndexFrom l t k found := by
  induction l generalizing k found with
  | nil => simp [typeToIndexFrom]
  | cons e rest ih =>
    simp only [List.cons_append, typeToIndexFrom, List.length_cons]
    change typeToIndexFrom (rest ++ [c]) t (k + 1) _ = _
    rw [ih]
    by_cases hc : c.type = t
    · simp only [hc, if_true, Option.some.injEq]; omega
    · simp only [hc, if_false]

/-- The type index after an append. -/
theorem typeToIndex_append (l : List Condition) (t : ConditionType) (c : Condition) :
    typeToIndex (l ++ [c]) t = if c.type = t then some l.length else typeToIndex l t := by
  unfold typeToIndex
  rw [typeToIndexFrom_append]
  simp

theorem set_of_getElem? (l : List Condition) (j : Nat) (c : Condition) (h : l[j]? = some c) :
    l.set j c = l := by
  induction l generalizing j with
  | nil => simp at h
  | cons e rest ih =>
    cases j with
    | zero =>
      simp only [List.getElem?_cons_zero, Option.some.injEq] at h
      simp [h]
    | succ j =>
      simp only [List.getElem?_cons_succ] at h
      simp [ih j h]

theorem typeToIndex_getElem? (l : List Condition) (t : ConditionType) (j : Nat)
    (h : typeToIndex l t = some j) : ∃ d, l[j]? = some d ∧ d.type = t := by
  obtain ⟨hj, ht⟩ := typeToIndex_spec l t j h
  exact ⟨l[j], by simp [hj], by simpa using ht⟩


/-- In the merge of a list with two conditions of different types, each of the two sits
at the index of its type. -/
theorem MergeConditions_pair_index (old : List Condition) (a b : Condition)
    (hab : a.type ≠ b.type) :
    ∃ ja jb, ja ≠ jb ∧
      typeToIndex (MergeConditions old [a, b]) a.type = some ja ∧
      (MergeConditions old [a, b])[ja]? = some a ∧
      typeToIndex (MergeConditions old [a, b]) b.type = some jb ∧
      (MergeConditions old [a, b])[jb]? = some b := by
  have hba : ¬ b.type = a.type := fun h => hab h.symm
  rw [MergeConditions_pair]
  cases ha : typeToIndex old a.type with
  | none =>
    cases hb : typeToIndex old b.type with
    | none =>
      refine ⟨old.length, old.length + 1, by omega, ?_, ?_, ?_, ?_⟩
      · simp only [typeToIndex_append, hba, if_false, if_true]
      · simp only
        rw [List.getElem?_append_left (by simp), List.getElem?_append_right (le_refl _)]
        simp
      · simp only [typeToIndex_append, if_true, List.length_append, List.length_singleton]
      · simp only
        rw [List.getElem?_append_right (by simp)]
        simp
    | some j =>
      obtain ⟨d, hd, hdt⟩ := typeToIndex_getElem? _ _ _ hb
      have hj : j < old.length := (List.getElem?_eq_some.mp hd).1
      have hd1 : (old ++ [a])[j]? = some d := by
        rw [List.getElem?_append_left hj]; exact hd
      refine ⟨old.length, j, by omega, ?_, ?_, ?_, ?_⟩
      · simp only
        rw [typeToIndex_set _ _ _ _ _ hd1 hdt.symm, typeToIndex_append]
        simp
      · simp only
        rw [List.getElem?_set_ne (by omega)]
        simp [List.getElem?_append]
      · simp only
        rw [typeToIndex_set _ _ _ _ _ hd1 hdt.symm, typeToIndex_append, if_neg hab, hb]
      · simp only
        rw [List.getElem?_set]
        simp; omega
  | some i =>
    obtain ⟨e, he, het⟩ := typeToIndex_getElem? _ _ _ ha
    have hi : i < old.length := (List.getElem?_eq_some.mp he).1
    cases hb : typeToIndex old b.type with
    | none =>
      refine ⟨i, old.length, by omega, ?_, ?_, ?_, ?_⟩
      · simp only
        rw [typeToIndex_append, if_neg hba, typeToIndex_set _ _ _ _ _ he het.symm, ha]
      · simp only
        rw [List.getElem?_append_left (by simpa using hi), List.getElem?_set]
        simp [hi]
      · simp only
        rw [typeToIndex_append]
        simp
      · simp [List.getElem?_append]
    | some j =>
      obtain ⟨d, hd, hdt⟩ := typeToIndex_getElem? _ _ _ hb
      have hj : j < old.length := (List.getElem?_eq_some.mp hd).1
      have hij : i ≠ j := by
        rintro rfl
        rw [he] at hd
        cases hd
        exact hab (het.symm.trans hdt)
      have hd1 : (old.set i a)[j]? = some d := by
        rw [List.getElem?_set_ne hij]; exact hd
      refine ⟨i, j, hij, ?_, ?_, ?_, ?_⟩
      · simp only
        rw [typeToIndex_set _ _ _ _ _ hd1 hdt.symm, typeToIndex_set _ _ _ _ _ he het.symm, ha]
      · simp only
        rw [List.getElem?_set_ne (Ne.symm hij), List.getElem?_set]
        simp [hi]
      · simp only
        rw [typeToIndex_set _ _ _ _ _ hd1 hdt.symm, typeToIndex_set _ _ _ _ _ he het.symm, hb]
      · simp only
        rw [List.getElem?_set]
        simp [hj]

/-- Merging the same two conditions a second time changes nothing. -/
theorem MergeConditions_pair_idempotent (old : List Condition) (a b : Condition)
    (hab : a.type ≠ b.type) :
    MergeConditions (MergeConditions old [a, b]) [a, b] = MergeConditions old [a, b] := by
  obtain ⟨ja, jb, hne, h1, h2, h3, h4⟩ := MergeConditions_pair_index old a b hab
  rw [MergeConditions_pair (MergeConditions old [a, b])]
  rw [h1, h3]
  simp only
  rw [set_of_getElem? _ _ _ h2, set_of_getElem? _ _ _ h4]

/-- Merging two conditions of the same types and the same summaries over a merged list
leaves the summaries of the list as they are. -/
theorem MergeConditions_pair_summary (old : List Condition) (a b a1 b1 : Condition)
    (hab : a.type ≠ b.type) (ha : a1.summary = a.summary) (hb : b1.summary = b.summary) :
    (MergeConditions (MergeConditions old [a, b]) [a1, b1]).map Condition.summary =
      (MergeConditions old [a, b]).map Condition.summary := by
  obtain ⟨ja, jb, hne, h1, h2, h3, h4⟩ := MergeConditions_pair_index old a b hab
  have hat : a1.type = a.type := congrArg Prod.fst ha
  have hbt : b1.type = b.type := congrArg Prod.fst hb
  rw [MergeConditions_pair (MergeConditions old [a, b])]
  rw [hat, hbt, h1, h3]
  simp only [List.map_set, ha, hb]
  rw [← List.map_set, ← List.map_set, set_of_getElem? _ _ _ h2, set_of_getElem? _ _ _ h4]

/-- After the merge, loading one of the two merged conditions by its type finds that
condition, or, when the old list holds its type more than once, what the same load found
in the old list. -/
theorem GetOrInitCondition_merged (now now1 : Nat) (old : List Condition) (a b : Condition)
    (hab : a.type ≠ b.type) :
    (GetOrInitCondition now1 (MergeConditions old [a, b]) a.type = a ∨
      GetOrInitCondition now1 (MergeConditions old [a, b]) a.type =
        GetOrInitCondition now old a.type) ∧
    (GetOrInitCondition now1 (MergeConditions old [a, b]) b.type = b ∨
      GetOrInitCondition now1 (MergeConditions old [a, b]) b.type =
        GetOrInitCondition now old b.type) := by
  have hba : b.type ≠ a.type := fun h => hab h.symm
  -- a lookup that finds the same as in the old list, where the old list holds the type
  have same : ∀ (l : List Condition) (t : ConditionType) (j : Nat) (d : Condition),
      old[j]? = some d → d.type = t → GetCondition l t = GetCondition old t →
      GetOrInitCondition now1 l t = GetOrInitCondition now old t := by
    intro l t j d hd hdt hl
    obtain ⟨x, hx⟩ := GetCondition_isSome old t j d hd hdt
    simp [GetOrInitCondition, hl, hx]
  have found : ∀ (l : List Condition) (t : ConditionType) (c : Condition),
      GetCondition l t = some c → GetOrInitCondition now1 l t = c := by
    intro l t c hl
    simp [GetOrInitCondition, hl]
  rw [MergeConditions_pair]
  cases ha : typeToIndex old a.type with
  | none =>
    have hna := GetCondition_of_typeToIndex_none _ _ ha
    cases hb : typeToIndex old b.type with
    | none =>
      have hnb := GetCondition_of_typeToIndex_none _ _ hb
      refine ⟨Or.inl (found _ _ _ ?_), Or.inl (found _ _ _ ?_)⟩
      · simp only
        rw [GetCondition_append, GetCondition_append, hna]
        simp
      · simp only
        rw [GetCondition_append, GetCondition_append, hnb]
        simp [hab]
    | some j =>
      obtain ⟨d, hd, hdt⟩ := typeToIndex_getElem? _ _ _ hb
      have hj : j < old.length := (List.getElem?_eq_some.mp hd).1
      have hd1 : (old ++ [a])[j]? = some d := by
        rw [List.getElem?_append_left hj]; exact hd
      refine ⟨Or.inl (found _ _ _ ?_), ?_⟩
      · simp only
        rw [GetCondition_set_ne _ _ _ _ _ hd1 hdt.symm hba]
        simp [GetCondition_append, hna]
      · simp only
        rcases GetCondition_set (old ++ [a]) b.type j b d hd1 hdt.symm with h | h
        · exact Or.inl (found _ _ _ h)
        · right
          refine same _ _ j d hd hdt ?_
          rw [h, GetCondition_append]
          obtain ⟨x, hx⟩ := GetCondition_isSome old b.type j d hd hdt
          simp [hx]
  | some i =>
    obtain ⟨e, he, het⟩ := typeToIndex_getElem? _ _ _ ha
    have hi : i < old.length := (List.getElem?_eq_some.mp he).1
    cases hb : typeToIndex old b.type with
    | none =>
      have hnb := GetCondition_of_typeToIndex_none _ _ hb
      refine ⟨?_, Or.inl (found _ _ _ ?_)⟩
      · simp only
        rcases GetCondition_set old a.type i a e he het.symm with h | h
        · refine Or.inl (found _ _ _ ?_)
          simp [GetCondition_append, h]
        · right
          refine same _ _ i e he het ?_
          obtain ⟨x, hx⟩ := GetCondition_isSome old a.type i e he het
          rw [GetCondition_append, h, hx]
      · simp only
        rw [GetCondition_append, GetCondition_set_ne _ _ _ _ _ he het.symm hab, hnb]
        simp
    | some j =>
      obtain ⟨d, hd, hdt⟩ := typeToIndex_getElem? _ _ _ hb
      have hij : i ≠ j := by
        rintro rfl
        rw [he] at hd
        cases hd
        exact hab (het.symm.trans hdt)
      have hd1 : (old.set i a)[j]? = some d := by
        rw [List.getElem?_set_ne hij]; exact hd
      refine ⟨?_, ?_⟩
      · simp only
        rcases GetCondition_set old a.type i a e he het.symm with h | h
        · refine Or.inl (found _ _ _ ?_)
          rw [GetCondition_set_ne _ _ _ _ _ hd1 hdt.symm hba]
          exact h
        · refine Or.inr (same _ _ i e he het ?_)
          rw [GetCondition_set_ne _ _ _ _ _ hd1 hdt.symm hba]
          exact h
      · simp only
        rcases GetCondition_set (old.set i a) b.type j b d hd1 hdt.symm with h | h
        · exact Or.inl (found _ _ _ h)
        · right
          refine same _ _ j d hd hdt ?_
          rw [h, GetCondition_set_ne _ _ _ _ _ he het.symm hab]


/-! ## Lemmas on the merge of value maps -/

theorem Fields.lookup_append (k : String) (y : Fields) :
    ∀ x : Fields, (x.append y).lookup k =
      match x.lookup k with
      | some v => some v
      | none => y.lookup k
  | Fields.nil => by simp [Fields.append, Fields.lookup]
  | Fields.cons key v rest => by
    have ih := Fields.lookup_append k y rest
    by_cases hk : key = k
    · simp [Fields.append, Fields.lookup, hk]
    · simp [Fields.append, Fields.lookup, hk, ih]

theorem Fields.lookup_without (k : String) (b : Fields) :
    ∀ a : Fields, (a.without b).lookup k =
      if (b.lookup k).isSome then none else a.lookup k
  | Fields.nil => by simp [Fields.without, Fields.lookup]
  | Fields.cons key v rest => by
    have ih := Fields.lookup_without k b rest
    by_cases hb : (b.lookup key).isSome = true
    · simp only [Fields.without, hb, if_true, ih, Fields.lookup]
      by_cases hk : key = k
      · subst hk; simp [hb]
      · simp [hk]
    · simp only [Fields.without, hb, Fields.lookup, Bool.false_eq_true, if_false, ih]
      by_cases hk : key = k
      · subst hk; simp [hb]
      · simp [hk]

theorem lookup_mergeEntries (a : Fields) (k : String) :
    ∀ b : Fields, (mergeEntries a b).lookup k =
      match b.lookup k with
      | some vb => some (mergeValue (a.lookup k) vb)
      | none => none
  | Fields.nil => by simp [mergeEntries, Fields.lookup]
  | Fields.cons key v rest => by
    have ih := lookup_mergeEntries a k rest
    by_cases hk : key = k
    · subst hk; simp [mergeEntries, Fields.lookup]
    · simp [mergeEntries, Fields.lookup, hk, ih]

/-- The read of a key in the merged map: the value of `b` (merged with the value of `a`
when both are nested maps) when `b` holds the key, the value of `a` otherwise. -/
theorem lookup_MergeMaps (a b : Fields) (k : String) :
    (MergeMaps a b).lookup k =
      match b.lookup k with
      | some vb => some (mergeValue (a.lookup k) vb)
      | none => a.lookup k := by
  unfold MergeMaps
  rw [Fields.lookup_append, lookup_mergeEntries, Fields.lookup_without]
  cases b.lookup k <;> simp

theorem mergeValue_leaf (u : Option Value) (s : String) :
    mergeValue u (Value.leaf s) = Value.leaf s := by
  cases u with
  | none => simp [mergeValue]
  | some v => cases v <;> simp [mergeValue]

theorem mergeValue_obj (u : Option Value) (m : Fields) :
    mergeValue u (Value.obj m) = Value.obj m ∨
      ∃ mu, u = some (Value.obj mu) ∧ mergeValue u (Value.obj m) = Value.obj (MergeMaps mu m) := by
  cases u with
  | none => left; simp [mergeValue]
  | some v =>
    cases v with
    | leaf s => left; simp [mergeValue]
    | obj mu => right; exact ⟨mu, rfl, by simp [mergeValue, MergeMaps]⟩

/-- Whatever the merged value holds at a path that the injected value defines is the
injected value there, merged with what the other side may hold at that place. -/
theorem mergeValue_atPath (q : List String) :
    ∀ (u : Option Value) (vi w : Value), vi.atPath q = some w →
      ∃ u1, (mergeValue u vi).atPath q = some (mergeValue u1 w) := by
  induction q with
  | nil =>
    intro u vi w h
    simp only [Value.atPath, Option.some.injEq] at h
    subst h
    exact ⟨u, by simp [Value.atPath]⟩
  | cons k q ih =>
    intro u vi w h
    cases vi with
    | leaf s => simp [Value.atPath] at h
    | obj mi =>
      simp only [Value.atPath] at h
      cases hk : mi.lookup k with
      | none => simp [hk] at h
      | some v1 =>
        rw [hk] at h
        dsimp only at h
        rcases mergeValue_obj u mi with he | ⟨mu, _, he⟩
        · rw [he]
          refine ⟨none, ?_⟩
          simp only [Value.atPath, hk]
          rw [h]
          cases w with
          | leaf s => simp [mergeValue]
          | obj m => simp [mergeValue]
        · rw [he]
          simp only [Value.atPath, lookup_MergeMaps, hk]
          exact ih _ _ _ h

/-- What the merged value holds at a path that the injected value does not define is
what the user value holds there. -/
theorem mergeValue_atPath_user (q : List String) :
    ∀ (u : Option Value) (vi w : Value), vi.atPath q = none →
      (mergeValue u vi).atPath q = some w →
      ∃ vu, u = some vu ∧ vu.atPath q = some w := by
  induction q with
  | nil =>
    intro u vi w h
    simp [Value.atPath] at h
  | cons k q ih =>
    intro u vi w h hm
    cases vi with
    | leaf s =>
      rw [mergeValue_leaf] at hm
      simp [Value.atPath] at hm
    | obj mi =>
      rcases mergeValue_obj u mi with he | ⟨mu, hu, he⟩
      · rw [he, h] at hm
        cases hm
      · rw [he] at hm
        simp only [Value.atPath, lookup_MergeMaps] at hm h
        cases hk : mi.lookup k with
        | none =>
          rw [hk] at hm
          exact ⟨Value.obj mu, hu, by simpa [Value.atPath] using hm⟩
        | some v1 =>
          rw [hk] at hm h
          dsimp only at hm h
          obtain ⟨vu, hvu, hw⟩ := ih _ _ _ h hm
          exact ⟨Value.obj mu, hu, by simp [Value.atPath, hvu, hw]⟩

theorem mergeValue_none (w : Value) : mergeValue none w = w := by
  cases w <;> simp [mergeValue]

/-- What the merged value holds at a path that the injected value defines: the injected
value there, merged with what the other side holds at the same path. -/
theorem mergeValue_atPath_exact (q : List String) :
    ∀ (u : Option Value) (vi w : Value), vi.atPath q = some w →
      (mergeValue u vi).atPath q = some (mergeValue (u.bind (fun v => v.atPath q)) w) := by
  induction q with
  | nil =>
    intro u vi w h
    simp only [Value.atPath, Option.some.injEq] at h
    subst h
    cases u with
    | none => simp [Value.atPath]
    | some v => simp [Value.atPath]
  | cons k q ih =>
    intro u vi w h
    cases vi with
    | leaf s => simp [Value.atPath] at h
    | obj mi =>
      simp only [Value.atPath] at h
      cases hk : mi.lookup k with
      | none => simp [hk] at h
      | some v1 =>
        rw [hk] at h
        dsimp only at h
        cases u with
        | none =>
          simp only [Option.bind, mergeValue_none]
          simp only [Value.atPath, hk]
          exact h
        | some vu =>
          cases vu with
          | leaf s =>
            have he : mergeValue (some (Value.leaf s)) (Value.obj mi) = Value.obj mi := by
              simp [mergeValue]
            rw [he]
            simp only [Option.bind, Value.atPath, hk, mergeValue_none]
            exact h
          | obj mu =>
            have he : mergeValue (some (Value.obj mu)) (Value.obj mi) =
                Value.obj (MergeMaps mu mi) := by
              simp [mergeValue, MergeMaps]
            rw [he]
            simp only [Value.atPath, lookup_MergeMaps, hk, Option.bind]
            rw [ih _ _ _ h]
            cases mu.lookup k <;> rfl

/-- The merged map as a merged value. -/
theorem MergeMaps_eq_mergeValue (user injected : Fields) :
    Value.obj (MergeMaps user injected) =
      mergeValue (some (Value.obj user)) (Value.obj injected) := by
  simp [mergeValue, MergeMaps]

/-- At a path where the injected map holds a plain value, the merged map holds it. -/
theorem MergeMaps_atPath_leaf (user injected : Fields) (p : List String) (s : String)
    (h : (Value.obj injected).atPath p = some (Value.leaf s)) :
    (Value.obj (MergeMaps user injected)).atPath p = some (Value.leaf s) := by
  rw [MergeMaps_eq_mergeValue, mergeValue_atPath_exact p _ _ _ h, mergeValue_leaf]

/-! ## Lemmas on the paths of the passes -/

theorem delete_eq (w : World) (ci : ControllerInstallation) :
    ∃ v i rest,
      MergeConditions ci.conditions
        [InitCondition w.now ControllerInstallationValid,
         InitCondition w.now ControllerInstallationInstalled] = v :: i :: rest ∧
      delete w ci = deferPatchConditions w (deleteBody w ci v i) := by
  have hlen := MergeConditions_pair_length ci.conditions
    (InitCondition w.now ControllerInstallationValid)
    (InitCondition w.now ControllerInstallationInstalled)
    (by show ControllerInstallationValid ≠ ControllerInstallationInstalled; decide)
  unfold delete
  generalize MergeConditions ci.conditions _ = l at hlen ⊢
  match l, hlen with
  | v :: i :: rest, _ => exact ⟨v, i, rest, rfl, rfl⟩

/-- The delete calls issued by the body of a deletion pass. -/
theorem deleteBody_deletes (w : World) (ci : ControllerInstallation) (cv cinst : Condition) :
    (deleteBody w ci cv cinst).trace.filter (fun c => c.kind.isDelete) =
      match w.getSeed, w.deleteManagedResource with
      | Except.error _, _ => []
      | Except.ok _, none => [Call.deleteManagedResource GardenNamespace ci.name]
      | Except.ok _, some e =>
          if IsNotFound e then
            [Call.deleteManagedResource GardenNamespace ci.name,
             Call.deleteSecret GardenNamespace ci.name,
             Call.deleteNamespace (getNamespaceForControllerInstallation ci)]
          else [Call.deleteManagedResource GardenNamespace ci.name] := by
  unfold deleteBody
  cases h1 : w.getSeed with
  | error e => simp [Call.kind, CallKind.isDelete]
  | ok seed =>
    cases h2 : w.deleteManagedResource with
    | none => simp [Call.kind, CallKind.isDelete]
    | some e =>
      by_cases hnf : IsNotFound e = true
      · simp only [hnf]
        cases h3 : w.deleteNamespace with
        | none => simp [Call.kind, CallKind.isDelete]
        | some e' =>
          by_cases hc : IsConflict e' = true
          · simp [Call.kind, CallKind.isDelete, hc]
          · by_cases hn : IsNotFound e' = true
            · by_cases hf : ContainsFinalizer ci finalizerName = true
              · cases h4 : w.removeFinalizers <;>
                  simp [Call.kind, CallKind.isDelete, hc, hn, hf, RemoveFinalizers, h4]
              · simp [Call.kind, CallKind.isDelete, hc, hn, hf]
            · simp [Call.kind, CallKind.isDelete, hc, hn]
      · simp [Call.kind, CallKind.isDelete, hnf]

/-- The call sites the body of the install pass may reach. -/
theorem reconcileBody_kinds (r : Reconciler) (w : World) (ci : ControllerInstallation)
    (t : List Call) (cv cinst : Condition) :
    ∃ ks, kinds (reconcileBody r w ci t cv cinst).trace = kinds t ++ ks ∧
      ∀ k ∈ ks, k ∈ [CallKind.getControllerRegistration, CallKind.getSeed,
        CallKind.getControllerDeployment, CallKind.upsertNamespace, CallKind.renderArchive,
        CallKind.createManagedResource] := by
  unfold reconcileBody
  cases h1 : w.getControllerRegistration with
  | error e => exact ⟨[CallKind.getControllerRegistration], by simp [kinds, Call.kind], by simp⟩
  | ok reg =>
  dsimp only
  cases h2 : w.getSeed with
  | error e =>
    exact ⟨[CallKind.getControllerRegistration, CallKind.getSeed], by simp [kinds, Call.kind], by simp⟩
  | ok seed =>
  dsimp only
  cases hd : ci.deploymentRef with
  | none =>
    exact ⟨[CallKind.getControllerRegistration, CallKind.getSeed], by simp [kinds, Call.kind], by simp⟩
  | some dep =>
  dsimp only
  cases h3 : w.getControllerDeployment with
  | error e =>
    exact ⟨[CallKind.getControllerRegistration, CallKind.getSeed, CallKind.getControllerDeployment],
      by simp [kinds, Call.kind], by simp⟩
  | ok cd =>
  dsimp only
  cases h4 : w.unmarshal cd.providerConfigRaw with
  | error e =>
    exact ⟨[CallKind.getControllerRegistration, CallKind.getSeed, CallKind.getControllerDeployment],
      by simp [kinds, Call.kind, h4], by simp⟩
  | ok hdp =>
  dsimp only
  cases h5 : w.upsertNamespace with
  | some e =>
    exact ⟨[CallKind.getControllerRegistration, CallKind.getSeed, CallKind.getControllerDeployment,
      CallKind.upsertNamespace], by simp [kinds, Call.kind, h4], by simp⟩
  | none =>
  dsimp only
  cases h6 : seed.clusterIdentity with
  | none =>
    exact ⟨[CallKind.getControllerRegistration, CallKind.getSeed, CallKind.getControllerDeployment,
      CallKind.upsertNamespace], by simp [kinds, Call.kind, h4], by simp⟩
  | some sid =>
  dsimp only
  generalize (seed.dnsIngressDomain <|> _) = ing
  cases ing with
  | none =>
    exact ⟨[CallKind.getControllerRegistration, CallKind.getSeed, CallKind.getControllerDeployment,
      CallKind.upsertNamespace], by simp [kinds, Call.kind, h4], by simp⟩
  | some ingressDomain =>
  dsimp only
  generalize (gardenerValues r seed sid _ _ ingressDomain) = gv
  cases gv with
  | error e =>
    exact ⟨[CallKind.getControllerRegistration, CallKind.getSeed, CallKind.getControllerDeployment,
      CallKind.upsertNamespace], by simp [kinds, Call.kind, h4], by simp⟩
  | ok injected =>
  dsimp only
  generalize hv : (MergeMaps hdp.Values _) = values
  cases h7 : w.renderArchive hdp.Chart reg.name (getNamespaceForControllerInstallation ci) values with
  | error e =>
    exact ⟨[CallKind.getControllerRegistration, CallKind.getSeed, CallKind.getControllerDeployment,
      CallKind.upsertNamespace, CallKind.renderArchive], by simp [kinds, Call.kind], by simp⟩
  | ok rel =>
  dsimp only
  cases h8 : w.createManagedResource with
  | some e =>
    exact ⟨[CallKind.getControllerRegistration, CallKind.getSeed, CallKind.getControllerDeployment,
      CallKind.upsertNamespace, CallKind.renderArchive, CallKind.createManagedResource],
      by simp [kinds, Call.kind], by simp⟩
  | none =>
    exact ⟨[CallKind.getControllerRegistration, CallKind.getSeed, CallKind.getControllerDeployment,
      CallKind.upsertNamespace, CallKind.renderArchive, CallKind.createManagedResource],
      by simp [kinds, Call.kind], by simp⟩

theorem isResponsible_kinds (w : World) (ci : ControllerInstallation) :
    kinds (isResponsible w ci).2.2 = [] ∨
      kinds (isResponsible w ci).2.2 = [CallKind.getControllerDeployment] := by
  unfold isResponsible
  cases ci.deploymentRef with
  | none => left; rfl
  | some n => cases w.getControllerDeploymentResponsible <;> (right; rfl)

theorem isResponsible_true (w : World) (ci : ControllerInstallation)
    (h : (isResponsible w ci).1 = true) :
      kinds (isResponsible w ci).2.2 = [CallKind.getControllerDeployment] := by
  unfold isResponsible at h ⊢
  cases hd : ci.deploymentRef with
  | none => simp [hd] at h
  | some n => cases w.getControllerDeploymentResponsible <;> rfl

theorem reconcile_kinds_no_remove (r : Reconciler) (w : World) (ci : ControllerInstallation) :
    CallKind.removeFinalizers ∉ kinds (reconcile r w ci).trace := by
  have key : ∀ ci' t, CallKind.removeFinalizers ∉ kinds t →
      CallKind.removeFinalizers ∉ kinds (deferPatchConditions w (reconcileBody r w ci' t
        (GetOrInitCondition w.now ci'.conditions ControllerInstallationValid)
        (GetOrInitCondition w.now ci'.conditions ControllerInstallationInstalled))).trace := by
    intro ci' t ht
    obtain ⟨ks, hk, hks⟩ := reconcileBody_kinds r w ci' t
      (GetOrInitCondition w.now ci'.conditions ControllerInstallationValid)
      (GetOrInitCondition w.now ci'.conditions ControllerInstallationInstalled)
    simp only [deferPatchConditions, patchConditions, kinds, List.map_append] at hk ⊢
    rw [hk]
    simp only [List.mem_append, not_or]
    refine ⟨⟨ht, ?_⟩, by simp [Call.kind]⟩
    intro hmem
    have := hks _ hmem
    simp at this
  unfold reconcile
  split
  · exact key ci [] (by simp [kinds])
  · unfold AddFinalizers
    cases w.addFinalizers with
    | some e => simp [kinds, Call.kind]
    | none => exact key _ _ (by simp [kinds, Call.kind])

theorem deleteBody_remove (w : World) (ci : ControllerInstallation) (cv cinst : Condition)
    (h : CallKind.removeFinalizers ∈ kinds (deleteBody w ci cv cinst).trace) :
    ∃ eb en, w.deleteManagedResource = some eb ∧ IsNotFound eb = true ∧
      w.deleteNamespace = some en ∧ IsNotFound en = true ∧
      kinds (deleteBody w ci cv cinst).trace =
        [CallKind.getSeed, CallKind.deleteManagedResource, CallKind.deleteSecret,
         CallKind.deleteNamespace, CallKind.removeFinalizers] := by
  unfold deleteBody at h ⊢
  cases h1 : w.getSeed with
  | error e => simp [h1, kinds, Call.kind] at h
  | ok seed =>
    cases h2 : w.deleteManagedResource with
    | none => simp [h1, h2, kinds, Call.kind] at h
    | some e =>
      by_cases hnf : IsNotFound e = true
      · refine ⟨e, ?_⟩
        cases h3 : w.deleteNamespace with
        | none => simp [h1, h2, h3, hnf, kinds, Call.kind] at h
        | some e' =>
          by_cases hc : IsConflict e' = true
          · simp [h1, h2, h3, hnf, hc, kinds, Call.kind] at h
          · by_cases hn : IsNotFound e' = true
            · by_cases hf : ContainsFinalizer ci finalizerName = true
              · cases h4 : w.removeFinalizers <;>
                  simp [kinds, Call.kind, hnf, hc, hn, hf, RemoveFinalizers, h4]
              · simp [h1, h2, h3, kinds, Call.kind, hnf, hc, hn, hf] at h
            · simp [h1, h2, h3, kinds, Call.kind, hnf, hc, hn] at h
      · simp [h1, h2, kinds, Call.kind, hnf] at h

theorem deleteBody_kinds (w : World) (ci : ControllerInstallation) (cv cinst : Condition) :
    ∀ k ∈ kinds (deleteBody w ci cv cinst).trace,
      k ∈ [CallKind.getSeed, CallKind.deleteManagedResource, CallKind.deleteSecret,
        CallKind.deleteNamespace, CallKind.removeFinalizers] := by
  unfold deleteBody
  cases h1 : w.getSeed with
  | error e => simp [kinds, Call.kind]
  | ok seed =>
    cases h2 : w.deleteManagedResource with
    | none => simp [kinds, Call.kind]
    | some e =>
      by_cases hnf : IsNotFound e = true
      · simp only [hnf]
        cases h3 : w.deleteNamespace with
        | none => simp [kinds, Call.kind]
        | some e' =>
          by_cases hc : IsConflict e' = true
          · simp [kinds, Call.kind, hc]
          · by_cases hn : IsNotFound e' = true
            · by_cases hf : ContainsFinalizer ci finalizerName = true
              · cases h4 : w.removeFinalizers <;>
                  simp [kinds, Call.kind, hc, hn, hf, RemoveFinalizers, h4]
              · simp [kinds, Call.kind, hc, hn, hf]
            · simp [kinds, Call.kind, hc, hn]
      · simp [kinds, Call.kind, hnf]

theorem handedToPatch_append (t u : List Call) :
    handedToPatch (t ++ u) = handedToPatch t ++ handedToPatch u := by
  induction t with
  | nil => rfl
  | cons c rest ih => cases c <;> simp [handedToPatch, ih]

theorem writtenByPatch_append (t u : List Call) :
    writtenByPatch (t ++ u) = writtenByPatch t ++ writtenByPatch u := by
  induction t with
  | nil => rfl
  | cons c rest ih => cases c <;> simp [writtenByPatch, ih]

theorem handedToPatch_of_no_patch (t : List Call) (h : CallKind.patchStatus ∉ kinds t) :
    handedToPatch t = [] := by
  induction t with
  | nil => rfl
  | cons c rest ih =>
    simp only [kinds, List.map_cons, List.mem_cons, not_or] at h ih
    cases c <;> simp_all [handedToPatch, Call.kind]

theorem writtenByPatch_of_no_patch (t : List Call) (h : CallKind.patchStatus ∉ kinds t) :
    writtenByPatch t = [] := by
  induction t with
  | nil => rfl
  | cons c rest ih =>
    simp only [kinds, List.map_cons, List.mem_cons, not_or] at h ih
    cases c <;> simp_all [writtenByPatch, Call.kind]

/-- The deferred patch after a body that issued no patch itself: one patch, last in the
trace, handing over the two condition variables. -/
theorem deferPatchConditions_once (w : World) (b : Body)
    (h : CallKind.patchStatus ∉ kinds b.trace) :
    (kinds (deferPatchConditions w b).trace).count CallKind.patchStatus = 1 ∧
    (kinds (deferPatchConditions w b).trace).getLast? = some CallKind.patchStatus ∧
    handedToPatch (deferPatchConditions w b).trace = [[b.conditionValid, b.conditionInstalled]] ∧
    writtenByPatch (deferPatchConditions w b).trace =
      [MergeConditions b.installation.conditions [b.conditionValid, b.conditionInstalled]] ∧
    (deferPatchConditions w b).installation.conditions =
      MergeConditions b.installation.conditions [b.conditionValid, b.conditionInstalled] ∧
    (deferPatchConditions w b).exit = b.exit := by
  refine ⟨?_, ?_, ?_, ?_, rfl, rfl⟩
  · simp only [deferPatchConditions, patchConditions, kinds, List.map_append, List.count_append]
    rw [List.count_eq_zero.mpr (by simpa [kinds] using h)]
    simp [Call.kind]
  · simp [deferPatchConditions, patchConditions, kinds, Call.kind]
  · simp only [deferPatchConditions, patchConditions, handedToPatch_append,
      handedToPatch_of_no_patch _ h]
    rfl
  · simp only [deferPatchConditions, patchConditions, writtenByPatch_append,
      writtenByPatch_of_no_patch _ h]
    rfl

theorem reconcileBody_no_patch (r : Reconciler) (w : World) (ci : ControllerInstallation)
    (t : List Call) (cv cinst : Condition) (ht : CallKind.patchStatus ∉ kinds t) :
    CallKind.patchStatus ∉ kinds (reconcileBody r w ci t cv cinst).trace := by
  obtain ⟨ks, hk, hks⟩ := reconcileBody_kinds r w ci t cv cinst
  rw [hk]
  simp only [List.mem_append, not_or]
  refine ⟨ht, fun hmem => ?_⟩
  have := hks _ hmem
  simp at this

theorem deleteBody_no_patch (w : World) (ci : ControllerInstallation) (cv cinst : Condition) :
    CallKind.patchStatus ∉ kinds (deleteBody w ci cv cinst).trace := by
  intro hmem
  have := deleteBody_kinds w ci cv cinst _ hmem
  simp at this

theorem UpdatedCondition_twice (now : Nat) (c : Condition) (s : ConditionStatus)
    (r1 m1 r2 m2 : String) :
    UpdatedCondition now (UpdatedCondition now c s r1 m1) s r2 m2 =
      UpdatedCondition now c s r2 m2 := by
  simp [UpdatedCondition]

theorem IsConflict_not_IsNotFound (e : Err) (h : IsConflict e = true) : IsNotFound e = false := by
  cases e with
  | mk kind text => cases kind <;> simp_all [IsConflict, IsNotFound]

theorem deleteBody_requeue (w : World) (ci : ControllerInstallation) (cv cinst : Condition) :
    ((deleteBody w ci cv cinst).exit = Exit.returned { RequeueAfter := 30 * Second } none ↔
      DeletionIsPending w) ∧
    (DeletionIsPending w →
      (deleteBody w ci cv cinst).conditionInstalled.status = ConditionStatus.ConditionFalse ∧
      (deleteBody w ci cv cinst).conditionInstalled.reason = "DeletionPending" ∧
      CallKind.removeFinalizers ∉ kinds (deleteBody w ci cv cinst).trace) ∧
    (¬ DeletionIsPending w → ∃ err, (deleteBody w ci cv cinst).exit = Exit.returned {} err) := by
  unfold deleteBody
  cases h1 : w.getSeed with
  | error e => simp [DeletionIsPending, h1]
  | ok seed =>
    cases h2 : w.deleteManagedResource with
    | none => simp [DeletionIsPending, h1, h2, UpdatedCondition, kinds, Call.kind]
    | some e =>
      by_cases hnf : IsNotFound e = true
      · simp only [hnf, not_true_eq_false, ↓reduceIte]
        cases h3 : w.deleteNamespace with
        | none => simp [DeletionIsPending, h1, h2, h3, hnf, UpdatedCondition, kinds, Call.kind]
        | some en =>
          by_cases hc : IsConflict en = true
          · simp [DeletionIsPending, h1, h2, h3, hnf, hc, UpdatedCondition, kinds, Call.kind]
          · by_cases hn : IsNotFound en = true
            · by_cases hf : ContainsFinalizer ci finalizerName = true
              · cases h4 : w.removeFinalizers <;>
                  simp [DeletionIsPending, h1, h2, h3, hnf, hc, hn, hf, RemoveFinalizers, h4,
                    Second]
              · simp [DeletionIsPending, h1, h2, h3, hnf, hc, hn, hf, Second]
            · simp [DeletionIsPending, h1, h2, h3, hnf, hc, hn, Second]
      · simp [DeletionIsPending, h1, h2, hnf, Second]

/-- The body of the install pass keeps the types of its two condition variables and does
not touch the object. -/
theorem reconcileBody_types (r : Reconciler) (w : World) (ci : ControllerInstallation)
    (t : List Call) (cv cinst : Condition) :
    (reconcileBody r w ci t cv cinst).conditionValid.type = cv.type ∧
    (reconcileBody r w ci t cv cinst).conditionInstalled.type = cinst.type ∧
    (reconcileBody r w ci t cv cinst).installation = ci := by
  unfold reconcileBody
  cases h1 : w.getControllerRegistration with
  | error e => dsimp only; split <;> simp [UpdatedCondition]
  | ok reg =>
  dsimp only
  cases h2 : w.getSeed with
  | error e => dsimp only; split <;> simp [UpdatedCondition]
  | ok seed =>
  dsimp only
  cases hd : ci.deploymentRef with
  | none => simp
  | some dep =>
  dsimp only
  cases h3 : w.getControllerDeployment with
  | error e => simp
  | ok cd =>
  dsimp only
  cases h4 : w.unmarshal cd.providerConfigRaw with
  | error e => simp [UpdatedCondition]
  | ok hdp =>
  dsimp only
  cases h5 : w.upsertNamespace with
  | some e => simp
  | none =>
  dsimp only
  cases h6 : seed.clusterIdentity with
  | none => simp
  | some sid =>
  dsimp only
  generalize (seed.dnsIngressDomain <|> _) = ing
  cases ing with
  | none => simp
  | some ingressDomain =>
  dsimp only
  generalize (gardenerValues r seed sid _ _ ingressDomain) = gv
  cases gv with
  | error e => simp
  | ok injected =>
  dsimp only
  generalize (MergeMaps hdp.Values _) = values
  cases h7 : w.renderArchive hdp.Chart reg.name (getNamespaceForControllerInstallation ci) values with
  | error e => simp [UpdatedCondition]
  | ok rel =>
  dsimp only
  cases h8 : w.createManagedResource with
  | some e => simp [UpdatedCondition]
  | none => dsimp only; split <;> simp [UpdatedCondition]

/-- The delete calls issued by a deletion pass. -/
theorem delete_deletes (w : World) (ci : ControllerInstallation) :
    (delete w ci).trace.filter (fun c => c.kind.isDelete) =
      match w.getSeed, w.deleteManagedResource with
      | Except.error _, _ => []
      | Except.ok _, none => [Call.deleteManagedResource GardenNamespace ci.name]
      | Except.ok _, some e =>
          if IsNotFound e then
            [Call.deleteManagedResource GardenNamespace ci.name,
             Call.deleteSecret GardenNamespace ci.name,
             Call.deleteNamespace (getNamespaceForControllerInstallation ci)]
          else [Call.deleteManagedResource GardenNamespace ci.name] := by
  obtain ⟨v, i, rest, _, hde⟩ := delete_eq w ci
  rw [hde, ← deleteBody_deletes w ci v i]
  simp [deferPatchConditions, patchConditions, Call.kind, CallKind.isDelete]

/-- The body of the install pass reads neither the clock, the finalizers nor the stored
conditions to decide how it exits and what it does to its two condition variables. -/
theorem reconcileBody_shape (r : Reconciler) (w : World) (ci : ControllerInstallation) :
    ∃ (exit : Exit) (onValid onInstalled : ConditionAction),
      ∀ (now1 : Nat) (fs : List String) (cs : List Condition) (t : List Call)
        (cv cinst : Condition),
        (reconcileBody r { w with now := now1 } { ci with finalizers := fs, conditions := cs }
          t cv cinst).exit = exit ∧
        (reconcileBody r { w with now := now1 } { ci with finalizers := fs, conditions := cs }
          t cv cinst).conditionValid = onValid.apply now1 cv ∧
        (reconcileBody r { w with now := now1 } { ci with finalizers := fs, conditions := cs }
          t cv cinst).conditionInstalled = onInstalled.apply now1 cinst := by
  cases h1 : w.getControllerRegistration with
  | error e =>
    by_cases hnf : IsNotFound e = true
    · refine ⟨Exit.returned {} (some e),
        ConditionAction.update ConditionStatus.ConditionFalse "RegistrationNotFound"
          ("Referenced ControllerRegistration does not exist: " ++ e.text),
        ConditionAction.keep, fun now1 fs cs t cv cinst => ?_⟩
      simp [reconcileBody, h1, hnf, ConditionAction.apply]
    · refine ⟨Exit.returned {} (some e),
        ConditionAction.update ConditionStatus.ConditionUnknown "RegistrationReadError"
          ("Referenced ControllerRegistration cannot be read: " ++ e.text),
        ConditionAction.keep, fun now1 fs cs t cv cinst => ?_⟩
      simp [reconcileBody, h1, hnf, ConditionAction.apply]
  | ok reg =>
  cases h2 : w.getSeed with
  | error e =>
    by_cases hnf : IsNotFound e = true
    · refine ⟨Exit.returned {} (some e),
        ConditionAction.update ConditionStatus.ConditionFalse "SeedNotFound"
          ("Referenced Seed does not exist: " ++ e.text),
        ConditionAction.keep, fun now1 fs cs t cv cinst => ?_⟩
      simp [reconcileBody, h1, h2, hnf, ConditionAction.apply]
    · refine ⟨Exit.returned {} (some e),
        ConditionAction.update ConditionStatus.ConditionUnknown "SeedReadError"
          ("Referenced Seed cannot be read: " ++ e.text),
        ConditionAction.keep, fun now1 fs cs t cv cinst => ?_⟩
      simp [reconcileBody, h1, h2, hnf, ConditionAction.apply]
  | ok seed =>
  cases hd : ci.deploymentRef with
  | none =>
    refine ⟨Exit.panicked nilDereference "providerConfig.Raw",
      ConditionAction.keep, ConditionAction.keep, fun now1 fs cs t cv cinst => ?_⟩
    simp [reconcileBody, h1, h2, hd, ConditionAction.apply]
  | some dep =>
  cases h3 : w.getControllerDeployment with
  | error e =>
    refine ⟨Exit.returned {} (some e), ConditionAction.keep, ConditionAction.keep,
      fun now1 fs cs t cv cinst => ?_⟩
    simp [reconcileBody, h1, h2, hd, h3, ConditionAction.apply]
  | ok cd =>
  cases h4 : w.unmarshal cd.providerConfigRaw with
  | error e =>
    refine ⟨Exit.returned {} (some e),
      ConditionAction.update ConditionStatus.ConditionFalse "ChartInformationInvalid"
        ("Chart Information cannot be unmarshalled: " ++ e.text),
      ConditionAction.keep, fun now1 fs cs t cv cinst => ?_⟩
    simp [reconcileBody, h1, h2, hd, h3, h4, ConditionAction.apply]
  | ok hdp =>
  cases h5 : w.upsertNamespace with
  | some e =>
    refine ⟨Exit.returned {} (some e), ConditionAction.keep, ConditionAction.keep,
      fun now1 fs cs t cv cinst => ?_⟩
    simp [reconcileBody, h1, h2, hd, h3, h4, h5, ConditionAction.apply]
  | none =>
  cases h6 : seed.clusterIdentity with
  | none =>
    refine ⟨Exit.returned {}
        (some { kind := ErrKind.other
                text := "cluster-identity of seed '" ++ seed.name ++ "' not set" }),
      ConditionAction.keep, ConditionAction.keep, fun now1 fs cs t cv cinst => ?_⟩
    simp [reconcileBody, h1, h2, hd, h3, h4, h5, h6, ConditionAction.apply]
  | some sid =>
  cases hing : (seed.dnsIngressDomain <|> seed.ingress.map Ingress.domain) with
  | none =>
    refine ⟨Exit.panicked nilDereference "seed.Spec.Ingress.Domain",
      ConditionAction.keep, ConditionAction.keep, fun now1 fs cs t cv cinst => ?_⟩
    simp only [reconcileBody, h1, h2, hd, h3, h4, h5, h6, hing, ConditionAction.apply]
    exact ⟨trivial, trivial, trivial⟩
  | some ingressDomain =>
  cases hg : injectedValues r seed sid ingressDomain with
  | error expression =>
    simp only [injectedValues] at hg
    refine ⟨Exit.panicked nilDereference expression,
      ConditionAction.keep, ConditionAction.keep, fun now1 fs cs t cv cinst => ?_⟩
    simp only [reconcileBody, h1, h2, hd, h3, h4, h5, h6, hing, hg, ConditionAction.apply]
    exact ⟨trivial, trivial, trivial⟩
  | ok injected =>
  simp only [injectedValues] at hg
  cases h7 : w.renderArchive hdp.Chart reg.name ("extension-" ++ ci.name)
      (MergeMaps hdp.Values injected) with
  | error e =>
    refine ⟨Exit.returned {} (some e),
      ConditionAction.update ConditionStatus.ConditionFalse "ChartCannotBeRendered"
        ("Chart rendering process failed: " ++ e.text),
      ConditionAction.keep, fun now1 fs cs t cv cinst => ?_⟩
    simp [reconcileBody, h1, h2, hd, h3, h4, h5, h6, hing, hg, h7, ConditionAction.apply,
      getNamespaceForControllerInstallation, NamespaceNameForControllerInstallation]
  | ok rel =>
  cases h8 : w.createManagedResource with
  | some e =>
    refine ⟨Exit.returned {} (some e),
      ConditionAction.update ConditionStatus.ConditionTrue "RegistrationValid"
        "Chart could be rendered successfully.",
      ConditionAction.update ConditionStatus.ConditionFalse "InstallationFailed"
        ("Creation of ManagedResource " ++ quoted ci.name ++ " failed: " ++ e.text),
      fun now1 fs cs t cv cinst => ?_⟩
    simp [reconcileBody, h1, h2, hd, h3, h4, h5, h6, hing, hg, h7, h8, ConditionAction.apply,
      getNamespaceForControllerInstallation, NamespaceNameForControllerInstallation]
  | none =>
    refine ⟨Exit.returned {} none,
      ConditionAction.update ConditionStatus.ConditionTrue "RegistrationValid"
        "Chart could be rendered successfully.",
      ConditionAction.updateIfUnknown ConditionStatus.ConditionFalse "InstallationPending"
        ("Installation of ManagedResource " ++ quoted ci.name ++ " is still pending."),
      fun now1 fs cs t cv cinst => ?_⟩
    simp [reconcileBody, h1, h2, hd, h3, h4, h5, h6, hing, hg, h7, h8, ConditionAction.apply,
      getNamespaceForControllerInstallation, NamespaceNameForControllerInstallation]


/-- Applying the action of a pass to the condition it produced, or to the condition it
started from, at any time, gives a condition with the same summary. -/
theorem ConditionAction.apply_summary (a : ConditionAction) (now now1 : Nat)
    (c x : Condition) (hx : x = a.apply now c ∨ x = c) :
    (a.apply now1 x).summary = (a.apply now c).summary := by
  cases a with
  | keep =>
    rcases hx with rfl | rfl <;> rfl
  | update s r m =>
    rcases hx with rfl | rfl <;> simp [ConditionAction.apply, UpdatedCondition, Condition.summary]
  | updateIfUnknown s r m =>
    by_cases hc : c.status = ConditionStatus.ConditionUnknown
    · by_cases hs : s = ConditionStatus.ConditionUnknown
      · rcases hx with rfl | rfl <;>
          simp [ConditionAction.apply, UpdatedCondition, Condition.summary, hc, hs]
      · rcases hx with rfl | rfl <;>
          simp [ConditionAction.apply, UpdatedCondition, Condition.summary, hc, hs]
    · rcases hx with rfl | rfl <;>
        simp [ConditionAction.apply, UpdatedCondition, Condition.summary, hc]

theorem GetCondition_summary (l1 l2 : List Condition) (t : ConditionType)
    (h : l1.map Condition.summary = l2.map Condition.summary) :
    (GetCondition l1 t).map Condition.summary = (GetCondition l2 t).map Condition.summary := by
  induction l1 generalizing l2 with
  | nil =>
    cases l2 with
    | nil => rfl
    | cons d rest => simp at h
  | cons c rest ih =>
    cases l2 with
    | nil => simp at h
    | cons d rest2 =>
      simp only [List.map_cons, List.cons.injEq] at h
      have ht : c.type = d.type := congrArg Prod.fst h.1
      simp only [GetCondition, ht]
      by_cases hd : d.type = t
      · simp [hd, h.1]
      · simp only [hd, if_false]
        exact ih rest2 h.2

/-- The body of the install pass, run a second time (at any time) on the object with the
conditions the first run wrote: same exit, and the two condition variables end with the
same summaries. -/
theorem install_body_twice (r : Reconciler) (w : World) (ci1 : ControllerInstallation)
    (t1 : List Call) (now1 : Nat) (b1 b2 : Body) (written : List Condition)
    (hb1 : b1 = reconcileBody r w ci1 t1
      (GetOrInitCondition w.now ci1.conditions ControllerInstallationValid)
      (GetOrInitCondition w.now ci1.conditions ControllerInstallationInstalled))
    (hwritten : written =
      MergeConditions ci1.conditions [b1.conditionValid, b1.conditionInstalled])
    (hb2 : b2 = reconcileBody r { w with now := now1 } { ci1 with conditions := written } []
      (GetOrInitCondition now1 written ControllerInstallationValid)
      (GetOrInitCondition now1 written ControllerInstallationInstalled)) :
    b1.installation = ci1 ∧
    b2.installation = { ci1 with conditions := written } ∧
    b1.conditionValid.type ≠ b1.conditionInstalled.type ∧
    b2.exit = b1.exit ∧
    b2.conditionValid.summary = b1.conditionValid.summary ∧
    b2.conditionInstalled.summary = b1.conditionInstalled.summary := by
  obtain ⟨exit, onValid, onInstalled, hshape⟩ := reconcileBody_shape r w ci1
  have hw : ({ w with now := w.now } : World) = w := by cases w; rfl
  have hci : ({ ci1 with finalizers := ci1.finalizers, conditions := ci1.conditions } :
      ControllerInstallation) = ci1 := by cases ci1; rfl
  -- the first run
  have s1 := hshape w.now ci1.finalizers ci1.conditions t1
    (GetOrInitCondition w.now ci1.conditions ControllerInstallationValid)
    (GetOrInitCondition w.now ci1.conditions ControllerInstallationInstalled)
  rw [hw, hci, ← hb1] at s1
  obtain ⟨hv1, hi1, hinst1⟩ := reconcileBody_types r w ci1 t1
    (GetOrInitCondition w.now ci1.conditions ControllerInstallationValid)
    (GetOrInitCondition w.now ci1.conditions ControllerInstallationInstalled)
  rw [GetOrInitCondition_type, ← hb1] at hv1 hi1
  rw [← hb1] at hinst1
  have hne : b1.conditionValid.type ≠ b1.conditionInstalled.type := by
    rw [hv1, hi1]; decide
  -- what the second run loads
  obtain ⟨kv, ki⟩ := GetOrInitCondition_merged w.now now1 ci1.conditions
    b1.conditionValid b1.conditionInstalled hne
  rw [hv1, ← hwritten, s1.2.1] at kv
  rw [hi1, ← hwritten, s1.2.2] at ki
  -- the second run
  have s2 := hshape now1 ci1.finalizers written []
    (GetOrInitCondition now1 written ControllerInstallationValid)
    (GetOrInitCondition now1 written ControllerInstallationInstalled)
  have hinst2 := (reconcileBody_types r { w with now := now1 } { ci1 with conditions := written }
    [] (GetOrInitCondition now1 written ControllerInstallationValid)
    (GetOrInitCondition now1 written ControllerInstallationInstalled)).2.2
  rw [← hb2] at s2 hinst2
  have hsv := ConditionAction.apply_summary onValid w.now now1 _ _ kv
  have hsi := ConditionAction.apply_summary onInstalled w.now now1 _ _ ki
  rw [← s2.2.1, ← s1.2.1] at hsv
  rw [← s2.2.2, ← s1.2.2] at hsi
  exact ⟨hinst1, hinst2, hne, by rw [s2.1, s1.1], hsv, hsi⟩


/-- The install pass after a first run whose body ran on an object carrying the
finalizer. -/
theorem install_deferred_twice (r : Reconciler) (w : World) (ci1 : ControllerInstallation)
    (t1 : List Call) (now1 : Nat) (hfz : ContainsFinalizer ci1 finalizerName = true)
    (ht1 : CallKind.patchStatus ∉ kinds t1) (first : Outcome)
    (hfirst : first = deferPatchConditions w (reconcileBody r w ci1 t1
      (GetOrInitCondition w.now ci1.conditions ControllerInstallationValid)
      (GetOrInitCondition w.now ci1.conditions ControllerInstallationInstalled))) :
    (reconcile r { w with now := now1 } first.installation).exit = first.exit ∧
    (reconcile r { w with now := now1 } first.installation).installation.finalizers =
      first.installation.finalizers ∧
    (reconcile r { w with now := now1 } first.installation).installation.conditions.map
        Condition.summary =
      first.installation.conditions.map Condition.summary ∧
    (handedToPatch (reconcile r { w with now := now1 } first.installation).trace).map
        (List.map Condition.summary) =
      (handedToPatch first.trace).map (List.map Condition.summary) := by
  obtain ⟨hinst1, hinst2, hne, hexit, hsv, hsi⟩ :=
    install_body_twice r w ci1 t1 now1 _ _ _ rfl rfl rfl
  obtain ⟨_, _, hh1, _, hc1, hx1⟩ := deferPatchConditions_once w _
    (reconcileBody_no_patch r w ci1 t1
      (GetOrInitCondition w.now ci1.conditions ControllerInstallationValid)
      (GetOrInitCondition w.now ci1.conditions ControllerInstallationInstalled) ht1)
  rw [hinst1] at hc1
  have hfi : first.installation =
      { ci1 with
        conditions := MergeConditions ci1.conditions
          [(reconcileBody r w ci1 t1
              (GetOrInitCondition w.now ci1.conditions ControllerInstallationValid)
              (GetOrInitCondition w.now ci1.conditions
                ControllerInstallationInstalled)).conditionValid,
           (reconcileBody r w ci1 t1
              (GetOrInitCondition w.now ci1.conditions ControllerInstallationValid)
              (GetOrInitCondition w.now ci1.conditions
                ControllerInstallationInstalled)).conditionInstalled] } := by
    rw [hfirst]
    simp only [deferPatchConditions, patchConditions, hinst1]
  rw [← hfirst] at hh1 hc1 hx1
  have hfz1 : ContainsFinalizer first.installation finalizerName = true := by
    rw [hfi]; exact hfz
  have hsecond : reconcile r { w with now := now1 } first.installation =
      deferPatchConditions { w with now := now1 }
        (reconcileBody r { w with now := now1 } first.installation []
          (GetOrInitCondition now1 first.installation.conditions ControllerInstallationValid)
          (GetOrInitCondition now1 first.installation.conditions
            ControllerInstallationInstalled)) := by
    unfold reconcile
    rw [if_pos hfz1]
  obtain ⟨_, _, hh2, _, hc2, hx2⟩ := deferPatchConditions_once { w with now := now1 } _
    (reconcileBody_no_patch r { w with now := now1 } first.installation []
      (GetOrInitCondition now1 first.installation.conditions ControllerInstallationValid)
      (GetOrInitCondition now1 first.installation.conditions ControllerInstallationInstalled)
      (by simp [kinds]))
  rw [← hsecond] at hh2 hc2 hx2
  have hconds : first.installation.conditions =
      MergeConditions ci1.conditions
        [(reconcileBody r w ci1 t1
            (GetOrInitCondition w.now ci1.conditions ControllerInstallationValid)
            (GetOrInitCondition w.now ci1.conditions
              ControllerInstallationInstalled)).conditionValid,
         (reconcileBody r w ci1 t1
            (GetOrInitCondition w.now ci1.conditions ControllerInstallationValid)
            (GetOrInitCondition w.now ci1.conditions
              ControllerInstallationInstalled)).conditionInstalled] := by
    rw [hfi]
  rw [hconds] at hh2 hc2 hx2
  rw [hfi] at hh2 hc2 hx2
  refine ⟨?_, ?_, ?_, ?_⟩
  · rw [hx1, hfi, hx2]
    exact hexit
  · rw [hsecond]
    simp only [deferPatchConditions, patchConditions]
    rw [hfi, hinst2]
  · rw [hconds, hfi, hc2, hinst2]
    exact MergeConditions_pair_summary _ _ _ _ _ hne hsv hsi
  · rw [hh1, hfi, hh2]
    simp [hsv, hsi]

/-! ## Lemmas on the nil pointer dereferences of the install pass -/

/-- The injected values are built exactly when the four pointers the map literal reads
through are set. -/
theorem gardenerValues_ok (r : Reconciler) (seed : Seed) (a b : String)
    (c : Option (List String)) (d : String) (injected : Fields)
    (h : gardenerValues r seed a b c d = Except.ok injected) :
    ∃ identity gardenNamespace settings scheduling,
      r.identity = some identity ∧ r.gardenNamespace = some gardenNamespace ∧
      seed.settings = some settings ∧ settings.scheduling = some scheduling := by
  unfold gardenerValues at h
  cases hi : r.identity with
  | none => simp [hi] at h
  | some identity =>
  cases hn : r.gardenNamespace with
  | none => simp [hi, hn] at h
  | some gardenNamespace =>
  cases hs : seed.settings with
  | none => simp [hi, hn, hs] at h
  | some settings =>
  cases hc : settings.scheduling with
  | none => simp [hi, hn, hs, hc] at h
  | some scheduling => exact ⟨identity, gardenNamespace, settings, scheduling, rfl, rfl, rfl, hc⟩

/-- The map literal of the injected values does not read the provider configuration. -/
theorem gardenerValues_error (r : Reconciler) (seed : Seed) (a b : String)
    (c : Option (List String)) (d : String) (expression : String)
    (h : gardenerValues r seed a b c d = Except.error expression) :
    expression ≠ "providerConfig.Raw" := by
  unfold gardenerValues at h
  cases hi : r.identity with
  | none =>
    simp only [hi, Except.error.injEq] at h
    subst h
    decide
  | some identity =>
  cases hn : r.gardenNamespace with
  | none =>
    simp only [hi, hn, Except.error.injEq] at h
    subst h
    decide
  | some gardenNamespace =>
  cases hs : seed.settings with
  | none =>
    simp only [hi, hn, hs, Except.error.injEq] at h
    subst h
    decide
  | some settings =>
  cases hc : settings.scheduling with
  | none =>
    simp only [hi, hn, hs, hc, Except.error.injEq] at h
    subst h
    decide
  | some scheduling => simp [hi, hn, hs, hc] at h

/-- With a deployment-method reference the body of the install pass does not dereference
a nil provider configuration. -/
theorem reconcileBody_no_decode_panic (r : Reconciler) (w : World)
    (ci : ControllerInstallation) (t : List Call) (cv cinst : Condition) (dep : String)
    (href : ci.deploymentRef = some dep) (what : String) :
    (reconcileBody r w ci t cv cinst).exit ≠ Exit.panicked what "providerConfig.Raw" := by
  unfold reconcileBody
  cases h1 : w.getControllerRegistration with
  | error e => simp
  | ok reg =>
  dsimp only
  cases h2 : w.getSeed with
  | error e => simp
  | ok seed =>
  dsimp only
  rw [href]
  dsimp only
  cases h3 : w.getControllerDeployment with
  | error e => simp
  | ok cd =>
  dsimp only
  cases h4 : w.unmarshal cd.providerConfigRaw with
  | error e => simp
  | ok hdp =>
  dsimp only
  cases h5 : w.upsertNamespace with
  | some e => simp
  | none =>
  dsimp only
  cases h6 : seed.clusterIdentity with
  | none => simp
  | some sid =>
  dsimp only
  generalize (seed.dnsIngressDomain <|> _) = ing
  cases ing with
  | none => simp
  | some ingressDomain =>
  dsimp only
  generalize hg : (gardenerValues r seed sid _ _ ingressDomain) = gv
  cases gv with
  | error e =>
    have := gardenerValues_error r seed _ _ _ _ e hg
    simp [this]
  | ok injected =>
  dsimp only
  generalize (MergeMaps hdp.Values _) = values
  cases h7 : w.renderArchive hdp.Chart reg.name (getNamespaceForControllerInstallation ci) values with
  | error e => simp
  | ok rel =>
  dsimp only
  cases h8 : w.createManagedResource with
  | some e => simp
  | none => simp

/-- Without a deployment-method reference the body of the install pass dereferences the
nil provider configuration as soon as the registration and the seed are read. -/
theorem reconcileBody_panics (r : Reconciler) (w : World) (ci : ControllerInstallation)
    (t : List Call) (cv cinst : Condition) (href : ci.deploymentRef = none)
    (reg : ControllerRegistration) (seed : Seed)
    (hreg : w.getControllerRegistration = Except.ok reg) (hseed : w.getSeed = Except.ok seed) :
    (reconcileBody r w ci t cv cinst).exit =
      Exit.panicked nilDereference "providerConfig.Raw" := by
  simp [reconcileBody, hreg, hseed, href]

/-- With a deployment-method reference the install pass does not dereference a nil
provider configuration. -/
theorem reconcile_no_decode_panic (r : Reconciler) (w : World) (ci : ControllerInstallation)
    (dep : String) (href : ci.deploymentRef = some dep) (what : String) :
    (reconcile r w ci).exit ≠ Exit.panicked what "providerConfig.Raw" := by
  unfold reconcile
  by_cases hf : ContainsFinalizer ci finalizerName = true
  · rw [if_pos hf]
    exact reconcileBody_no_decode_panic r w ci _ _ _ dep href what
  · rw [if_neg hf]
    cases ha : w.addFinalizers with
    | some e => simp [AddFinalizers, ha]
    | none =>
      simp only [AddFinalizers, ha]
      refine reconcileBody_no_decode_panic r w _ _ _ _ dep ?_ what
      split
      · exact href
      · exact href

/-- The deletion pass does not panic: the merged list has the two entries it indexes. -/
theorem delete_no_panic (w : World) (ci : ControllerInstallation) (what expression : String) :
    (delete w ci).exit ≠ Exit.panicked what expression := by
  obtain ⟨v, i, rest, _, hde⟩ := delete_eq w ci
  rw [hde]
  have h := deleteBody_requeue w ci v i
  by_cases hp : DeletionIsPending w
  · simp only [deferPatchConditions]
    rw [h.1.mpr hp]
    simp
  · obtain ⟨err, he⟩ := h.2.2 hp
    simp only [deferPatchConditions]
    rw [he]
    simp

/-! ## Lemmas on the render call of the install pass -/

/-- A render call in the trace of the body of the install pass: every step before it went
through, no pointer read on the way was nil, and the call is handed the chart of the
decoded descriptor, the name of the registration, the target namespace and the merge of
the decoded user values with the injected values. -/
theorem reconcileBody_render (r : Reconciler) (w : World) (ci : ControllerInstallation)
    (t : List Call) (cv cinst : Condition) (chart n ns : String) (values : Fields)
    (h : Call.renderArchive chart n ns values ∈ (reconcileBody r w ci t cv cinst).trace) :
    Call.renderArchive chart n ns values ∈ t ∨
    ∃ (reg : ControllerRegistration) (seed : Seed) (dep : String) (cd : ControllerDeployment)
      (helmDeployment : HelmDeployment) (seedClusterIdentity ingressDomain : String)
      (injected : Fields),
      w.getControllerRegistration = Except.ok reg ∧ w.getSeed = Except.ok seed ∧
      ci.deploymentRef = some dep ∧ w.getControllerDeployment = Except.ok cd ∧
      w.unmarshal cd.providerConfigRaw = Except.ok helmDeployment ∧
      w.upsertNamespace = none ∧ seed.clusterIdentity = some seedClusterIdentity ∧
      (seed.dnsIngressDomain <|> seed.ingress.map Ingress.domain) = some ingressDomain ∧
      injectedValues r seed seedClusterIdentity ingressDomain = Except.ok injected ∧
      chart = helmDeployment.Chart ∧ n = reg.name ∧
      ns = getNamespaceForControllerInstallation ci ∧
      values = MergeMaps helmDeployment.Values injected := by
  unfold reconcileBody at h
  cases h1 : w.getControllerRegistration with
  | error e => left; simpa [h1] using h
  | ok reg =>
  rw [h1] at h
  dsimp only at h
  cases h2 : w.getSeed with
  | error e => left; simpa [h2] using h
  | ok seed =>
  rw [h2] at h
  dsimp only at h
  cases hd : ci.deploymentRef with
  | none => left; simpa [hd] using h
  | some dep =>
  rw [hd] at h
  dsimp only at h
  cases h3 : w.getControllerDeployment with
  | error e => left; simpa [h3] using h
  | ok cd =>
  rw [h3] at h
  dsimp only at h
  cases h4 : w.unmarshal cd.providerConfigRaw with
  | error e => left; simpa [h4] using h
  | ok hdp =>
  rw [h4] at h
  dsimp only at h
  cases h5 : w.upsertNamespace with
  | some e => left; simpa [h5] using h
  | none =>
  rw [h5] at h
  dsimp only at h
  cases h6 : seed.clusterIdentity with
  | none => left; simpa [h6] using h
  | some sid =>
  rw [h6] at h
  dsimp only at h
  cases hing : (seed.dnsIngressDomain <|> seed.ingress.map Ingress.domain) with
  | none =>
    rw [hing] at h
    left
    simpa using h
  | some ingressDomain =>
  rw [hing] at h
  dsimp only at h
  cases hg : injectedValues r seed sid ingressDomain with
  | error expression =>
    simp only [injectedValues] at hg
    rw [hg] at h
    left
    simpa using h
  | ok injected =>
  have hg1 := hg
  simp only [injectedValues] at hg1
  rw [hg1] at h
  dsimp only at h
  have hin : Call.renderArchive chart n ns values ∈ t ∨
      (chart = hdp.Chart ∧ n = reg.name ∧ ns = getNamespaceForControllerInstallation ci ∧
        values = MergeMaps hdp.Values injected) := by
    cases h7 : w.renderArchive hdp.Chart reg.name (getNamespaceForControllerInstallation ci)
        (MergeMaps hdp.Values injected) with
    | error e =>
      rw [h7] at h
      simp only [List.append_assoc, List.mem_append, List.mem_cons, List.mem_singleton,
        Call.renderArchive.injEq, List.not_mem_nil, or_false, reduceCtorEq, false_or] at h
      rcases h with h | h
      · left; exact h
      · right; exact h
    | ok rel =>
      rw [h7] at h
      dsimp only at h
      cases h8 : w.createManagedResource with
      | some e =>
        rw [h8] at h
        simp only [List.append_assoc, List.mem_append, List.mem_cons, List.mem_singleton,
          Call.renderArchive.injEq, List.not_mem_nil, or_false, reduceCtorEq, false_or] at h
        rcases h with h | h
        · left; exact h
        · right; exact h
      | none =>
        rw [h8] at h
        simp only [List.append_assoc, List.mem_append, List.mem_cons, List.mem_singleton,
          Call.renderArchive.injEq, List.not_mem_nil, or_false, reduceCtorEq, false_or] at h
        rcases h with h | h
        · left; exact h
        · right; exact h
  rcases hin with hin | ⟨hc, hn, hns, hv⟩
  · left; exact hin
  · right
    exact ⟨reg, seed, dep, cd, hdp, sid, ingressDomain, injected, rfl, rfl, rfl, rfl, h4, rfl,
      h6, hing, hg, hc, hn, hns, hv⟩

/-- The body of the install pass when its render call and the apply succeed. -/
theorem reconcileBody_success (r : Reconciler) (w : World) (ci : ControllerInstallation)
    (t : List Call) (cv cinst : Condition) (chart n ns : String) (values : Fields)
    (release : String)
    (ht : Call.renderArchive chart n ns values ∉ t)
    (h : Call.renderArchive chart n ns values ∈ (reconcileBody r w ci t cv cinst).trace)
    (hrender : w.renderArchive chart n ns values = Except.ok release)
    (happly : w.createManagedResource = none) :
    (reconcileBody r w ci t cv cinst).exit = Exit.returned {} none ∧
    (reconcileBody r w ci t cv cinst).installation = ci ∧
    (reconcileBody r w ci t cv cinst).conditionValid =
      UpdatedCondition w.now cv ConditionStatus.ConditionTrue "RegistrationValid"
        "Chart could be rendered successfully." ∧
    (reconcileBody r w ci t cv cinst).conditionInstalled =
      (if cinst.status = ConditionStatus.ConditionUnknown then
        UpdatedCondition w.now cinst ConditionStatus.ConditionFalse "InstallationPending"
          ("Installation of ManagedResource " ++ quoted ci.name ++ " is still pending.")
      else cinst) := by
  rcases reconcileBody_render r w ci t cv cinst chart n ns values h with h0 | h0
  · exact absurd h0 ht
  · obtain ⟨reg, seed, dep, cd, hdp, sid, ingressDomain, injected, h1, h2, hd, h3, h4, h5, h6,
      hing, hg, hc, hn, hns, hv⟩ := h0
    subst hc hn hns hv
    simp only [injectedValues] at hg
    simp [reconcileBody, h1, h2, hd, h3, h4, h5, h6, hing, hg, hrender, happly]

/-! ## Lemmas on the error returns of the passes -/

/-- An error return of the body of the install pass: which call failed with the returned
error, and what the two condition variables hold at the return. -/
theorem reconcileBody_error (r : Reconciler) (w : World) (ci : ControllerInstallation)
    (t : List Call) (cv cinst : Condition) (res : Result) (err : Err)
    (h : (reconcileBody r w ci t cv cinst).exit = Exit.returned res (some err)) :
    (reconcileBody r w ci t cv cinst).conditionValid.type = cv.type ∧
    (reconcileBody r w ci t cv cinst).conditionInstalled.type = cinst.type ∧
    (((w.getControllerDeployment = Except.error err ∨ w.upsertNamespace = some err ∨
          ∃ seed, w.getSeed = Except.ok seed ∧ seed.clusterIdentity = none ∧
            err = { kind := ErrKind.other
                    text := "cluster-identity of seed '" ++ seed.name ++ "' not set" }) ∧
        (reconcileBody r w ci t cv cinst).conditionValid = cv ∧
        (reconcileBody r w ci t cv cinst).conditionInstalled = cinst) ∨
      (w.getControllerRegistration = Except.error err ∧ IsNotFound err = true ∧
        (reconcileBody r w ci t cv cinst).conditionValid =
          UpdatedCondition w.now cv ConditionStatus.ConditionFalse "RegistrationNotFound"
            ("Referenced ControllerRegistration does not exist: " ++ err.text) ∧
        (reconcileBody r w ci t cv cinst).conditionInstalled = cinst) ∨
      (w.getControllerRegistration = Except.error err ∧ IsNotFound err = false ∧
        (reconcileBody r w ci t cv cinst).conditionValid =
          UpdatedCondition w.now cv ConditionStatus.ConditionUnknown "RegistrationReadError"
            ("Referenced ControllerRegistration cannot be read: " ++ err.text) ∧
        (reconcileBody r w ci t cv cinst).conditionInstalled = cinst) ∨
      (w.getSeed = Except.error err ∧ IsNotFound err = true ∧
        (reconcileBody r w ci t cv cinst).conditionValid =
          UpdatedCondition w.now cv ConditionStatus.ConditionFalse "SeedNotFound"
            ("Referenced Seed does not exist: " ++ err.text) ∧
        (reconcileBody r w ci t cv cinst).conditionInstalled = cinst) ∨
      (w.getSeed = Except.error err ∧ IsNotFound err = false ∧
        (reconcileBody r w ci t cv cinst).conditionValid =
          UpdatedCondition w.now cv ConditionStatus.ConditionUnknown "SeedReadError"
            ("Referenced Seed cannot be read: " ++ err.text) ∧
        (reconcileBody r w ci t cv cinst).conditionInstalled = cinst) ∨
      ((∃ cd, w.getControllerDeployment = Except.ok cd ∧
          w.unmarshal cd.providerConfigRaw = Except.error err) ∧
        (reconcileBody r w ci t cv cinst).conditionValid =
          UpdatedCondition w.now cv ConditionStatus.ConditionFalse "ChartInformationInvalid"
            ("Chart Information cannot be unmarshalled: " ++ err.text) ∧
        (reconcileBody r w ci t cv cinst).conditionInstalled = cinst) ∨
      ((∃ chart n ns values,
          Call.renderArchive chart n ns values ∈ (reconcileBody r w ci t cv cinst).trace ∧
          w.renderArchive chart n ns values = Except.error err) ∧
        (reconcileBody r w ci t cv cinst).conditionValid =
          UpdatedCondition w.now cv ConditionStatus.ConditionFalse "ChartCannotBeRendered"
            ("Chart rendering process failed: " ++ err.text) ∧
        (reconcileBody r w ci t cv cinst).conditionInstalled = cinst) ∨
      (w.createManagedResource = some err ∧
        (reconcileBody r w ci t cv cinst).conditionValid =
          UpdatedCondition w.now cv ConditionStatus.ConditionTrue "RegistrationValid"
            "Chart could be rendered successfully." ∧
        (reconcileBody r w ci t cv cinst).conditionInstalled =
          UpdatedCondition w.now cinst ConditionStatus.ConditionFalse "InstallationFailed"
            ("Creation of ManagedResource " ++ quoted ci.name ++ " failed: " ++ err.text))) := by
  refine ⟨(reconcileBody_types r w ci t cv cinst).1, (reconcileBody_types r w ci t cv cinst).2.1,
    ?_⟩
  unfold reconcileBody at h ⊢
  cases h1 : w.getControllerRegistration with
  | error e =>
    simp only [h1, Exit.returned.injEq, Option.some.injEq] at h ⊢
    obtain ⟨_, rfl⟩ := h
    by_cases hnf : IsNotFound e = true
    · right; left
      simp [hnf]
    · right; right; left
      simp [hnf]
  | ok reg =>
  rw [h1] at h
  dsimp only at h ⊢
  cases h2 : w.getSeed with
  | error e =>
    simp only [h2, Exit.returned.injEq, Option.some.injEq] at h ⊢
    obtain ⟨_, rfl⟩ := h
    by_cases hnf : IsNotFound e = true
    · right; right; right; left
      simp [hnf]
    · right; right; right; right; left
      simp [hnf]
  | ok seed =>
  rw [h2] at h
  dsimp only at h ⊢
  cases hd : ci.deploymentRef with
  | none => simp [hd] at h
  | some dep =>
  rw [hd] at h
  dsimp only at h ⊢
  cases h3 : w.getControllerDeployment with
  | error e =>
    simp only [h3, Exit.returned.injEq, Option.some.injEq] at h ⊢
    obtain ⟨_, rfl⟩ := h
    left
    exact ⟨Or.inl rfl, trivial, trivial⟩
  | ok cd =>
  rw [h3] at h
  dsimp only at h ⊢
  cases h4 : w.unmarshal cd.providerConfigRaw with
  | error e =>
    simp only [h4, Exit.returned.injEq, Option.some.injEq] at h ⊢
    obtain ⟨_, rfl⟩ := h
    right; right; right; right; right; left
    exact ⟨⟨cd, rfl, h4⟩, rfl, trivial⟩
  | ok hdp =>
  rw [h4] at h
  dsimp only at h ⊢
  cases h5 : w.upsertNamespace with
  | some e =>
    simp only [h5, Exit.returned.injEq, Option.some.injEq] at h ⊢
    obtain ⟨_, rfl⟩ := h
    left
    exact ⟨Or.inr (Or.inl rfl), trivial, trivial⟩
  | none =>
  rw [h5] at h
  dsimp only at h ⊢
  cases h6 : seed.clusterIdentity with
  | none =>
    simp only [h6, Exit.returned.injEq, Option.some.injEq] at h ⊢
    left
    exact ⟨Or.inr (Or.inr ⟨seed, rfl, h6, h.2.symm⟩), trivial, trivial⟩
  | some sid =>
  rw [h6] at h
  dsimp only at h ⊢
  generalize (seed.dnsIngressDomain <|> _) = ing at h ⊢
  cases ing with
  | none => simp at h
  | some ingressDomain =>
  dsimp only at h ⊢
  generalize (gardenerValues r seed sid _ _ ingressDomain) = gv at h ⊢
  cases gv with
  | error e => simp at h
  | ok injected =>
  dsimp only at h ⊢
  generalize (MergeMaps hdp.Values _) = values at h ⊢
  cases h7 : w.renderArchive hdp.Chart reg.name (getNamespaceForControllerInstallation ci) values with
  | error e =>
    simp only [h7, Exit.returned.injEq, Option.some.injEq] at h ⊢
    obtain ⟨_, rfl⟩ := h
    right; right; right; right; right; right; left
    refine ⟨⟨hdp.Chart, reg.name, getNamespaceForControllerInstallation ci, values, ?_, h7⟩,
      rfl, trivial⟩
    simp
  | ok rel =>
  rw [h7] at h
  dsimp only at h ⊢
  cases h8 : w.createManagedResource with
  | some e =>
    simp only [h8, Exit.returned.injEq, Option.some.injEq] at h ⊢
    obtain ⟨_, rfl⟩ := h
    right; right; right; right; right; right; right
    exact ⟨rfl, trivial, rfl⟩
  | none => simp [h8] at h

/-- An error return of the body of the deletion pass: which call failed with the returned
error, and what the two condition variables hold at the return. -/
theorem deleteBody_error (w : World) (ci : ControllerInstallation) (cv cinst : Condition)
    (res : Result) (err : Err)
    (h : (deleteBody w ci cv cinst).exit = Exit.returned res (some err)) :
    (deleteBody w ci cv cinst).conditionValid.type = cv.type ∧
    (deleteBody w ci cv cinst).conditionInstalled.type = cinst.type ∧
    (((∃ e, w.removeFinalizers = some e ∧ err = Errorf "failed to remove finalizer" e) ∧
        (deleteBody w ci cv cinst).conditionValid = cv ∧
        (deleteBody w ci cv cinst).conditionInstalled =
          UpdatedCondition w.now cinst ConditionStatus.ConditionFalse "DeletionSuccessful"
            "Deletion of old resources succeeded.") ∨
      (w.getSeed = Except.error err ∧ IsNotFound err = true ∧
        (deleteBody w ci cv cinst).conditionValid =
          UpdatedCondition w.now cv ConditionStatus.ConditionFalse "SeedNotFound"
            ("Referenced Seed does not exist: " ++ err.text) ∧
        (deleteBody w ci cv cinst).conditionInstalled = cinst) ∨
      (w.getSeed = Except.error err ∧ IsNotFound err = false ∧
        (deleteBody w ci cv cinst).conditionValid =
          UpdatedCondition w.now cv ConditionStatus.ConditionUnknown "SeedReadError"
            ("Referenced Seed cannot be read: " ++ err.text) ∧
        (deleteBody w ci cv cinst).conditionInstalled = cinst) ∨
      (w.deleteManagedResource = some err ∧ IsNotFound err = false ∧
        (deleteBody w ci cv cinst).conditionValid = cv ∧
        (deleteBody w ci cv cinst).conditionInstalled =
          UpdatedCondition w.now cinst ConditionStatus.ConditionFalse "DeletionFailed"
            ("Deletion of ManagedResource " ++ quoted ci.name ++ " failed: " ++ err.text)) ∨
      (w.deleteNamespace = some err ∧ IsConflict err = false ∧ IsNotFound err = false ∧
        (deleteBody w ci cv cinst).conditionValid = cv ∧
        (deleteBody w ci cv cinst).conditionInstalled =
          UpdatedCondition w.now cinst ConditionStatus.ConditionFalse "DeletionFailed"
            ("Deletion of Namespace " ++ quoted (getNamespaceForControllerInstallation ci) ++
              " failed: " ++ err.text))) := by
  have hsecret : ∀ c : Condition,
      (match w.deleteSecret with
        | some err =>
            if IgnoreNotFound (some err) ≠ none then
              UpdatedCondition w.now c ConditionStatus.ConditionFalse "DeletionFailed"
                ("Deletion of ManagedResource secret " ++ quoted ci.name ++ " failed: " ++
                  err.text)
            else c
        | none => c).type = c.type ∧
      ∀ reason message,
        UpdatedCondition w.now
          (match w.deleteSecret with
            | some err =>
                if IgnoreNotFound (some err) ≠ none then
                  UpdatedCondition w.now c ConditionStatus.ConditionFalse "DeletionFailed"
                    ("Deletion of ManagedResource secret " ++ quoted ci.name ++ " failed: " ++
                      err.text)
                else c
            | none => c) ConditionStatus.ConditionFalse reason message =
        UpdatedCondition w.now c ConditionStatus.ConditionFalse reason message := by
    intro c
    cases w.deleteSecret with
    | none => exact ⟨rfl, fun _ _ => rfl⟩
    | some es =>
      dsimp only
      split
      · exact ⟨rfl, fun _ _ => UpdatedCondition_twice _ _ _ _ _ _ _⟩
      · exact ⟨rfl, fun _ _ => rfl⟩
  unfold deleteBody at h ⊢
  cases h1 : w.getSeed with
  | error e =>
    simp only [h1, Exit.returned.injEq, Option.some.injEq] at h ⊢
    obtain ⟨_, rfl⟩ := h
    by_cases hnf : IsNotFound e = true
    · refine ⟨by simp [hnf, UpdatedCondition], trivial, ?_⟩
      right; left
      simp [hnf]
    · refine ⟨by simp [hnf, UpdatedCondition], trivial, ?_⟩
      right; right; left
      simp [hnf]
  | ok seed =>
    rw [h1] at h
    dsimp only at h ⊢
    cases h2 : w.deleteManagedResource with
    | none => simp [h2] at h
    | some e =>
      rw [h2] at h
      dsimp only at h ⊢
      by_cases hnf : IsNotFound e = true
      · simp only [hnf, not_true_eq_false, Bool.false_eq_true, ↓reduceIte] at h ⊢
        cases h3 : w.deleteNamespace with
        | none => simp [h3] at h
        | some e1 =>
          rw [h3] at h
          dsimp only at h ⊢
          by_cases hc : IsConflict e1 = true
          · simp [hc] at h
          · by_cases hn : IsNotFound e1 = true
            · simp only [hc, hn, not_true_eq_false, Bool.false_eq_true, ↓reduceIte] at h ⊢
              by_cases hf : ContainsFinalizer ci finalizerName = true
              · simp only [hf, ↓reduceIte] at h ⊢
                cases h4 : w.removeFinalizers with
                | none => simp [RemoveFinalizers, h4] at h
                | some e4 =>
                  simp only [RemoveFinalizers, h4, Exit.returned.injEq, Option.some.injEq] at h ⊢
                  refine ⟨trivial, ?_, Or.inl ⟨⟨e4, rfl, h.2.symm⟩, trivial, ?_⟩⟩
                  · exact (hsecret cinst).1
                  · exact (hsecret cinst).2 _ _
              · simp [hf] at h
            · simp only [hc, hn, not_false_eq_true, Bool.false_eq_true, ↓reduceIte,
                Exit.returned.injEq, Option.some.injEq] at h ⊢
              obtain ⟨_, rfl⟩ := h
              refine ⟨trivial, ?_, ?_⟩
              · exact (hsecret cinst).1
              · right; right; right; right
                refine ⟨rfl, ?_, ?_, trivial, ?_⟩
                · simpa using hc
                · simpa using hn
                · exact (hsecret cinst).2 _ _
      · simp only [hnf, not_false_eq_true, Bool.false_eq_true, ↓reduceIte,
          Exit.returned.injEq, Option.some.injEq] at h ⊢
        obtain ⟨_, rfl⟩ := h
        refine ⟨trivial, rfl, ?_⟩
        right; right; right; left
        refine ⟨rfl, ?_, trivial, rfl⟩
        simpa using hnf

/-- An error return of an install pass that got past the finalizer: the status patch is
handed the Valid and the Installed condition, and they say which call failed. -/
theorem install_deferred_error (r : Reconciler) (w : World) (ci : ControllerInstallation)
    (t : List Call) (res : Result) (err : Err) (ht : CallKind.patchStatus ∉ kinds t)
    (o : Outcome)
    (ho : o = deferPatchConditions w (reconcileBody r w ci t
      (GetOrInitCondition w.now ci.conditions ControllerInstallationValid)
      (GetOrInitCondition w.now ci.conditions ControllerInstallationInstalled)))
    (h : o.exit = Exit.returned res (some err)) :
    ∃ v i, handedToPatch o.trace = [[v, i]] ∧
      v.type = ControllerInstallationValid ∧ i.type = ControllerInstallationInstalled ∧
      (((w.getControllerDeployment = Except.error err ∨ w.upsertNamespace = some err ∨
            ∃ seed, w.getSeed = Except.ok seed ∧ seed.clusterIdentity = none ∧
              err = { kind := ErrKind.other
                      text := "cluster-identity of seed '" ++ seed.name ++ "' not set" }) ∧
          v = GetOrInitCondition w.now ci.conditions ControllerInstallationValid ∧
          i = GetOrInitCondition w.now ci.conditions ControllerInstallationInstalled) ∨
        (w.getControllerRegistration = Except.error err ∧ IsNotFound err = true ∧
          v = UpdatedCondition w.now
            (GetOrInitCondition w.now ci.conditions ControllerInstallationValid)
            ConditionStatus.ConditionFalse "RegistrationNotFound"
            ("Referenced ControllerRegistration does not exist: " ++ err.text) ∧
          i = GetOrInitCondition w.now ci.conditions ControllerInstallationInstalled) ∨
        (w.getControllerRegistration = Except.error err ∧ IsNotFound err = false ∧
          v = UpdatedCondition w.now
            (GetOrInitCondition w.now ci.conditions ControllerInstallationValid)
            ConditionStatus.ConditionUnknown "RegistrationReadError"
            ("Referenced ControllerRegistration cannot be read: " ++ err.text) ∧
          i = GetOrInitCondition w.now ci.conditions ControllerInstallationInstalled) ∨
        (w.getSeed = Except.error err ∧ IsNotFound err = true ∧
          v = UpdatedCondition w.now
            (GetOrInitCondition w.now ci.conditions ControllerInstallationValid)
            ConditionStatus.ConditionFalse "SeedNotFound"
            ("Referenced Seed does not exist: " ++ err.text) ∧
          i = GetOrInitCondition w.now ci.conditions ControllerInstallationInstalled) ∨
        (w.getSeed = Except.error err ∧ IsNotFound err = false ∧
          v = UpdatedCondition w.now
            (GetOrInitCondition w.now ci.conditions ControllerInstallationValid)
            ConditionStatus.ConditionUnknown "SeedReadError"
            ("Referenced Seed cannot be read: " ++ err.text) ∧
          i = GetOrInitCondition w.now ci.conditions ControllerInstallationInstalled) ∨
        ((∃ cd, w.getControllerDeployment = Except.ok cd ∧
            w.unmarshal cd.providerConfigRaw = Except.error err) ∧
          v = UpdatedCondition w.now
            (GetOrInitCondition w.now ci.conditions ControllerInstallationValid)
            ConditionStatus.ConditionFalse "ChartInformationInvalid"
            ("Chart Information cannot be unmarshalled: " ++ err.text) ∧
          i = GetOrInitCondition w.now ci.conditions ControllerInstallationInstalled) ∨
        ((∃ chart n ns values, Call.renderArchive chart n ns values ∈ o.trace ∧
            w.renderArchive chart n ns values = Except.error err) ∧
          v = UpdatedCondition w.now
            (GetOrInitCondition w.now ci.conditions ControllerInstallationValid)
            ConditionStatus.ConditionFalse "ChartCannotBeRendered"
            ("Chart rendering process failed: " ++ err.text) ∧
          i = GetOrInitCondition w.now ci.conditions ControllerInstallationInstalled) ∨
        (w.createManagedResource = some err ∧
          v = UpdatedCondition w.now
            (GetOrInitCondition w.now ci.conditions ControllerInstallationValid)
            ConditionStatus.ConditionTrue "RegistrationValid"
            "Chart could be rendered successfully." ∧
          i = UpdatedCondition w.now
            (GetOrInitCondition w.now ci.conditions ControllerInstallationInstalled)
            ConditionStatus.ConditionFalse "InstallationFailed"
            ("Creation of ManagedResource " ++ quoted ci.name ++ " failed: " ++ err.text))) := by
  obtain ⟨_, _, h3, _, _, h6⟩ := deferPatchConditions_once w _
    (reconcileBody_no_patch r w ci t
      (GetOrInitCondition w.now ci.conditions ControllerInstallationValid)
      (GetOrInitCondition w.now ci.conditions ControllerInstallationInstalled) ht)
  have htrace : ∀ c, c ∈ (reconcileBody r w ci t
      (GetOrInitCondition w.now ci.conditions ControllerInstallationValid)
      (GetOrInitCondition w.now ci.conditions ControllerInstallationInstalled)).trace →
      c ∈ o.trace := by
    intro c hc
    rw [ho]
    simp only [deferPatchConditions, patchConditions, List.mem_append]
    exact Or.inl hc
  rw [← ho] at h3 h6
  rw [h6] at h
  obtain ⟨hv, hi, hD⟩ := reconcileBody_error r w ci t _ _ res err h
  rw [GetOrInitCondition_type] at hv hi
  refine ⟨_, _, h3, hv, hi, ?_⟩
  rcases hD with c | c | c | c | c | c | ⟨⟨chart, n, ns, values, hm, hr⟩, c⟩ | c
  · exact Or.inl c
  · exact Or.inr (Or.inl c)
  · exact Or.inr (Or.inr (Or.inl c))
  · exact Or.inr (Or.inr (Or.inr (Or.inl c)))
  · exact Or.inr (Or.inr (Or.inr (Or.inr (Or.inl c))))
  · exact Or.inr (Or.inr (Or.inr (Or.inr (Or.inr (Or.inl c)))))
  · exact Or.inr (Or.inr (Or.inr (Or.inr (Or.inr (Or.inr (Or.inl
      ⟨⟨chart, n, ns, values, htrace _ hm, hr⟩, c⟩))))))
  · exact Or.inr (Or.inr (Or.inr (Or.inr (Or.inr (Or.inr (Or.inr c))))))

/-- An install pass that got past the finalizer, issued its render call and saw the render
and the apply succeed. -/
theorem install_deferred_success (r : Reconciler) (w : World) (ci : ControllerInstallation)
    (t : List Call) (chart n ns : String) (values : Fields) (release : String)
    (hfz : finalizerName ∈ ci.finalizers)
    (ht : CallKind.patchStatus ∉ kinds t)
    (htr : Call.renderArchive chart n ns values ∉ t)
    (o : Outcome)
    (ho : o = deferPatchConditions w (reconcileBody r w ci t
      (GetOrInitCondition w.now ci.conditions ControllerInstallationValid)
      (GetOrInitCondition w.now ci.conditions ControllerInstallationInstalled)))
    (hmem : Call.renderArchive chart n ns values ∈ o.trace)
    (hrender : w.renderArchive chart n ns values = Except.ok release)
    (happly : w.createManagedResource = none) :
    ∃ valid installed written,
      o.exit = Exit.returned {} none ∧
      finalizerName ∈ o.installation.finalizers ∧
      handedToPatch o.trace = [[valid, installed]] ∧
      writtenByPatch o.trace = [written] ∧
      valid =
        UpdatedCondition w.now
          (GetOrInitCondition w.now ci.conditions ControllerInstallationValid)
          ConditionStatus.ConditionTrue "RegistrationValid"
          "Chart could be rendered successfully." ∧
      valid.type = ControllerInstallationValid ∧
      valid.status = ConditionStatus.ConditionTrue ∧
      valid.reason = "RegistrationValid" ∧
      installed.type = ControllerInstallationInstalled ∧
      ((GetOrInitCondition w.now ci.conditions ControllerInstallationInstalled).status =
          ConditionStatus.ConditionUnknown →
        installed =
          UpdatedCondition w.now
            (GetOrInitCondition w.now ci.conditions ControllerInstallationInstalled)
            ConditionStatus.ConditionFalse "InstallationPending"
            ("Installation of ManagedResource " ++ quoted ci.name ++ " is still pending.") ∧
        installed.status = ConditionStatus.ConditionFalse ∧
        installed.reason = "InstallationPending") ∧
      ((GetOrInitCondition w.now ci.conditions ControllerInstallationInstalled).status ≠
          ConditionStatus.ConditionUnknown →
        installed = GetOrInitCondition w.now ci.conditions ControllerInstallationInstalled) ∧
      (installed.status = ConditionStatus.ConditionTrue →
        (GetOrInitCondition w.now ci.conditions ControllerInstallationInstalled).status =
          ConditionStatus.ConditionTrue) ∧
      written = MergeConditions ci.conditions [valid, installed] ∧
      o.installation.conditions = written ∧
      valid ∈ written ∧ installed ∈ written := by
  have hmem1 : Call.renderArchive chart n ns values ∈ (reconcileBody r w ci t
      (GetOrInitCondition w.now ci.conditions ControllerInstallationValid)
      (GetOrInitCondition w.now ci.conditions ControllerInstallationInstalled)).trace := by
    rw [ho] at hmem
    simpa [deferPatchConditions, patchConditions] using hmem
  obtain ⟨hx, hinst, hv, hi⟩ := reconcileBody_success r w ci t _ _ chart n ns values release
    htr hmem1 hrender happly
  obtain ⟨_, _, h3, h4, h5, h6⟩ := deferPatchConditions_once w _
    (reconcileBody_no_patch r w ci t
      (GetOrInitCondition w.now ci.conditions ControllerInstallationValid)
      (GetOrInitCondition w.now ci.conditions ControllerInstallationInstalled) ht)
  have hfin : finalizerName ∈ o.installation.finalizers := by
    rw [ho]
    simp only [deferPatchConditions, patchConditions, hinst]
    exact hfz
  rw [← ho] at h3 h4 h5 h6
  rw [hv, hi] at h3 h4 h5
  rw [hinst] at h4 h5
  rw [hx] at h6
  have hvt := GetOrInitCondition_type w.now ci.conditions ControllerInstallationValid
  have hit := GetOrInitCondition_type w.now ci.conditions ControllerInstallationInstalled
  have hit1 : (if (GetOrInitCondition w.now ci.conditions
        ControllerInstallationInstalled).status = ConditionStatus.ConditionUnknown then
      UpdatedCondition w.now
        (GetOrInitCondition w.now ci.conditions ControllerInstallationInstalled)
        ConditionStatus.ConditionFalse "InstallationPending"
        ("Installation of ManagedResource " ++ quoted ci.name ++ " is still pending.")
      else GetOrInitCondition w.now ci.conditions ControllerInstallationInstalled).type =
        ControllerInstallationInstalled := by
    split
    · simpa [UpdatedCondition] using hit
    · exact hit
  have hne : (UpdatedCondition w.now
        (GetOrInitCondition w.now ci.conditions ControllerInstallationValid)
        ConditionStatus.ConditionTrue "RegistrationValid"
        "Chart could be rendered successfully.").type ≠
      (if (GetOrInitCondition w.now ci.conditions
        ControllerInstallationInstalled).status = ConditionStatus.ConditionUnknown then
      UpdatedCondition w.now
        (GetOrInitCondition w.now ci.conditions ControllerInstallationInstalled)
        ConditionStatus.ConditionFalse "InstallationPending"
        ("Installation of ManagedResource " ++ quoted ci.name ++ " is still pending.")
      else GetOrInitCondition w.now ci.conditions ControllerInstallationInstalled).type := by
    rw [hit1]
    simp only [UpdatedCondition, hvt]
    decide
  have hmm := MergeConditions_pair_mem ci.conditions _ _ hne
  refine ⟨_, _, _, h6, hfin, h3, h4, rfl, ?_, rfl, rfl, hit1, ?_, ?_, ?_, rfl, h5, hmm.1,
    hmm.2⟩
  · simpa [UpdatedCondition] using hvt
  · intro hu
    simp [hu, UpdatedCondition]
  · intro hu
    simp [hu]
  · intro hs
    by_cases hu : (GetOrInitCondition w.now ci.conditions
        ControllerInstallationInstalled).status = ConditionStatus.ConditionUnknown
    · simp [hu, UpdatedCondition] at hs
    · simpa [hu] using hs

/-- A render call in the trace of an install pass: the finalizer was present or added,
every step before the render went through, and the call is handed the chart of the decoded
descriptor, the name of the registration, the target namespace and the merge of the
decoded user values with the injected values. -/
theorem reconcile_render (r : Reconciler) (w : World) (ci : ControllerInstallation)
    (chart n ns : String) (values : Fields)
    (h : Call.renderArchive chart n ns values ∈ (reconcile r w ci).trace) :
    (ContainsFinalizer ci finalizerName = true ∨ w.addFinalizers = none) ∧
    ∃ (reg : ControllerRegistration) (seed : Seed) (dep : String) (cd : ControllerDeployment)
      (helmDeployment : HelmDeployment) (seedClusterIdentity ingressDomain : String)
      (injected : Fields),
      w.getControllerRegistration = Except.ok reg ∧ w.getSeed = Except.ok seed ∧
      ci.deploymentRef = some dep ∧ w.getControllerDeployment = Except.ok cd ∧
      w.unmarshal cd.providerConfigRaw = Except.ok helmDeployment ∧
      w.upsertNamespace = none ∧ seed.clusterIdentity = some seedClusterIdentity ∧
      (seed.dnsIngressDomain <|> seed.ingress.map Ingress.domain) = some ingressDomain ∧
      injectedValues r seed seedClusterIdentity ingressDomain = Except.ok injected ∧
      chart = helmDeployment.Chart ∧ n = reg.name ∧
      ns = getNamespaceForControllerInstallation ci ∧
      values = MergeMaps helmDeployment.Values injected := by
  unfold reconcile at h
  by_cases hf : ContainsFinalizer ci finalizerName = true
  · rw [if_pos hf] at h
    simp only [deferPatchConditions, patchConditions, List.mem_append, List.mem_singleton,
      reduceCtorEq, or_false] at h
    rcases reconcileBody_render r w ci _ _ _ chart n ns values h with h0 | h0
    · simp at h0
    · exact ⟨Or.inl hf, h0⟩
  · rw [if_neg hf] at h
    have hcases : (∃ e, w.addFinalizers = some e) ∨ w.addFinalizers = none := by
      cases w.addFinalizers with
      | none => exact Or.inr rfl
      | some e => exact Or.inl ⟨e, rfl⟩
    rcases hcases with ⟨e, ha⟩ | ha
    · simp [AddFinalizers, ha] at h
    · simp only [AddFinalizers, ha, deferPatchConditions, patchConditions, List.mem_append,
        List.mem_singleton, reduceCtorEq, or_false] at h
      rcases reconcileBody_render r w _ _ _ _ chart n ns values h with h0 | h0
      · simp at h0
      · refine ⟨Or.inr ha, ?_⟩
        obtain ⟨reg, seed, dep, cd, hdp, sid, ing, injected, h1, h2, hd, h3, h4, h5, h6, hing,
          hg, hc, hn, hns, hv⟩ := h0
        refine ⟨reg, seed, dep, cd, hdp, sid, ing, injected, h1, h2, ?_, h3, h4, h5, h6, hing,
          hg, hc, hn, ?_, hv⟩
        · revert hd
          split <;> exact id
        · revert hns
          split <;> exact id

/-! ## C1: the finalizer invariant -/

/-- C1: whenever an invocation of `Reconcile` attempts to remove the finalizer, the
installation is marked for deletion and, in that same invocation, the delete call on the
bundle (ManagedResource) and the delete call on the namespace both returned not-found; the
invocation then issued exactly the calls listed, in this order.  In every other
invocation no finalizer removal is attempted. -/
theorem finalizer_removal_requires_both_absent (r : Reconciler) (w : World)
    (h : CallKind.removeFinalizers ∈ kinds (Reconcile r w).trace) :
    ∃ ci eb en, w.getControllerInstallation = Except.ok ci ∧ ci.deletionTimestamp ≠ none ∧
      w.deleteManagedResource = some eb ∧ IsNotFound eb = true ∧
      w.deleteNamespace = some en ∧ IsNotFound en = true ∧
      kinds (Reconcile r w).trace =
        [CallKind.getControllerInstallation, CallKind.getControllerDeployment,
         CallKind.getSeed, CallKind.deleteManagedResource, CallKind.deleteSecret,
         CallKind.deleteNamespace, CallKind.removeFinalizers, CallKind.patchStatus] := by
  unfold Reconcile at h ⊢
  cases h0 : w.getControllerInstallation with
  | error e =>
    rw [h0] at h
    by_cases hnf : IsNotFound e = true <;> simp [hnf, kinds, Call.kind] at h
  | ok ci =>
    rw [h0] at h
    dsimp only at h ⊢
    rcases hresp : isResponsible w ci with ⟨resp, err, calls⟩
    rw [hresp] at h
    dsimp only at h ⊢
    have hcalls := isResponsible_kinds w ci
    rw [hresp] at hcalls
    dsimp only at hcalls
    by_cases hskip : (!resp || decide (err ≠ none)) = true
    · rw [if_pos hskip] at h
      simp only [kinds, List.map_cons, Call.kind, List.mem_cons] at h hcalls
      rcases hcalls with hc | hc <;> simp [hc] at h
    · rw [if_neg hskip] at h ⊢
      have hresp' : resp = true := by
        cases resp <;> simp at hskip ⊢
      have hcalls' := isResponsible_true w ci (by rw [hresp]; exact hresp')
      rw [hresp] at hcalls'
      dsimp only at hcalls'
      by_cases hdel : ci.deletionTimestamp ≠ none
      · rw [if_pos hdel] at h ⊢
        obtain ⟨v, i, rest, _, hde⟩ := delete_eq w ci
        rw [hde] at h ⊢
        simp only [deferPatchConditions, patchConditions, kinds, List.map_cons, List.map_append,
          Call.kind, List.mem_cons, List.mem_append] at h hcalls' ⊢
        rw [hcalls'] at h
        have hb : CallKind.removeFinalizers ∈ kinds (deleteBody w ci v i).trace := by
          simpa [kinds] using h
        obtain ⟨eb, en, hb1, hb2, hb3, hb4, hb5⟩ := deleteBody_remove w ci v i hb
        refine ⟨ci, eb, en, rfl, hdel, hb1, hb2, hb3, hb4, ?_⟩
        simp only [kinds] at hb5
        rw [hcalls', hb5]
        rfl
      · rw [if_neg hdel] at h
        exfalso
        have hno := reconcile_kinds_no_remove r w ci
        simp only [kinds, List.map_cons, List.map_append, Call.kind, List.mem_cons,
          List.mem_append] at h hcalls' hno
        rw [hcalls'] at h
        simp [hno] at h

/-- C1, at the last deletion pass of the sample installation: the finalizer is removed. -/
theorem finalizer_removal_requires_both_absent_witness :
    ∃ ci eb en, goneWorld.getControllerInstallation = Except.ok ci ∧
      ci.deletionTimestamp ≠ none ∧
      goneWorld.deleteManagedResource = some eb ∧ IsNotFound eb = true ∧
      goneWorld.deleteNamespace = some en ∧ IsNotFound en = true ∧
      kinds (Reconcile sampleReconciler goneWorld).trace =
        [CallKind.getControllerInstallation, CallKind.getControllerDeployment,
         CallKind.getSeed, CallKind.deleteManagedResource, CallKind.deleteSecret,
         CallKind.deleteNamespace, CallKind.removeFinalizers, CallKind.patchStatus] :=
  finalizer_removal_requires_both_absent sampleReconciler goneWorld (by decide)

/-! ## C2: the status patch on every exit -/

/-- C2, as stated, fails: an install pass whose finalizer add fails returns the error
before the deferred patch is registered, so no status patch is issued in that pass. -/
theorem no_patch_when_finalizer_add_fails :
    (reconcile sampleReconciler addFinalizerFailsWorld freshInstallation).exit =
        Exit.returned {} (some (Errorf "failed to add finalizer" errOther)) ∧
    kinds (reconcile sampleReconciler addFinalizerFailsWorld freshInstallation).trace =
        [CallKind.addFinalizers] ∧
    (kinds (reconcile sampleReconciler addFinalizerFailsWorld freshInstallation).trace).count
        CallKind.patchStatus = 0 := by
  decide

/-- C2, amended: in every install pass in which the finalizer is already present or its
addition succeeds, and in every deletion pass, whatever the outcomes of the other calls
(also when the body panics), exactly one status patch is issued, it is the last call of
the pass, and it hands over the two accumulated conditions; an install pass whose
finalizer add fails issues the finalizer write and nothing else. -/
theorem status_patch_issued_once (r : Reconciler) (w : World) (ci : ControllerInstallation) :
    ((ContainsFinalizer ci finalizerName = true ∨ w.addFinalizers = none) →
      (kinds (reconcile r w ci).trace).count CallKind.patchStatus = 1 ∧
      (kinds (reconcile r w ci).trace).getLast? = some CallKind.patchStatus ∧
      ∃ conditionValid conditionInstalled,
        handedToPatch (reconcile r w ci).trace = [[conditionValid, conditionInstalled]]) ∧
    ((ContainsFinalizer ci finalizerName = false ∧ w.addFinalizers ≠ none) →
      kinds (reconcile r w ci).trace = [CallKind.addFinalizers]) ∧
    ((kinds (delete w ci).trace).count CallKind.patchStatus = 1 ∧
      (kinds (delete w ci).trace).getLast? = some CallKind.patchStatus ∧
      ∃ conditionValid conditionInstalled,
        handedToPatch (delete w ci).trace = [[conditionValid, conditionInstalled]]) := by
  refine ⟨?_, ?_, ?_⟩
  · intro h
    unfold reconcile
    by_cases hf : ContainsFinalizer ci finalizerName = true
    · rw [if_pos hf]
      have hb := reconcileBody_no_patch r w ci []
        (GetOrInitCondition w.now ci.conditions ControllerInstallationValid)
        (GetOrInitCondition w.now ci.conditions ControllerInstallationInstalled)
        (by simp [kinds])
      obtain ⟨h1, h2, h3, _⟩ := deferPatchConditions_once w _ hb
      exact ⟨h1, h2, _, _, h3⟩
    · rw [if_neg hf]
      have ha : w.addFinalizers = none := by
        rcases h with h | h
        · exact absurd h hf
        · exact h
      simp only [AddFinalizers, ha]
      generalize hci : (if finalizerName ∈ ci.finalizers then ci
        else { ci with finalizers := ci.finalizers ++ [finalizerName] }) = ci1
      have hb := reconcileBody_no_patch r w ci1 [Call.addFinalizers finalizerName]
        (GetOrInitCondition w.now ci1.conditions ControllerInstallationValid)
        (GetOrInitCondition w.now ci1.conditions ControllerInstallationInstalled)
        (by simp [kinds, Call.kind])
      obtain ⟨h1, h2, h3, _⟩ := deferPatchConditions_once w _ hb
      exact ⟨h1, h2, _, _, h3⟩
  · rintro ⟨hf, ha⟩
    unfold reconcile
    rw [if_neg (by simp [hf])]
    cases hw : w.addFinalizers with
    | none => exact absurd hw ha
    | some e => simp [AddFinalizers, hw, kinds, Call.kind]
  · obtain ⟨v, i, rest, _, hde⟩ := delete_eq w ci
    rw [hde]
    obtain ⟨h1, h2, h3, _⟩ := deferPatchConditions_once w _ (deleteBody_no_patch w ci v i)
    exact ⟨h1, h2, _, _, h3⟩

/-! ## C3: error returns and condition updates -/

/-- C3, as stated, fails: an install pass whose read of the deployment record fails
returns that error although the seed is read and has a cluster identity, and both
conditions handed to the status patch are exactly the loaded ones; the stored conditions
do not change. -/
theorem error_with_conditions_as_loaded :
    (reconcile sampleReconciler deploymentReadFailsWorld settledInstallation).exit =
        Exit.returned {} (some errOther) ∧
    deploymentReadFailsWorld.getSeed = Except.ok sampleSeed ∧
    sampleSeed.clusterIdentity = some "seed-a-id" ∧
    handedToPatch (reconcile sampleReconciler deploymentReadFailsWorld settledInstallation).trace =
        [[GetOrInitCondition deploymentReadFailsWorld.now settledInstallation.conditions
            ControllerInstallationValid,
          GetOrInitCondition deploymentReadFailsWorld.now settledInstallation.conditions
            ControllerInstallationInstalled]] ∧
    (reconcile sampleReconciler deploymentReadFailsWorld settledInstallation).installation.conditions =
        settledInstallation.conditions :=
  ⟨by decide, rfl, rfl, by decide, by decide⟩

/-- C3, amended.  An install pass that returns an error either failed to add the
finalizer and issued no patch, or hands to its status patch a condition `v` of type Valid
and a condition `i` of type Installed such that one of these holds: the failing call is
the read of the deployment record, the namespace upsert or the check of the seed's cluster
identity, and both are exactly as loaded; or the failing call is the read of the
registration, the read of the seed, the decode or the render, and `v` is the loaded Valid
condition updated with the status, the reason and the message (ending in the text of the
returned error) of that very call, `i` being as loaded; or the failing call is the apply,
`v` is the loaded Valid condition updated to True/RegistrationValid and `i` is the loaded
Installed condition updated to False/InstallationFailed with the message of the returned
error.  A deletion pass that returns an error and whose two picked conditions (entries 0
and 1 of the merged list, lines 284-286) are of type Valid and Installed hands to its
status patch a condition of type Valid and one of type Installed such that: the failing
call is the removal of the finalizer and Installed is the picked one updated to
False/DeletionSuccessful; or it is the read of the seed and Valid is the picked one
updated to describe that error; or it is the delete of the bundle or of the namespace and
Installed is the picked one updated to False/DeletionFailed with the message of that very
call and error. -/
theorem error_returns_describe_failure (r : Reconciler) (w : World)
    (ci : ControllerInstallation) (res : Result) (err : Err) :
    ((reconcile r w ci).exit = Exit.returned res (some err) →
      (kinds (reconcile r w ci).trace = [CallKind.addFinalizers] ∧
        ∃ e, w.addFinalizers = some e ∧ err = Errorf "failed to add finalizer" e) ∨
      ∃ v i, handedToPatch (reconcile r w ci).trace = [[v, i]] ∧
        v.type = ControllerInstallationValid ∧ i.type = ControllerInstallationInstalled ∧
        (((w.getControllerDeployment = Except.error err ∨ w.upsertNamespace = some err ∨
              ∃ seed, w.getSeed = Except.ok seed ∧ seed.clusterIdentity = none ∧
                err = { kind := ErrKind.other
                        text := "cluster-identity of seed '" ++ seed.name ++ "' not set" }) ∧
            v = GetOrInitCondition w.now ci.conditions ControllerInstallationValid ∧
            i = GetOrInitCondition w.now ci.conditions ControllerInstallationInstalled) ∨
          (w.getControllerRegistration = Except.error err ∧ IsNotFound err = true ∧
            v = UpdatedCondition w.now
              (GetOrInitCondition w.now ci.conditions ControllerInstallationValid)
              ConditionStatus.ConditionFalse "RegistrationNotFound"
              ("Referenced ControllerRegistration does not exist: " ++ err.text) ∧
            i = GetOrInitCondition w.now ci.conditions ControllerInstallationInstalled) ∨
          (w.getControllerRegistration = Except.error err ∧ IsNotFound err = false ∧
            v = UpdatedCondition w.now
              (GetOrInitCondition w.now ci.conditions ControllerInstallationValid)
              ConditionStatus.ConditionUnknown "RegistrationReadError"
              ("Referenced ControllerRegistration cannot be read: " ++ err.text) ∧
            i = GetOrInitCondition w.now ci.conditions ControllerInstallationInstalled) ∨
          (w.getSeed = Except.error err ∧ IsNotFound err = true ∧
            v = UpdatedCondition w.now
              (GetOrInitCondition w.now ci.conditions ControllerInstallationValid)
              ConditionStatus.ConditionFalse "SeedNotFound"
              ("Referenced Seed does not exist: " ++ err.text) ∧
            i = GetOrInitCondition w.now ci.conditions ControllerInstallationInstalled) ∨
          (w.getSeed = Except.error err ∧ IsNotFound err = false ∧
            v = UpdatedCondition w.now
              (GetOrInitCondition w.now ci.conditions ControllerInstallationValid)
              ConditionStatus.ConditionUnknown "SeedReadError"
              ("Referenced Seed cannot be read: " ++ err.text) ∧
            i = GetOrInitCondition w.now ci.conditions ControllerInstallationInstalled) ∨
          ((∃ cd, w.getControllerDeployment = Except.ok cd ∧
              w.unmarshal cd.providerConfigRaw = Except.error err) ∧
            v = UpdatedCondition w.now
              (GetOrInitCondition w.now ci.conditions ControllerInstallationValid)
              ConditionStatus.ConditionFalse "ChartInformationInvalid"
              ("Chart Information cannot be unmarshalled: " ++ err.text) ∧
            i = GetOrInitCondition w.now ci.conditions ControllerInstallationInstalled) ∨
          ((∃ chart n ns values,
              Call.renderArchive chart n ns values ∈ (reconcile r w ci).trace ∧
              w.renderArchive chart n ns values = Except.error err) ∧
            v = UpdatedCondition w.now
              (GetOrInitCondition w.now ci.conditions ControllerInstallationValid)
              ConditionStatus.ConditionFalse "ChartCannotBeRendered"
              ("Chart rendering process failed: " ++ err.text) ∧
            i = GetOrInitCondition w.now ci.conditions ControllerInstallationInstalled) ∨
          (w.createManagedResource = some err ∧
            v = UpdatedCondition w.now
              (GetOrInitCondition w.now ci.conditions ControllerInstallationValid)
              ConditionStatus.ConditionTrue "RegistrationValid"
              "Chart could be rendered successfully." ∧
            i = UpdatedCondition w.now
              (GetOrInitCondition w.now ci.conditions ControllerInstallationInstalled)
              ConditionStatus.ConditionFalse "InstallationFailed"
              ("Creation of ManagedResource " ++ quoted ci.name ++ " failed: " ++
                err.text)))) ∧
    (∀ picked0 picked1 rest,
      MergeConditions ci.conditions
        [InitCondition w.now ControllerInstallationValid,
         InitCondition w.now ControllerInstallationInstalled] = picked0 :: picked1 :: rest →
      picked0.type = ControllerInstallationValid →
      picked1.type = ControllerInstallationInstalled →
      (delete w ci).exit = Exit.returned res (some err) →
      ∃ v i, handedToPatch (delete w ci).trace = [[v, i]] ∧
        v.type = ControllerInstallationValid ∧ i.type = ControllerInstallationInstalled ∧
        (((∃ e, w.removeFinalizers = some e ∧ err = Errorf "failed to remove finalizer" e) ∧
            v = picked0 ∧
            i = UpdatedCondition w.now picked1 ConditionStatus.ConditionFalse
              "DeletionSuccessful" "Deletion of old resources succeeded.") ∨
          (w.getSeed = Except.error err ∧ IsNotFound err = true ∧
            v = UpdatedCondition w.now picked0 ConditionStatus.ConditionFalse "SeedNotFound"
              ("Referenced Seed does not exist: " ++ err.text) ∧
            i = picked1) ∨
          (w.getSeed = Except.error err ∧ IsNotFound err = false ∧
            v = UpdatedCondition w.now picked0 ConditionStatus.ConditionUnknown "SeedReadError"
              ("Referenced Seed cannot be read: " ++ err.text) ∧
            i = picked1) ∨
          (w.deleteManagedResource = some err ∧ IsNotFound err = false ∧
            v = picked0 ∧
            i = UpdatedCondition w.now picked1 ConditionStatus.ConditionFalse "DeletionFailed"
              ("Deletion of ManagedResource " ++ quoted ci.name ++ " failed: " ++ err.text)) ∨
          (w.deleteNamespace = some err ∧ IsConflict err = false ∧ IsNotFound err = false ∧
            v = picked0 ∧
            i = UpdatedCondition w.now picked1 ConditionStatus.ConditionFalse "DeletionFailed"
              ("Deletion of Namespace " ++ quoted (getNamespaceForControllerInstallation ci) ++
                " failed: " ++ err.text)))) := by
  refine ⟨?_, ?_⟩
  · intro h
    by_cases hf : ContainsFinalizer ci finalizerName = true
    · right
      exact install_deferred_error r w ci [] res err (by simp [kinds]) (reconcile r w ci)
        (by unfold reconcile; rw [if_pos hf]) h
    · have hnot : finalizerName ∉ ci.finalizers := by
        intro hmem
        exact hf (by simp [ContainsFinalizer, hmem])
      have hcases : (∃ e, w.addFinalizers = some e) ∨ w.addFinalizers = none := by
        cases w.addFinalizers with
        | none => exact Or.inr rfl
        | some e => exact Or.inl ⟨e, rfl⟩
      rcases hcases with ⟨e, ha⟩ | ha
      · left
        have hfirst : reconcile r w ci =
            { exit := Exit.returned {} (some (Errorf "failed to add finalizer" e))
              trace := [Call.addFinalizers finalizerName], installation := ci } := by
          unfold reconcile
          rw [if_neg hf]
          simp only [AddFinalizers, ha]
        rw [hfirst] at h ⊢
        simp only [Exit.returned.injEq, Option.some.injEq] at h
        exact ⟨by simp [kinds, Call.kind], e, ha, h.2.symm⟩
      · right
        exact install_deferred_error r w
          { ci with finalizers := ci.finalizers ++ [finalizerName] }
          [Call.addFinalizers finalizerName] res err (by simp [kinds, Call.kind])
          (reconcile r w ci)
          (by
            unfold reconcile
            rw [if_neg hf]
            simp only [AddFinalizers, ha, if_neg hnot]) h
  · intro picked0 picked1 rest hpick h0 h1 h
    obtain ⟨v, i, rest1, hm, hde⟩ := delete_eq w ci
    rw [hpick] at hm
    simp only [List.cons.injEq] at hm
    obtain ⟨rfl, rfl, _⟩ := hm
    rw [hde] at h ⊢
    obtain ⟨_, _, h3, _, _, h6⟩ :=
      deferPatchConditions_once w _ (deleteBody_no_patch w ci picked0 picked1)
    rw [h6] at h
    obtain ⟨hv, hi, hD⟩ := deleteBody_error w ci picked0 picked1 res err h
    exact ⟨_, _, h3, hv.trans h0, hi.trans h1, hD⟩

/-- The amended C3 on an install pass whose read of the registration fails, and on a
deletion pass whose read of the seed fails: the status patch is handed a condition of type
Valid and a condition of type Installed. -/
theorem error_returns_describe_failure_witness :
    (∃ v i, handedToPatch
        (reconcile sampleReconciler registrationGoneWorld sampleInstallation).trace = [[v, i]] ∧
      v.type = ControllerInstallationValid ∧ i.type = ControllerInstallationInstalled) ∧
    (∃ v i, handedToPatch (delete seedGoneWorld deletedInstallation).trace = [[v, i]] ∧
      v.type = ControllerInstallationValid ∧ i.type = ControllerInstallationInstalled) := by
  refine ⟨?_, ?_⟩
  · rcases (error_returns_describe_failure sampleReconciler registrationGoneWorld
        sampleInstallation {} errNotFound).1 (by decide) with h | ⟨v, i, hh, hv, hi, _⟩
    · exact absurd h.1 (by decide)
    · exact ⟨v, i, hh, hv, hi⟩
  · obtain ⟨v, i, hh, hv, hi, _⟩ :=
      (error_returns_describe_failure sampleReconciler seedGoneWorld deletedInstallation {}
        errNotFound).2 _ _ _ (by decide :
          MergeConditions deletedInstallation.conditions
            [InitCondition seedGoneWorld.now ControllerInstallationValid,
             InitCondition seedGoneWorld.now ControllerInstallationInstalled] =
            [InitCondition seedGoneWorld.now ControllerInstallationValid,
             InitCondition seedGoneWorld.now ControllerInstallationInstalled])
        (by decide) (by decide) (by decide)
    exact ⟨v, i, hh, hv, hi⟩

/-! ## C4: the type-keyed merge of conditions -/

/-- The install pass, unlike the deletion pass, looks its two conditions up by type: the
conditions it hands to the status patch have the types Valid and Installed, and every
condition of another type keeps its place and its content in the written list. -/
theorem reconcile_merge_is_type_keyed (r : Reconciler) (w : World) (ci : ControllerInstallation)
    (hfin : ContainsFinalizer ci finalizerName = true ∨ w.addFinalizers = none) :
    ∃ v i, handedToPatch (reconcile r w ci).trace = [[v, i]] ∧
      v.type = ControllerInstallationValid ∧ i.type = ControllerInstallationInstalled ∧
      writtenByPatch (reconcile r w ci).trace = [MergeConditions ci.conditions [v, i]] ∧
      ∀ (k : Nat) (c : Condition), ci.conditions[k]? = some c → c.type ≠ ControllerInstallationValid →
        c.type ≠ ControllerInstallationInstalled →
        (MergeConditions ci.conditions [v, i])[k]? = some c := by
  have key : ∀ (ci1 : ControllerInstallation) (t : List Call),
      ci1.conditions = ci.conditions → CallKind.patchStatus ∉ kinds t →
      ∃ v i, handedToPatch (deferPatchConditions w (reconcileBody r w ci1 t
          (GetOrInitCondition w.now ci1.conditions ControllerInstallationValid)
          (GetOrInitCondition w.now ci1.conditions ControllerInstallationInstalled))).trace =
            [[v, i]] ∧
        v.type = ControllerInstallationValid ∧ i.type = ControllerInstallationInstalled ∧
        writtenByPatch (deferPatchConditions w (reconcileBody r w ci1 t
          (GetOrInitCondition w.now ci1.conditions ControllerInstallationValid)
          (GetOrInitCondition w.now ci1.conditions ControllerInstallationInstalled))).trace =
            [MergeConditions ci.conditions [v, i]] ∧
        ∀ (k : Nat) (c : Condition), ci.conditions[k]? = some c → c.type ≠ ControllerInstallationValid →
          c.type ≠ ControllerInstallationInstalled →
          (MergeConditions ci.conditions [v, i])[k]? = some c := by
    intro ci1 t hc ht
    obtain ⟨_, _, h3, h4, _, _⟩ := deferPatchConditions_once w _
      (reconcileBody_no_patch r w ci1 t
        (GetOrInitCondition w.now ci1.conditions ControllerInstallationValid)
        (GetOrInitCondition w.now ci1.conditions ControllerInstallationInstalled) ht)
    obtain ⟨hv, hi, hinst⟩ := reconcileBody_types r w ci1 t
      (GetOrInitCondition w.now ci1.conditions ControllerInstallationValid)
      (GetOrInitCondition w.now ci1.conditions ControllerInstallationInstalled)
    rw [GetOrInitCondition_type] at hv hi
    rw [hinst] at h4
    have h5 : ∀ x y : Condition,
        MergeConditions ci1.conditions [x, y] = MergeConditions ci.conditions [x, y] := by
      intro x y; rw [hc]
    rw [h5] at h4
    refine ⟨_, _, h3, hv, hi, h4, ?_⟩
    intro k c hk h1 h2
    exact MergeConditions_pair_frame _ _ _ _ _ hk (by rw [hv]; exact h1) (by rw [hi]; exact h2)
  unfold reconcile
  by_cases hf : ContainsFinalizer ci finalizerName = true
  · rw [if_pos hf]
    exact key ci [] rfl (by simp [kinds])
  · rw [if_neg hf]
    have ha : w.addFinalizers = none := hfin.resolve_left hf
    simp only [AddFinalizers, ha]
    refine key _ _ ?_ (by simp [kinds, Call.kind])
    split <;> rfl

/-- C4 fails on the deletion pass, which picks its two condition variables by position
(index 0 and index 1 of the merged list) and not by type.  With Installed listed before
Valid and the bundle delete accepted, the DeletionPending update lands on the entry of
type Valid and the entry of type Installed is reset to the initial Unknown.  With a
single condition of another type and a failing seed read, that foreign condition is
overwritten with the SeedNotFound failure and no entry of type Installed is written. -/
theorem delete_updates_land_on_wrong_entries :
    writtenByPatch (delete sampleWorld swappedInstallation).trace =
      [[{ type := "Installed", status := ConditionStatus.ConditionUnknown
          lastTransitionTime := 7, reason := "ConditionInitialized"
          message := "The condition has been initialized but its semantic check has not been performed yet." },
        { type := "Valid", status := ConditionStatus.ConditionFalse
          lastTransitionTime := 7, reason := "DeletionPending"
          message := "Deletion of ManagedResource \"inst\" is still pending." }]] ∧
    writtenByPatch (delete seedGoneWorld foreignInstallation).trace =
      [[{ type := "Healthy", status := ConditionStatus.ConditionFalse
          lastTransitionTime := 7, reason := "SeedNotFound"
          message := "Referenced Seed does not exist: not found" },
        { type := "Valid", status := ConditionStatus.ConditionUnknown
          lastTransitionTime := 7, reason := "ConditionInitialized"
          message := "The condition has been initialized but its semantic check has not been performed yet." }]] := by
  decide

/-! ## C5: injected values take precedence -/

/-- C5, as stated, fails at the key path "gardener": in the sample world with an overlay
that holds a nested map under "gardener", the install pass hands its render call the
merge of the overlay with the injected values; the injected map defines the path
"gardener", and what the merged map holds there is not the injected value, because the
key "extra" of the overlay, which the injected map does not define, is kept beneath it. -/
theorem injected_map_merged_at_gardener :
    injectedValues sampleReconciler sampleSeed "seed-a-id" "ingress.example" =
      Except.ok sampleInjected ∧
    Call.renderArchive "chart" "reg" "extension-inst" (MergeMaps overridingValues sampleInjected) ∈
      (reconcile sampleReconciler forgingWorld sampleInstallation).trace ∧
    (Value.obj sampleInjected).atPath ["gardener"] ≠ none ∧
    (Value.obj (MergeMaps overridingValues sampleInjected)).atPath ["gardener"] ≠
      (Value.obj sampleInjected).atPath ["gardener"] ∧
    (Value.obj sampleInjected).atPath ["gardener", "extra"] = none ∧
    (Value.obj (MergeMaps overridingValues sampleInjected)).atPath ["gardener", "extra"] =
      some (Value.leaf "kept") :=
  ⟨rfl, by decide, by decide, by decide, by decide, by decide⟩

/-- C5, amended.  Every render call of an install pass is handed the merge of the decoded
user overlay with the injected map, which is built from the seed and the reconciler only.
Whatever the overlay holds, the merged map holds under "gardener" every value the
controller puts there: the version, the identity and cluster identity of the garden, and
the identity, cluster identity, annotations, labels, provider, region, volume provider,
volume providers, ingress domain, protected flag, visibility, taints, networks, block
CIDRs and spec of the seed.  In general, at every key path that the injected map defines
the merged map holds the injected value, merged key by key with the overlay's value only
where both are nested maps; in particular a plain injected value is held as it is.  A
value of the merged map at a key path that the injected map does not define is the
overlay's value at that path. -/
theorem injected_values_take_precedence (r : Reconciler) (w : World)
    (ci : ControllerInstallation) (chart n ns : String) (values : Fields)
    (h : Call.renderArchive chart n ns values ∈ (reconcile r w ci).trace) :
    ∃ (helmDeployment : HelmDeployment) (seed : Seed) (identity : Gardener)
      (gardenNamespace : Namespace) (scheduling : SeedSettingScheduling)
      (seedClusterIdentity ingressDomain : String) (injected : Fields),
      (∃ cd, w.getControllerDeployment = Except.ok cd ∧
        w.unmarshal cd.providerConfigRaw = Except.ok helmDeployment) ∧
      w.getSeed = Except.ok seed ∧
      r.identity = some identity ∧ r.gardenNamespace = some gardenNamespace ∧
      (∃ settings, seed.settings = some settings ∧ settings.scheduling = some scheduling) ∧
      seed.clusterIdentity = some seedClusterIdentity ∧
      (seed.dnsIngressDomain <|> seed.ingress.map Ingress.domain) = some ingressDomain ∧
      injectedValues r seed seedClusterIdentity ingressDomain = Except.ok injected ∧
      values = MergeMaps helmDeployment.Values injected ∧
      (Value.obj values).atPath ["gardener", "version"] =
        some (Value.leaf identity.version) ∧
      (Value.obj values).atPath ["gardener", "garden", "identity"] =
        some (Value.leaf gardenNamespace.uid) ∧
      (Value.obj values).atPath ["gardener", "garden", "clusterIdentity"] =
        some (Value.leaf r.gardenClusterIdentity) ∧
      (Value.obj values).atPath ["gardener", "seed", "identity"] =
        some (Value.leaf seed.name) ∧
      (Value.obj values).atPath ["gardener", "seed", "clusterIdentity"] =
        some (Value.leaf seedClusterIdentity) ∧
      (Value.obj values).atPath ["gardener", "seed", "annotations"] =
        some (Value.leaf seed.annotationsRepr) ∧
      (Value.obj values).atPath ["gardener", "seed", "labels"] =
        some (Value.leaf seed.labelsRepr) ∧
      (Value.obj values).atPath ["gardener", "seed", "provider"] =
        some (Value.leaf seed.providerType) ∧
      (Value.obj values).atPath ["gardener", "seed", "region"] =
        some (Value.leaf seed.providerRegion) ∧
      (Value.obj values).atPath ["gardener", "seed", "volumeProvider"] =
        some (Value.leaf (match seed.volumeProviders with
          | some (p :: _) => p
          | _ => "")) ∧
      (Value.obj values).atPath ["gardener", "seed", "volumeProviders"] =
        some (Value.leaf (match seed.volumeProviders with
          | none => "<nil>"
          | some ps => String.intercalate "," ps)) ∧
      (Value.obj values).atPath ["gardener", "seed", "ingressDomain"] =
        some (Value.leaf ingressDomain) ∧
      (Value.obj values).atPath ["gardener", "seed", "protected"] =
        some (Value.leaf (boolRepr (TaintsHave seed.taintKeys SeedTaintProtected))) ∧
      (Value.obj values).atPath ["gardener", "seed", "visible"] =
        some (Value.leaf (boolRepr scheduling.visible)) ∧
      (Value.obj values).atPath ["gardener", "seed", "taints"] =
        some (Value.leaf (String.intercalate "," seed.taintKeys)) ∧
      (Value.obj values).atPath ["gardener", "seed", "networks"] =
        some (Value.leaf seed.networksRepr) ∧
      (Value.obj values).atPath ["gardener", "seed", "blockCIDRs"] =
        some (Value.leaf seed.blockCIDRsRepr) ∧
      (Value.obj values).atPath ["gardener", "seed", "spec"] =
        some (Value.leaf seed.specRepr) ∧
      (∀ p x, (Value.obj injected).atPath p = some x →
        (Value.obj values).atPath p =
          some (mergeValue ((Value.obj helmDeployment.Values).atPath p) x)) ∧
      (∀ p s, (Value.obj injected).atPath p = some (Value.leaf s) →
        (Value.obj values).atPath p = some (Value.leaf s)) ∧
      (∀ p v, (Value.obj injected).atPath p = none →
        (Value.obj values).atPath p = some v →
        (Value.obj helmDeployment.Values).atPath p = some v) := by
  have hbody : ∃ (ci1 : ControllerInstallation) (t : List Call) (cv cinst : Condition),
      Call.renderArchive chart n ns values ∉ t ∧
      Call.renderArchive chart n ns values ∈ (reconcileBody r w ci1 t cv cinst).trace := by
    unfold reconcile at h
    by_cases hf : ContainsFinalizer ci finalizerName = true
    · rw [if_pos hf] at h
      simp only [deferPatchConditions, patchConditions, List.mem_append, List.mem_singleton,
        reduceCtorEq, or_false] at h
      exact ⟨_, _, _, _, by simp, h⟩
    · rw [if_neg hf] at h
      cases ha : w.addFinalizers with
      | some e => simp [AddFinalizers, ha] at h
      | none =>
        simp only [AddFinalizers, ha, deferPatchConditions, patchConditions, List.mem_append,
          List.mem_singleton, reduceCtorEq, or_false] at h
        exact ⟨_, _, _, _, by simp, h⟩
  obtain ⟨ci1, t, cv, cinst, ht, hmem⟩ := hbody
  rcases reconcileBody_render r w ci1 t cv cinst chart n ns values hmem with h0 | h0
  · exact absurd h0 ht
  obtain ⟨reg, seed, dep, cd, hdp, sid, ingressDomain, injected, _, h2, _, h3, h4, _, h6,
    hing, hg, _, _, _, hv⟩ := h0
  have hg1 := hg
  simp only [injectedValues] at hg1
  obtain ⟨identity, gardenNamespace, settings, scheduling, hi, hn, hs, hsc⟩ :=
    gardenerValues_ok r seed _ _ _ _ injected hg1
  simp only [gardenerValues, hi, hn, hs, hsc, Except.ok.injEq] at hg1
  refine ⟨hdp, seed, identity, gardenNamespace, scheduling, sid, ingressDomain, injected,
    ⟨cd, h3, h4⟩, h2, hi, hn, ⟨settings, hs, hsc⟩, h6, hing, hg, hv, ?_⟩
  have hleaf : ∀ p s, (Value.obj injected).atPath p = some (Value.leaf s) →
      (Value.obj values).atPath p = some (Value.leaf s) := by
    intro p s hp
    rw [hv]
    exact MergeMaps_atPath_leaf _ _ p s hp
  refine ⟨?_, ?_, ?_, ?_, ?_, ?_, ?_, ?_, ?_, ?_, ?_, ?_, ?_, ?_, ?_, ?_, ?_, ?_, ?_, hleaf,
    ?_⟩
  all_goals first
    | (apply hleaf; rw [← hg1]; simp [Value.atPath, Fields.lookup])
    | skip
  · intro p x hp
    rw [hv, MergeMaps_eq_mergeValue, mergeValue_atPath_exact p _ _ _ hp]
    rfl
  · intro p v hp hm
    rw [hv, MergeMaps_eq_mergeValue] at hm
    obtain ⟨vu, hvu, hw⟩ := mergeValue_atPath_user p _ _ _ hp hm
    cases hvu
    exact hw

/-- The amended C5 on the render call of the sample world with the overriding overlay:
the forged version does not reach the renderer. -/
theorem injected_values_take_precedence_witness :
    Call.renderArchive "chart" "reg" "extension-inst" (MergeMaps overridingValues sampleInjected) ∈
      (reconcile sampleReconciler forgingWorld sampleInstallation).trace ∧
    (Value.obj overridingValues).atPath ["gardener", "version"] =
      some (Value.leaf "forged") ∧
    (Value.obj (MergeMaps overridingValues sampleInjected)).atPath ["gardener", "version"] =
      some (Value.leaf "v1") := by
  have hmem : Call.renderArchive "chart" "reg" "extension-inst"
      (MergeMaps overridingValues sampleInjected) ∈
      (reconcile sampleReconciler forgingWorld sampleInstallation).trace := by decide
  obtain ⟨hdp, seed, identity, gardenNamespace, scheduling, sid, ing, injected, _, _, hi, _, _,
    _, _, _, _, hversion, _⟩ :=
    injected_values_take_precedence sampleReconciler forgingWorld sampleInstallation
      "chart" "reg" "extension-inst" (MergeMaps overridingValues sampleInjected) hmem
  have hid : identity = { version := "v1" } := by
    have h1 : sampleReconciler.identity = some { version := "v1" } := rfl
    rw [h1] at hi
    exact (Option.some.inj hi).symm
  rw [hid] at hversion
  exact ⟨hmem, by decide, hversion⟩

/-! ## C6: the responsibility predicate -/

/-- C6: for an installation that `Reconcile` has read, (1) without a deployment-method
reference, and (2) with a reference whose record is read and has a type other than
"helm", `Reconcile` returns the empty result and no error, having issued only the reads
(no status patch, no finalizer write, no call on the seed cluster), and leaves the
object, its conditions included, as it was; (3) when the read of the referenced record
fails, `Reconcile` returns that error, again after the reads only and with the object
untouched; (4) `isResponsible` answers true exactly when the reference is set, the read
succeeds and the type of the record equals "helm". -/
theorem not_responsible_is_skipped (r : Reconciler) (w : World) (ci : ControllerInstallation)
    (h : w.getControllerInstallation = Except.ok ci) :
    (ci.deploymentRef = none →
      Reconcile r w =
        { exit := Exit.returned {} none
          trace := [Call.getControllerInstallation]
          installation := some ci }) ∧
    (∀ name cd, ci.deploymentRef = some name →
      w.getControllerDeploymentResponsible = Except.ok cd → cd.type ≠ installationTypeHelm →
      Reconcile r w =
        { exit := Exit.returned {} none
          trace := [Call.getControllerInstallation, Call.getControllerDeployment name]
          installation := some ci }) ∧
    (∀ name err, ci.deploymentRef = some name →
      w.getControllerDeploymentResponsible = Except.error err →
      Reconcile r w =
        { exit := Exit.returned {} (some err)
          trace := [Call.getControllerInstallation, Call.getControllerDeployment name]
          installation := some ci }) ∧
    ((isResponsible w ci).1 = true ↔
      ∃ name cd, ci.deploymentRef = some name ∧
        w.getControllerDeploymentResponsible = Except.ok cd ∧ cd.type = installationTypeHelm) := by
  refine ⟨?_, ?_, ?_, ?_⟩
  · intro hd
    simp [Reconcile, h, isResponsible, hd]
  · intro name cd hd hr ht
    simp [Reconcile, h, isResponsible, hd, hr, ht]
  · intro name err hd hr
    simp [Reconcile, h, isResponsible, hd, hr]
  · unfold isResponsible
    cases hd : ci.deploymentRef with
    | none => simp
    | some name =>
      cases hr : w.getControllerDeploymentResponsible with
      | error e => simp
      | ok cd => simp

/-- C6 on the sample installation without a deployment-method reference. -/
theorem not_responsible_is_skipped_witness :
    Reconcile sampleReconciler unreferencedWorld =
      { exit := Exit.returned {} none
        trace := [Call.getControllerInstallation]
        installation := some unreferencedInstallation } :=
  (not_responsible_is_skipped sampleReconciler unreferencedWorld unreferencedInstallation
    rfl).1 rfl

/-! ## C7: the best-effort delete of the secret -/

/-- The outcome of the secret delete has no effect on the body of a deletion pass: the
update it makes to the condition tracked as Installed is overwritten on every path that
follows. -/
theorem deleteBody_ignores_secret_outcome (w : World) (ci : ControllerInstallation)
    (cv cinst : Condition) :
    deleteBody w ci cv cinst = deleteBody { w with deleteSecret := none } ci cv cinst := by
  unfold deleteBody
  cases h1 : w.getSeed with
  | error e => rfl
  | ok seed =>
    cases h2 : w.deleteManagedResource with
    | none => rfl
    | some e =>
      by_cases hnf : IsNotFound e = true
      · simp only [hnf, not_true_eq_false, ↓reduceIte]
        cases h3 : w.deleteSecret with
        | none => rfl
        | some es =>
          by_cases hs : IgnoreNotFound (some es) ≠ none
          · have hs1 : ¬ IgnoreNotFound (some es) = none := hs
            have hu : ∀ reason message reason1 message1,
                UpdatedCondition w.now
                  (UpdatedCondition w.now cinst ConditionStatus.ConditionFalse reason message)
                  ConditionStatus.ConditionFalse reason1 message1 =
                UpdatedCondition w.now cinst ConditionStatus.ConditionFalse reason1 message1 :=
              fun _ _ _ _ => UpdatedCondition_twice _ _ _ _ _ _ _
            cases h4 : w.deleteNamespace with
            | none => simp only [ne_eq, if_pos hs1, hu]
            | some en => simp only [ne_eq, if_pos hs1, hu, RemoveFinalizers]
          · have hs1 : ¬ ¬ IgnoreNotFound (some es) = none := hs
            simp only [ne_eq, if_neg hs1, RemoveFinalizers]
      · have hnf1 : ¬ IsNotFound e = true := hnf
        simp only [if_pos hnf1]

/-- The outcome of the secret delete has no effect on a deletion pass at all: exit, calls
and written conditions are those of the pass in which the secret delete succeeds. -/
theorem delete_ignores_secret_outcome (w : World) (ci : ControllerInstallation) :
    delete w ci = delete { w with deleteSecret := none } ci := by
  unfold delete
  simp only [deferPatchConditions, patchConditions, ← deleteBody_ignores_secret_outcome]

/-- C7 fails in its second half.  In the deletion pass in which the bundle delete returns
not-found and the secret delete fails with "connection refused", the namespace delete is
still requested, but the Installed condition written by the status patch reads
DeletionSuccessful, "Deletion of old resources succeeded.": the secret failure recorded at
line 329 is overwritten at line 344 (and at lines 337 and 340 on the other outcomes of
the namespace delete). -/
theorem secret_failure_is_overwritten :
    kinds (delete secretFailsWorld deletedInstallation).trace =
      [CallKind.getSeed, CallKind.deleteManagedResource, CallKind.deleteSecret,
       CallKind.deleteNamespace, CallKind.removeFinalizers, CallKind.patchStatus] ∧
    GetCondition (delete secretFailsWorld deletedInstallation).installation.conditions
        ControllerInstallationInstalled =
      some { type := "Installed", status := ConditionStatus.ConditionFalse
             lastTransitionTime := 7, reason := "DeletionSuccessful"
             message := "Deletion of old resources succeeded." } ∧
    GetCondition
        (delete { secretFailsWorld with deleteNamespace := none }
          deletedInstallation).installation.conditions ControllerInstallationInstalled =
      some { type := "Installed", status := ConditionStatus.ConditionFalse
             lastTransitionTime := 7, reason := "DeletionPending"
             message := "Deletion of Namespace \"extension-inst\" is still pending." } ∧
    GetCondition
        (delete { secretFailsWorld with deleteNamespace := some errOther }
          deletedInstallation).installation.conditions ControllerInstallationInstalled =
      some { type := "Installed", status := ConditionStatus.ConditionFalse
             lastTransitionTime := 7, reason := "DeletionFailed"
             message := "Deletion of Namespace \"extension-inst\" failed: connection refused" } := by
  decide

/-! ## C8: the order of the deletes -/

/-- C8: in every deletion pass the delete calls issued on the seed cluster, in order,
form a prefix of [bundle, secret, namespace].  None is issued when the seed read fails;
only the bundle delete is issued when it is accepted or fails with an error other than
not-found; all three are issued, in this order, exactly when the seed read succeeds and
the bundle delete returns not-found. -/
theorem delete_calls_follow_bundle (w : World) (ci : ControllerInstallation) :
    (delete w ci).trace.filter (fun c => c.kind.isDelete) <+:
      [Call.deleteManagedResource GardenNamespace ci.name,
       Call.deleteSecret GardenNamespace ci.name,
       Call.deleteNamespace (getNamespaceForControllerInstallation ci)] ∧
    (∀ e, w.getSeed = Except.error e →
      (delete w ci).trace.filter (fun c => c.kind.isDelete) = []) ∧
    (∀ seed, w.getSeed = Except.ok seed → w.deleteManagedResource = none →
      (delete w ci).trace.filter (fun c => c.kind.isDelete) =
        [Call.deleteManagedResource GardenNamespace ci.name]) ∧
    (∀ seed e, w.getSeed = Except.ok seed → w.deleteManagedResource = some e →
      IsNotFound e = false →
      (delete w ci).trace.filter (fun c => c.kind.isDelete) =
        [Call.deleteManagedResource GardenNamespace ci.name]) ∧
    (∀ seed e, w.getSeed = Except.ok seed → w.deleteManagedResource = some e →
      IsNotFound e = true →
      (delete w ci).trace.filter (fun c => c.kind.isDelete) =
        [Call.deleteManagedResource GardenNamespace ci.name,
         Call.deleteSecret GardenNamespace ci.name,
         Call.deleteNamespace (getNamespaceForControllerInstallation ci)]) := by
  rw [delete_deletes]
  refine ⟨?_, ?_, ?_, ?_, ?_⟩
  · cases w.getSeed with
    | error e => simp
    | ok seed =>
      cases w.deleteManagedResource with
      | none => exact ⟨_, rfl⟩
      | some e =>
        by_cases hnf : IsNotFound e = true
        · simp only [hnf, if_true]
          exact List.prefix_refl _
        · simp only [hnf, Bool.false_eq_true, if_false]
          exact ⟨_, rfl⟩
  · intro e h; simp [h]
  · intro seed h1 h2; simp [h1, h2]
  · intro seed e h1 h2 h3; simp [h1, h2, h3]
  · intro seed e h1 h2 h3; simp [h1, h2, h3]

/-! ## C9: the re-check delay -/

/-- C9: a deletion pass returns a delay of exactly 30 seconds with a nil error exactly
when the seed read succeeds and either the bundle delete is accepted, or the bundle
delete returns not-found and the namespace delete is accepted or returns a conflict.
In each of those passes the condition tracked as Installed, as handed to the status
patch, has status False and reason DeletionPending, and no finalizer removal is
attempted.  Every other deletion pass returns the zero result (no delay). -/
theorem requeue_exactly_when_pending (w : World) (ci : ControllerInstallation) :
    ((delete w ci).exit = Exit.returned { RequeueAfter := 30 * Second } none ↔
      DeletionIsPending w) ∧
    (DeletionIsPending w →
      (∃ v i, handedToPatch (delete w ci).trace = [[v, i]] ∧
        i.status = ConditionStatus.ConditionFalse ∧ i.reason = "DeletionPending") ∧
      CallKind.removeFinalizers ∉ kinds (delete w ci).trace) ∧
    (¬ DeletionIsPending w → ∃ err, (delete w ci).exit = Exit.returned {} err) := by
  obtain ⟨v, i, rest, _, hde⟩ := delete_eq w ci
  obtain ⟨h1, h2, h3⟩ := deleteBody_requeue w ci v i
  obtain ⟨_, _, hh, _, _, hx⟩ := deferPatchConditions_once w _ (deleteBody_no_patch w ci v i)
  rw [hde, hx]
  refine ⟨h1, ?_, h3⟩
  intro hp
  obtain ⟨hs, hr, hn⟩ := h2 hp
  refine ⟨⟨_, _, hh, hs, hr⟩, ?_⟩
  simp only [deferPatchConditions, patchConditions, kinds, List.map_append, List.mem_append,
    not_or]
  exact ⟨hn, by simp [Call.kind]⟩

/-- The sample deletion with a terminating namespace: a delay of 30 seconds, no error,
the finalizer stays. -/
theorem requeue_on_namespace_conflict :
    (delete terminatingWorld deletedInstallation).exit =
      Exit.returned { RequeueAfter := 30000000000 } none ∧
    kinds (delete terminatingWorld deletedInstallation).trace =
      [CallKind.getSeed, CallKind.deleteManagedResource, CallKind.deleteSecret,
       CallKind.deleteNamespace, CallKind.patchStatus] ∧
    (delete terminatingWorld deletedInstallation).installation.finalizers = [finalizerName] := by
  decide

/-! ## C10: a failing read of the registration -/

/-- C10: in every install pass that reaches the read of the referenced registration (the
finalizer is present or its addition succeeds) and in which that read fails, the pass
returns that error; after the read it issues the status patch and nothing else (no seed
read, no namespace upsert, no render, no apply); the Installed condition handed to the
patch is exactly the loaded one; the Valid condition handed to the patch is the loaded
one updated to False/RegistrationNotFound when the failure is a not-found and to
Unknown/RegistrationReadError otherwise; and both are entries of the written list. -/
theorem registration_read_failure (r : Reconciler) (w : World) (ci : ControllerInstallation)
    (err : Err)
    (hfin : ContainsFinalizer ci finalizerName = true ∨ w.addFinalizers = none)
    (hreg : w.getControllerRegistration = Except.error err) :
    ∃ valid installed written,
      (reconcile r w ci).exit = Exit.returned {} (some err) ∧
      (reconcile r w ci).trace =
        (if ContainsFinalizer ci finalizerName = true then []
          else [Call.addFinalizers finalizerName]) ++
        [Call.getControllerRegistration ci.registrationRef,
         Call.patchStatus [valid, installed] written] ∧
      installed = GetOrInitCondition w.now ci.conditions ControllerInstallationInstalled ∧
      valid =
        (if IsNotFound err = true then
          UpdatedCondition w.now
            (GetOrInitCondition w.now ci.conditions ControllerInstallationValid)
            ConditionStatus.ConditionFalse "RegistrationNotFound"
            ("Referenced ControllerRegistration does not exist: " ++ err.text)
        else
          UpdatedCondition w.now
            (GetOrInitCondition w.now ci.conditions ControllerInstallationValid)
            ConditionStatus.ConditionUnknown "RegistrationReadError"
            ("Referenced ControllerRegistration cannot be read: " ++ err.text)) ∧
      valid.type = ControllerInstallationValid ∧
      valid.status =
        (if IsNotFound err = true then ConditionStatus.ConditionFalse
          else ConditionStatus.ConditionUnknown) ∧
      valid.reason =
        (if IsNotFound err = true then "RegistrationNotFound" else "RegistrationReadError") ∧
      written = MergeConditions ci.conditions [valid, installed] ∧
      (reconcile r w ci).installation.conditions = written ∧
      valid ∈ written ∧ installed ∈ written := by
  have htype : ∀ c : Condition, c.type = ControllerInstallationValid →
      (if IsNotFound err = true then
          UpdatedCondition w.now c ConditionStatus.ConditionFalse "RegistrationNotFound"
            ("Referenced ControllerRegistration does not exist: " ++ err.text)
        else
          UpdatedCondition w.now c ConditionStatus.ConditionUnknown "RegistrationReadError"
            ("Referenced ControllerRegistration cannot be read: " ++ err.text)).type =
        ControllerInstallationValid := by
    intro c hc
    split <;> simpa [UpdatedCondition] using hc
  have hv := htype _ (GetOrInitCondition_type w.now ci.conditions ControllerInstallationValid)
  have hi := GetOrInitCondition_type w.now ci.conditions ControllerInstallationInstalled
  have hne : (if IsNotFound err = true then
          UpdatedCondition w.now
            (GetOrInitCondition w.now ci.conditions ControllerInstallationValid)
            ConditionStatus.ConditionFalse "RegistrationNotFound"
            ("Referenced ControllerRegistration does not exist: " ++ err.text)
        else
          UpdatedCondition w.now
            (GetOrInitCondition w.now ci.conditions ControllerInstallationValid)
            ConditionStatus.ConditionUnknown "RegistrationReadError"
            ("Referenced ControllerRegistration cannot be read: " ++ err.text)).type ≠
      (GetOrInitCondition w.now ci.conditions ControllerInstallationInstalled).type := by
    rw [hv, hi]; decide
  have hmem := MergeConditions_pair_mem ci.conditions _ _ hne
  refine ⟨_, _, _, ?_, ?_, rfl, rfl, hv, ?_, ?_, rfl, ?_, hmem.1, hmem.2⟩
  · unfold reconcile
    by_cases hf : ContainsFinalizer ci finalizerName = true
    · simp [hf, deferPatchConditions, reconcileBody, hreg]
    · have ha : w.addFinalizers = none := hfin.resolve_left hf
      simp [hf, AddFinalizers, ha, deferPatchConditions, reconcileBody, hreg]
  · unfold reconcile
    by_cases hf : ContainsFinalizer ci finalizerName = true
    · simp [hf, deferPatchConditions, patchConditions, reconcileBody, hreg]
    · have ha : w.addFinalizers = none := hfin.resolve_left hf
      have hf1 : finalizerName ∉ ci.finalizers := by simpa [ContainsFinalizer] using hf
      simp [hf, hf1, AddFinalizers, ha, deferPatchConditions, patchConditions, reconcileBody,
        hreg]
  · by_cases hnf : IsNotFound err = true <;> simp [hnf, UpdatedCondition]
  · by_cases hnf : IsNotFound err = true <;> simp [hnf, UpdatedCondition]
  · unfold reconcile
    by_cases hf : ContainsFinalizer ci finalizerName = true
    · simp [hf, deferPatchConditions, patchConditions, reconcileBody, hreg]
    · have ha : w.addFinalizers = none := hfin.resolve_left hf
      have hf1 : finalizerName ∉ ci.finalizers := by simpa [ContainsFinalizer] using hf
      simp [hf, hf1, AddFinalizers, ha, deferPatchConditions, patchConditions, reconcileBody,
        hreg]

/-- C10 on the sample installation when the registration does not exist: the pass stops
after the read and patches Valid to False/RegistrationNotFound. -/
theorem registration_read_failure_witness :
    ∃ valid installed written,
      (reconcile sampleReconciler registrationGoneWorld sampleInstallation).exit =
        Exit.returned {} (some errNotFound) ∧
      (reconcile sampleReconciler registrationGoneWorld sampleInstallation).trace =
        (if ContainsFinalizer sampleInstallation finalizerName = true then []
          else [Call.addFinalizers finalizerName]) ++
        [Call.getControllerRegistration sampleInstallation.registrationRef,
         Call.patchStatus [valid, installed] written] ∧
      installed = GetOrInitCondition registrationGoneWorld.now sampleInstallation.conditions
        ControllerInstallationInstalled ∧
      valid =
        (if IsNotFound errNotFound = true then
          UpdatedCondition registrationGoneWorld.now
            (GetOrInitCondition registrationGoneWorld.now sampleInstallation.conditions
              ControllerInstallationValid)
            ConditionStatus.ConditionFalse "RegistrationNotFound"
            ("Referenced ControllerRegistration does not exist: " ++ errNotFound.text)
        else
          UpdatedCondition registrationGoneWorld.now
            (GetOrInitCondition registrationGoneWorld.now sampleInstallation.conditions
              ControllerInstallationValid)
            ConditionStatus.ConditionUnknown "RegistrationReadError"
            ("Referenced ControllerRegistration cannot be read: " ++ errNotFound.text)) ∧
      valid.type = ControllerInstallationValid ∧
      valid.status =
        (if IsNotFound errNotFound = true then ConditionStatus.ConditionFalse
          else ConditionStatus.ConditionUnknown) ∧
      valid.reason =
        (if IsNotFound errNotFound = true then "RegistrationNotFound"
          else "RegistrationReadError") ∧
      written = MergeConditions sampleInstallation.conditions [valid, installed] ∧
      (reconcile sampleReconciler registrationGoneWorld sampleInstallation).installation.conditions =
        written ∧
      valid ∈ written ∧ installed ∈ written :=
  registration_read_failure sampleReconciler registrationGoneWorld sampleInstallation
    errNotFound (Or.inl (by decide)) rfl

/-! ## C11: the successful install pass -/

/-- C11: in every install pass in which the render call is issued and succeeds and the
apply succeeds, the other premises of the claim hold (the finalizer is present or its
addition succeeds, the reads of the registration, of the seed and of the referenced
deployment record succeed, the provider configuration decodes, the namespace upsert
succeeds and the seed has a cluster identity), and: the pass returns the empty result (no
delay) and no error; the object carries the finalizer; exactly one status patch is issued;
the Valid condition handed to it is the loaded one updated to True/RegistrationValid; the
Installed condition handed to it is the loaded one updated to False/InstallationPending
when the loaded status is Unknown, and exactly the loaded one otherwise (so it is True
only when it was loaded as True); both are entries of the written list.  A pass that
panics on a nil pointer before the render issues no render call: in such a pass the
render does not succeed. -/
theorem successful_install (r : Reconciler) (w : World) (ci : ControllerInstallation)
    (chart n ns : String) (values : Fields) (release : String)
    (hissued : Call.renderArchive chart n ns values ∈ (reconcile r w ci).trace)
    (hrender : w.renderArchive chart n ns values = Except.ok release)
    (happly : w.createManagedResource = none) :
    (ContainsFinalizer ci finalizerName = true ∨ w.addFinalizers = none) ∧
    (∃ reg seed dep cd helmDeployment seedClusterIdentity,
      w.getControllerRegistration = Except.ok reg ∧ w.getSeed = Except.ok seed ∧
      ci.deploymentRef = some dep ∧ w.getControllerDeployment = Except.ok cd ∧
      w.unmarshal cd.providerConfigRaw = Except.ok helmDeployment ∧
      w.upsertNamespace = none ∧ seed.clusterIdentity = some seedClusterIdentity ∧
      chart = helmDeployment.Chart ∧ n = reg.name ∧
      ns = getNamespaceForControllerInstallation ci) ∧
    ∃ valid installed written,
      (reconcile r w ci).exit = Exit.returned {} none ∧
      finalizerName ∈ (reconcile r w ci).installation.finalizers ∧
      handedToPatch (reconcile r w ci).trace = [[valid, installed]] ∧
      writtenByPatch (reconcile r w ci).trace = [written] ∧
      valid =
        UpdatedCondition w.now
          (GetOrInitCondition w.now ci.conditions ControllerInstallationValid)
          ConditionStatus.ConditionTrue "RegistrationValid"
          "Chart could be rendered successfully." ∧
      valid.type = ControllerInstallationValid ∧
      valid.status = ConditionStatus.ConditionTrue ∧
      valid.reason = "RegistrationValid" ∧
      installed.type = ControllerInstallationInstalled ∧
      ((GetOrInitCondition w.now ci.conditions ControllerInstallationInstalled).status =
          ConditionStatus.ConditionUnknown →
        installed =
          UpdatedCondition w.now
            (GetOrInitCondition w.now ci.conditions ControllerInstallationInstalled)
            ConditionStatus.ConditionFalse "InstallationPending"
            ("Installation of ManagedResource " ++ quoted ci.name ++ " is still pending.") ∧
        installed.status = ConditionStatus.ConditionFalse ∧
        installed.reason = "InstallationPending") ∧
      ((GetOrInitCondition w.now ci.conditions ControllerInstallationInstalled).status ≠
          ConditionStatus.ConditionUnknown →
        installed = GetOrInitCondition w.now ci.conditions ControllerInstallationInstalled) ∧
      (installed.status = ConditionStatus.ConditionTrue →
        (GetOrInitCondition w.now ci.conditions ControllerInstallationInstalled).status =
          ConditionStatus.ConditionTrue) ∧
      written = MergeConditions ci.conditions [valid, installed] ∧
      (reconcile r w ci).installation.conditions = written ∧
      valid ∈ written ∧ installed ∈ written := by
  obtain ⟨hfin, reg, seed, dep, cd, hdp, sid, ing, injected, h1, h2, hd, h3, h4, h5, h6, _, _,
    hc, hn, hns, _⟩ := reconcile_render r w ci chart n ns values hissued
  refine ⟨hfin, ⟨reg, seed, dep, cd, hdp, sid, h1, h2, hd, h3, h4, h5, h6, hc, hn, hns⟩, ?_⟩
  by_cases hf : ContainsFinalizer ci finalizerName = true
  · exact install_deferred_success r w ci [] _ _ _ values release
      (by simpa [ContainsFinalizer] using hf) (by simp [kinds]) (by simp) (reconcile r w ci)
      (by unfold reconcile; rw [if_pos hf]) hissued hrender happly
  · have ha : w.addFinalizers = none := hfin.resolve_left hf
    have hf1 : finalizerName ∉ ci.finalizers := by simpa [ContainsFinalizer] using hf
    exact install_deferred_success r w
      { ci with finalizers := ci.finalizers ++ [finalizerName] }
      [Call.addFinalizers finalizerName] _ _ _ values release
      (by simp) (by simp [kinds, Call.kind]) (by simp) (reconcile r w ci)
      (by
        unfold reconcile
        rw [if_neg hf]
        simp only [AddFinalizers, ha, if_neg hf1]) hissued hrender happly

/-- C11 on the first pass over the sample installation, which has no finalizer and no
conditions yet: the finalizer is added, Valid becomes True/RegistrationValid and
Installed becomes False/InstallationPending. -/
theorem successful_install_witness :
    (ContainsFinalizer freshInstallation finalizerName = true ∨
      sampleWorld.addFinalizers = none) ∧
    (∃ reg seed dep cd helmDeployment seedClusterIdentity,
      sampleWorld.getControllerRegistration = Except.ok reg ∧
      sampleWorld.getSeed = Except.ok seed ∧
      freshInstallation.deploymentRef = some dep ∧
      sampleWorld.getControllerDeployment = Except.ok cd ∧
      sampleWorld.unmarshal cd.providerConfigRaw = Except.ok helmDeployment ∧
      sampleWorld.upsertNamespace = none ∧ seed.clusterIdentity = some seedClusterIdentity ∧
      "chart" = helmDeployment.Chart ∧ "reg" = reg.name ∧
      "extension-inst" = getNamespaceForControllerInstallation freshInstallation) ∧
    ∃ valid installed written,
      (reconcile sampleReconciler sampleWorld freshInstallation).exit =
        Exit.returned {} none ∧
      finalizerName ∈
        (reconcile sampleReconciler sampleWorld freshInstallation).installation.finalizers ∧
      handedToPatch (reconcile sampleReconciler sampleWorld freshInstallation).trace =
        [[valid, installed]] ∧
      writtenByPatch (reconcile sampleReconciler sampleWorld freshInstallation).trace =
        [written] ∧
      valid =
        UpdatedCondition sampleWorld.now
          (GetOrInitCondition sampleWorld.now freshInstallation.conditions
            ControllerInstallationValid)
          ConditionStatus.ConditionTrue "RegistrationValid"
          "Chart could be rendered successfully." ∧
      valid.type = ControllerInstallationValid ∧
      valid.status = ConditionStatus.ConditionTrue ∧
      valid.reason = "RegistrationValid" ∧
      installed.type = ControllerInstallationInstalled ∧
      ((GetOrInitCondition sampleWorld.now freshInstallation.conditions
          ControllerInstallationInstalled).status = ConditionStatus.ConditionUnknown →
        installed =
          UpdatedCondition sampleWorld.now
            (GetOrInitCondition sampleWorld.now freshInstallation.conditions
              ControllerInstallationInstalled)
            ConditionStatus.ConditionFalse "InstallationPending"
            ("Installation of ManagedResource " ++ quoted freshInstallation.name ++
              " is still pending.") ∧
        installed.status = ConditionStatus.ConditionFalse ∧
        installed.reason = "InstallationPending") ∧
      ((GetOrInitCondition sampleWorld.now freshInstallation.conditions
          ControllerInstallationInstalled).status ≠ ConditionStatus.ConditionUnknown →
        installed = GetOrInitCondition sampleWorld.now freshInstallation.conditions
          ControllerInstallationInstalled) ∧
      (installed.status = ConditionStatus.ConditionTrue →
        (GetOrInitCondition sampleWorld.now freshInstallation.conditions
          ControllerInstallationInstalled).status = ConditionStatus.ConditionTrue) ∧
      written = MergeConditions freshInstallation.conditions [valid, installed] ∧
      (reconcile sampleReconciler sampleWorld freshInstallation).installation.conditions =
        written ∧
      valid ∈ written ∧ installed ∈ written :=
  successful_install sampleReconciler sampleWorld freshInstallation
    "chart" "reg" "extension-inst" (MergeMaps Fields.nil sampleInjected) "release"
    (by decide) rfl rfl

/-- A seed without settings: every call the pass gets to issue succeeds and the seed has a
cluster identity, but the map literal of the injected values dereferences the nil pointer
`seed.Spec.Settings`; the pass panics after the namespace upsert, issues no render call,
and the deferred status patch is handed the two conditions as loaded. -/
theorem install_pass_panics_on_unset_settings :
    (reconcile sampleReconciler unsetSettingsWorld sampleInstallation).exit =
      Exit.panicked nilDereference "seed.Spec.Settings.Scheduling" ∧
    kinds (reconcile sampleReconciler unsetSettingsWorld sampleInstallation).trace =
      [CallKind.getControllerRegistration, CallKind.getSeed, CallKind.getControllerDeployment,
       CallKind.upsertNamespace, CallKind.patchStatus] ∧
    handedToPatch (reconcile sampleReconciler unsetSettingsWorld sampleInstallation).trace =
      [[GetOrInitCondition unsetSettingsWorld.now sampleInstallation.conditions
          ControllerInstallationValid,
        GetOrInitCondition unsetSettingsWorld.now sampleInstallation.conditions
          ControllerInstallationInstalled]] := by
  decide

/-! ## C12: a second install pass reports the same conditions -/

/-- C12: for every installation, every assignment of outcomes to the external calls and
every clock reading `now1` of the second run, the install pass run again on the installation
as left by the first pass (its patched conditions and its finalizer) returns the same exit
and leaves the same finalizers; the conditions it leaves, the conditions it hands to the
status patch, and in particular the Valid and the Installed condition found on the object
afterwards, have the same type, status, reason and message as after the first pass. -/
theorem install_pass_idempotent (r : Reconciler) (w : World) (ci : ControllerInstallation)
    (now1 : Nat) :
    (reconcile r { w with now := now1 } (reconcile r w ci).installation).exit =
      (reconcile r w ci).exit ∧
    (reconcile r { w with now := now1 } (reconcile r w ci).installation).installation.finalizers =
      (reconcile r w ci).installation.finalizers ∧
    (reconcile r { w with now := now1 }
        (reconcile r w ci).installation).installation.conditions.map Condition.summary =
      (reconcile r w ci).installation.conditions.map Condition.summary ∧
    (handedToPatch (reconcile r { w with now := now1 } (reconcile r w ci).installation).trace).map
        (List.map Condition.summary) =
      (handedToPatch (reconcile r w ci).trace).map (List.map Condition.summary) ∧
    (∀ t, (GetCondition (reconcile r { w with now := now1 }
          (reconcile r w ci).installation).installation.conditions t).map Condition.summary =
        (GetCondition (reconcile r w ci).installation.conditions t).map Condition.summary) ∧
    (∀ t, (GetCondition (reconcile r { w with now := now1 }
          (reconcile r w ci).installation).installation.conditions t).map
          (fun c => (c.status, c.reason)) =
        (GetCondition (reconcile r w ci).installation.conditions t).map
          (fun c => (c.status, c.reason))) := by
  have key : (reconcile r { w with now := now1 } (reconcile r w ci).installation).exit =
        (reconcile r w ci).exit ∧
      (reconcile r { w with now := now1 }
          (reconcile r w ci).installation).installation.finalizers =
        (reconcile r w ci).installation.finalizers ∧
      (reconcile r { w with now := now1 }
          (reconcile r w ci).installation).installation.conditions.map Condition.summary =
        (reconcile r w ci).installation.conditions.map Condition.summary ∧
      (handedToPatch (reconcile r { w with now := now1 }
          (reconcile r w ci).installation).trace).map (List.map Condition.summary) =
        (handedToPatch (reconcile r w ci).trace).map (List.map Condition.summary) := by
    by_cases hfz : ContainsFinalizer ci finalizerName = true
    · exact install_deferred_twice r w ci [] now1 hfz (by simp [kinds]) _
        (by unfold reconcile; rw [if_pos hfz])
    · have hnot : finalizerName ∉ ci.finalizers := by
        intro hmem
        exact hfz (by simp [ContainsFinalizer, hmem])
      have hcases : (∃ err, w.addFinalizers = some err) ∨ w.addFinalizers = none := by
        cases w.addFinalizers with
        | none => exact Or.inr rfl
        | some err => exact Or.inl ⟨err, rfl⟩
      rcases hcases with ⟨err, hadd⟩ | hadd
      · {
          have hfirst : reconcile r w ci =
              { exit := Exit.returned {} (some (Errorf "failed to add finalizer" err))
                trace := [Call.addFinalizers finalizerName], installation := ci } := by
            unfold reconcile
            rw [if_neg hfz]
            simp only [AddFinalizers, hadd]
          have hsecond : reconcile r { w with now := now1 } ci =
              { exit := Exit.returned {} (some (Errorf "failed to add finalizer" err))
                trace := [Call.addFinalizers finalizerName], installation := ci } := by
            unfold reconcile
            rw [if_neg hfz]
            simp only [AddFinalizers, hadd]
          have hinst : (reconcile r w ci).installation = ci := by rw [hfirst]
          rw [hinst, hsecond, hfirst]
          exact ⟨rfl, rfl, rfl, rfl⟩ }
      · exact install_deferred_twice r w
            { ci with finalizers := ci.finalizers ++ [finalizerName] }
            [Call.addFinalizers finalizerName] now1
            (by simp [ContainsFinalizer]) (by simp [kinds, Call.kind]) (reconcile r w ci)
            (by
              unfold reconcile
              rw [if_neg hfz]
              simp only [AddFinalizers, hadd, if_neg hnot])
  obtain ⟨h1, h2, h3, h4⟩ := key
  have h5 := fun t => GetCondition_summary _ _ t h3
  refine ⟨h1, h2, h3, h4, h5, ?_⟩
  intro t
  have h := congrArg (Option.map (fun s : ConditionType × ConditionStatus × String × String =>
    (s.2.1, s.2.2.1))) (h5 t)
  simpa [Option.map_map, Function.comp, Condition.summary] using h

/-- The sample installation, run twice at different clock readings: the second run returns
the same exit and reports Valid and Installed with the same status and reason. -/
theorem install_pass_twice_on_sample :
    (reconcile sampleReconciler { sampleWorld with now := 99 }
        (reconcile sampleReconciler sampleWorld freshInstallation).installation).exit =
      Exit.returned {} none ∧
    (reconcile sampleReconciler sampleWorld freshInstallation).exit = Exit.returned {} none ∧
    ((reconcile sampleReconciler { sampleWorld with now := 99 }
        (reconcile sampleReconciler sampleWorld
          freshInstallation).installation).installation.conditions.map
        (fun c => (c.type, c.status, c.reason))) =
      ((reconcile sampleReconciler sampleWorld freshInstallation).installation.conditions.map
        (fun c => (c.type, c.status, c.reason))) := by
  decide


/-! ## C13: the nil provider configuration -/

/-- C13: (1) no invocation of `Reconcile` panics at the dereference of the provider
configuration (`providerConfig.Raw`, line 188), whatever the run-time error text; (2) when `Reconcile` reaches the install
path (the installation is read, `isResponsible` answers true without error, no deletion
is requested), the deployment-method reference is set and `Reconcile` is the install pass
run after the two reads; (3) on that path a successful read of the deployment record is
followed by the decode of the provider configuration of that very record: when that
decode fails the pass returns its error; (4) the install pass called on its own on an
installation without a deployment-method reference panics with a nil dereference of
`providerConfig.Raw` at the decode step as soon as the finalizer, the registration and
the seed are in order. -/
theorem nil_provider_config_unreachable (r : Reconciler) (w : World) :
    (∀ what, (Reconcile r w).exit ≠ Exit.panicked what "providerConfig.Raw") ∧
    (∀ ci, w.getControllerInstallation = Except.ok ci →
      (isResponsible w ci).1 = true → (isResponsible w ci).2.1 = none →
      ci.deletionTimestamp = none →
      ∃ name, ci.deploymentRef = some name ∧
        (Reconcile r w).exit = (reconcile r w ci).exit ∧
        (Reconcile r w).trace =
          Call.getControllerInstallation :: Call.getControllerDeployment name ::
            (reconcile r w ci).trace ∧
        (Reconcile r w).installation = some (reconcile r w ci).installation) ∧
    (∀ ci name reg seed cd err, ci.deploymentRef = some name →
      (ContainsFinalizer ci finalizerName = true ∨ w.addFinalizers = none) →
      w.getControllerRegistration = Except.ok reg → w.getSeed = Except.ok seed →
      w.getControllerDeployment = Except.ok cd →
      w.unmarshal cd.providerConfigRaw = Except.error err →
      (reconcile r w ci).exit = Exit.returned {} (some err)) ∧
    (∀ ci reg seed, ci.deploymentRef = none →
      (ContainsFinalizer ci finalizerName = true ∨ w.addFinalizers = none) →
      w.getControllerRegistration = Except.ok reg → w.getSeed = Except.ok seed →
      (reconcile r w ci).exit = Exit.panicked nilDereference "providerConfig.Raw") := by
  have hresp : ∀ ci : ControllerInstallation, (isResponsible w ci).1 = true →
      ∃ name, ci.deploymentRef = some name ∧
        (isResponsible w ci).2.2 = [Call.getControllerDeployment name] := by
    intro ci h
    unfold isResponsible at h ⊢
    cases hd : ci.deploymentRef with
    | none => simp [hd] at h
    | some name =>
      cases hr : w.getControllerDeploymentResponsible with
      | error e => simp [hd, hr] at h
      | ok cd => exact ⟨name, rfl, rfl⟩
  refine ⟨?_, ?_, ?_, ?_⟩
  · intro what
    unfold Reconcile
    cases h0 : w.getControllerInstallation with
    | error e => dsimp only; split <;> simp
    | ok ci =>
      dsimp only
      rcases hr : isResponsible w ci with ⟨resp, err, calls⟩
      dsimp only
      by_cases hskip : (!resp || decide (err ≠ none)) = true
      · rw [if_pos hskip]; simp
      · rw [if_neg hskip]
        have hresp1 : (isResponsible w ci).1 = true := by
          rw [hr]
          cases resp <;> simp at hskip ⊢
        obtain ⟨name, hname, _⟩ := hresp ci hresp1
        by_cases hdel : ci.deletionTimestamp ≠ none
        · rw [if_pos hdel]
          exact delete_no_panic w ci what _
        · rw [if_neg hdel]
          exact reconcile_no_decode_panic r w ci name hname what
  · intro ci h0 h1 h2 hdel
    obtain ⟨name, hname, hcalls⟩ := hresp ci h1
    refine ⟨name, hname, ?_⟩
    unfold Reconcile
    rw [h0]
    dsimp only
    rcases hr : isResponsible w ci with ⟨resp, err, calls⟩
    rw [hr] at h1 h2 hcalls
    dsimp only at h1 h2 hcalls ⊢
    subst h1 h2 hcalls
    simp [hdel]
  · intro ci name reg seed cd err href hfin hreg hseed hdep hdecode
    unfold reconcile
    by_cases hf : ContainsFinalizer ci finalizerName = true
    · simp [hf, deferPatchConditions, reconcileBody, hreg, hseed, href, hdep, hdecode]
    · have ha : w.addFinalizers = none := hfin.resolve_left hf
      have hf1 : finalizerName ∉ ci.finalizers := by simpa [ContainsFinalizer] using hf
      simp [hf, hf1, AddFinalizers, ha, deferPatchConditions, reconcileBody, hreg, hseed, href,
        hdep, hdecode]
  · intro ci reg seed href hfin hreg hseed
    unfold reconcile
    by_cases hf : ContainsFinalizer ci finalizerName = true
    · rw [if_pos hf]
      exact reconcileBody_panics r w ci _ _ _ href reg seed hreg hseed
    · rw [if_neg hf]
      have ha : w.addFinalizers = none := hfin.resolve_left hf
      simp only [AddFinalizers, ha]
      refine reconcileBody_panics r w _ _ _ _ ?_ reg seed hreg hseed
      split
      · exact href
      · exact href

/-- The install pass called on its own on the sample installation without a
deployment-method reference: it reads the registration and the seed, panics, and the
deferred status patch still runs; through `Reconcile` the same installation is skipped. -/
theorem standalone_install_pass_panics :
    (reconcile sampleReconciler unreferencedWorld unreferencedInstallation).exit =
      Exit.panicked nilDereference "providerConfig.Raw" ∧
    kinds (reconcile sampleReconciler unreferencedWorld unreferencedInstallation).trace =
      [CallKind.getControllerRegistration, CallKind.getSeed, CallKind.patchStatus] ∧
    (Reconcile sampleReconciler unreferencedWorld).exit = Exit.returned {} none := by
  decide

/-- The nil pointers `Reconcile` can still meet lie after the decode step: on a seed
without settings the invocation panics in the map literal of the injected values, after
the provider configuration of the deployment record was decoded and the namespace
upserted. -/
theorem reconcile_panics_after_decode :
    (Reconcile sampleReconciler unsetSettingsWorld).exit =
      Exit.panicked nilDereference "seed.Spec.Settings.Scheduling" ∧
    kinds (Reconcile sampleReconciler unsetSettingsWorld).trace =
      [CallKind.getControllerInstallation, CallKind.getControllerDeployment,
       CallKind.getControllerRegistration, CallKind.getSeed, CallKind.getControllerDeployment,
       CallKind.upsertNamespace, CallKind.patchStatus] := by
  decide

end ControllerInstallationControl
